import Mathlib

/-! # Eco-System mobile app: offline sync engine

A shallow embedding of the sync engine of the mobile app
(`src/app-mobile.js`, `src/offline-sync.js`, `src/network-monitor.js`).

* Asynchronous methods become functions `World → Except String α × World`:
  the world after the call is returned also when the call throws, because a
  JavaScript exception does not undo the writes made before it.
* The collaborators the code awaits (the SQLite connection, the remote API,
  the network plugin, registered callbacks) are driven by an `Env`: for the
  call made when the trace has length `k` it says whether that call fails.  The `apiRequest`
  shipped in `app-mobile.js` is a placeholder that always succeeds; it is the
  reply function `mockApi`.
* Every call to a collaborator and every call into the UI is appended to
  `World.trace`, so that "what a pass did" can be stated.
* Errors are represented by their message (`error.message`).
-/

namespace EcoSystem

/-! ## Data model -/

/-- A photo reference as held in `audit.photos` (`photoData.dataUrl`,
`photoData.timestamp`). -/
structure PhotoRef where
  dataUrl : String
  timestamp : Nat
deriving DecidableEq, Repr

/-- A row of table `audits`.  Column `photos` holds `JSON.stringify(photos)` and
is read back with `JSON.parse`; the row keeps the list itself. -/
structure Audit where
  id : Nat
  title : String
  notes : String
  photos : List PhotoRef
  status : String
  created_at : Nat
  synced_at : Option Nat
  server_id : Option Nat
  last_error : Option String
deriving DecidableEq, Repr

/-- A schedule object as sent by the server. -/
structure Schedule where
  date : String
  job_title : String
  location : Option String
  extra : List (String × String)
deriving DecidableEq, Repr

/-- A row of table `schedules`; `data` is the stored `JSON.stringify(schedule)`. -/
structure ScheduleRow where
  id : Nat
  date : String
  job_title : String
  location : String
  data : Schedule
  last_synced_at : Option Nat
deriving DecidableEq, Repr

/-- A job card object as sent by the server. -/
structure JobCard where
  job_number : String
  client : Option String
  status : Option String
  extra : List (String × String)
deriving DecidableEq, Repr

/-- A row of table `job_cards`; `data` is the stored `JSON.stringify(jobCard)`. -/
structure JobCardRow where
  id : Nat
  job_number : String
  client : String
  data : JobCard
  status : String
  updated_at : Option Nat
  synced_at : Option Nat
deriving DecidableEq, Repr

/-- An earning object as sent by the server. -/
structure Earning where
  amount : Int
  period : String
  description : Option String
deriving DecidableEq, Repr

/-- A row of table `earnings`. -/
structure EarningRow where
  id : Nat
  amount : Int
  period : String
  description : String
  last_synced_at : Option Nat
deriving DecidableEq, Repr

/-- The four tables of `createTables`, with the AUTOINCREMENT counter of each
(the largest row id handed out so far). -/
structure Db where
  audits : List Audit
  schedules : List ScheduleRow
  job_cards : List JobCardRow
  earnings : List EarningRow
  seq_audits : Nat
  seq_schedules : Nat
  seq_job_cards : Nat
  seq_earnings : Nat
deriving DecidableEq, Repr

/-- The body passed to `apiRequest`. -/
inductive ApiBody where
  | none
  | photo (photo : String) (timestamp : Nat)
  | audit (title notes : String) (photos : List String) (created_at : Nat)
deriving DecidableEq, Repr

/-- The object an API call resolves to (the fields the app reads). -/
structure ApiResponse where
  id : Nat
  schedules : List Schedule
  jobCards : List JobCard
  earnings : List Earning
  url : String
deriving DecidableEq, Repr

/-- What the program does to the outside, in order of occurrence. -/
inductive Event where
  /-- A statement sent to the SQLite connection (`db.run`, `db.query`). -/
  | db (sql : String)
  /-- A call `apiRequest(endpoint, method, data)`. -/
  | api (endpoint method : String) (body : ApiBody)
  /-- A call `syncUI.showNotification(message, type)`. -/
  | notification (message type : String)
  /-- A call `syncUI.updateStatus(status, {pendingCount, lastSync, isSyncing})`. -/
  | status (label : String) (pendingCount : Nat) (lastSync : Option Nat) (isSyncing : Bool)
  /-- A call `setTimeout(() => this.performSync(), delay)`. -/
  | setTimeout (delay : Option Nat)
  /-- A network listener called with `{online, offline}`. -/
  | listener (cb : Nat) (online offline : Bool)
  /-- A callback registered with `onConnectionRestored` called. -/
  | syncTrigger (cb : Nat)
  /-- A callback registered with `onSyncNeeded` called with `reason`. -/
  | syncNeeded (cb : Nat) (reason : String)
  /-- A call `Network.getStatus()` or `Network.addListener(...)` of the network
  plugin, by the name of the method. -/
  | network (method : String)
deriving DecidableEq, Repr

/-- The fields of `MobileApp` that change after construction.  `maxRetries` and
`retryDelays` are assigned once in the constructor and are the constants
below. -/
structure MobileApp where
  isInitialized : Bool
  authToken : Option String
  syncInProgress : Bool
  syncRetryCount : Nat
  lastSyncTime : Option Nat
deriving DecidableEq, Repr

/-- The constructor's `this.maxRetries = 3`. -/
def maxRetries : Nat := 3

/-- The constructor's `this.retryDelays = [1000, 2000, 4000, 8000]`. -/
def retryDelays : List Nat := [1000, 2000, 4000, 8000]

/-- The state `new MobileApp()` (`lastSyncTime` is not assigned, so undefined). -/
def MobileApp.new : MobileApp where
  isInitialized := false
  authToken := none
  syncInProgress := false
  syncRetryCount := 0
  lastSyncTime := none

/-- The fields of `NetworkMonitor`; callbacks are named by numbers. -/
structure NetworkMonitor where
  isOnline : Bool
  listeners : List Nat
  syncTriggers : List Nat
  isListening : Bool
deriving DecidableEq, Repr

/-- The state `new NetworkMonitor()`. -/
def NetworkMonitor.new : NetworkMonitor where
  isOnline := true
  listeners := []
  syncTriggers := []
  isListening := false

/-- The three singletons, the clock read by `Date.now()` and the trace;
`syncCallbacks` is the array of that name of `OfflineSyncManager`. -/
structure World where
  app : MobileApp
  net : NetworkMonitor
  db : Db
  now : Nat
  trace : List Event
  syncCallbacks : List Nat := []
deriving DecidableEq, Repr

/-- The behaviour of the collaborators.  The argument `k` is the length of the
trace when the call is made. -/
structure Env where
  /-- The reply of the remote API, or the message of its failure. -/
  api : Nat → String → String → ApiBody → Except String ApiResponse
  /-- The message of the storage error of the statement, if it fails. -/
  dbFault : Nat → String → Option String
  /-- The time an awaited call takes. -/
  elapsed : Nat → Nat
  /-- Whether callback `cb` throws when called. -/
  callbackThrows : Nat → Nat → Bool
  /-- The value of `status.connected` that `Network.getStatus()` resolves to, or the
  message of its failure. -/
  probe : Nat → Except String Bool := fun _ => .ok true
  /-- The message of the error thrown by the call `Network.addListener(...)`, if it
  throws. -/
  subscribe : Nat → Option String := fun _ => none

/-- The result of an asynchronous method: its value or the message of the error
thrown, and the world it leaves. -/
abbrev Res (α : Type) : Type := Except String α × World

/-- Append an event to the trace. -/
def World.emit (w : World) (e : Event) : World :=
  { w with trace := w.trace ++ [e] }

/-- The JavaScript `s || d` on a possibly missing string. -/
def orDefault (s : Option String) (d : String) : String :=
  match s with
  | some v => if v = "" then d else v
  | none => d

/-! ## `offline-sync.js` -/

/-- One awaited `this.db.run` or `this.db.query`: the statement is recorded, time
passes, and the storage error (if any) is returned.  The caller applies the
statement's effect when there is no error. -/
def dbCall (env : Env) (sql : String) (w : World) : Option String × World :=
  (env.dbFault w.trace.length sql,
    { w with trace := w.trace ++ [Event.db sql], now := w.now + env.elapsed w.trace.length })

/-- The rows selected by `WHERE status = ?`; no condition is added when
`filter.status` is missing or empty. -/
def statusMatches (filter : Option String) (a : Audit) : Bool :=
  match filter with
  | some s => if s = "" then true else decide (a.status = s)
  | none => true

/-- The clause `ORDER BY created_at DESC` (rows with equal `created_at` keep their
table order). -/
def orderByCreatedAtDesc (rows : List Audit) : List Audit :=
  rows.insertionSort (fun a b => b.created_at ≤ a.created_at)

/-- The method `getAudits(filter)`. -/
def getAudits (env : Env) (filter : Option String) (w : World) : Res (List Audit) :=
  match dbCall env "SELECT * FROM audits" w with
  | (some error, w1) => (.error error, w1)
  | (none, w1) => (.ok (orderByCreatedAtDesc (w1.db.audits.filter (statusMatches filter))), w1)

/-- The method `getPendingAudits()`. -/
def getPendingAudits (env : Env) (w : World) : Res (List Audit) :=
  getAudits env (some "pending") w

/-- The effect of `UPDATE audits SET status = ?, synced_at = ?, server_id = ?,
last_error = ? WHERE id = ?`. -/
def Db.updateAudit (d : Db) (status : String) (syncedAt serverId : Option Nat)
    (error : Option String) (localId : Nat) : Db :=
  { d with audits := d.audits.map (fun a =>
      if a.id = localId then
        { a with status := status, synced_at := syncedAt, server_id := serverId,
                 last_error := error }
      else a) }

/-- The method `updateAuditSyncStatus(localId, status, serverId = null, error = null)`. -/
def updateAuditSyncStatus (env : Env) (localId : Nat) (status : String)
    (serverId : Option Nat) (error : Option String) (w : World) : Res Unit :=
  let syncedAt := if status = "synced" then some w.now else none
  match dbCall env "UPDATE audits" w with
  | (some err, w1) => (.error err, w1)
  | (none, w1) => (.ok (), { w1 with db := w1.db.updateAudit status syncedAt serverId error localId })

/-- The constant `90 * 24 * 60 * 60 * 1000`. -/
def ninetyDays : Int := 90 * 24 * 60 * 60 * 1000

/-- The effect of `DELETE FROM schedules WHERE last_synced_at < ?` (a NULL
`last_synced_at` satisfies no comparison). -/
def Db.deleteSchedulesBefore (d : Db) (cutoff : Int) : Db :=
  { d with schedules := d.schedules.filter (fun r =>
      match r.last_synced_at with
      | some t => !decide ((t : Int) < cutoff)
      | none => true) }

/-- The effect of `INSERT OR REPLACE INTO schedules (date, job_title, location,
data, last_synced_at)`: the table has no key besides the generated `id`, so a
row is added. -/
def Db.insertSchedule (d : Db) (s : Schedule) (t : Nat) : Db :=
  { d with
    schedules := d.schedules ++
      [{ id := d.seq_schedules + 1, date := s.date, job_title := s.job_title,
         location := orDefault s.location "", data := s, last_synced_at := some t }]
    seq_schedules := d.seq_schedules + 1 }

/-- The loop of `cacheSchedules` over the schedules. -/
def insertSchedules (env : Env) : List Schedule → World → Res Unit
  | [], w => (.ok (), w)
  | s :: rest, w =>
    let t := w.now
    match dbCall env "INSERT OR REPLACE INTO schedules" w with
    | (some error, w1) => (.error error, w1)
    | (none, w1) => insertSchedules env rest { w1 with db := w1.db.insertSchedule s t }

/-- The method `cacheSchedules(schedules)`. -/
def cacheSchedules (env : Env) (schedules : List Schedule) (w : World) : Res Unit :=
  let ninetyDaysAgo : Int := (w.now : Int) - ninetyDays
  match dbCall env "DELETE FROM schedules WHERE last_synced_at < ?" w with
  | (some error, w1) => (.error error, w1)
  | (none, w1) =>
    insertSchedules env schedules { w1 with db := w1.db.deleteSchedulesBefore ninetyDaysAgo }

/-- The effect of `INSERT OR REPLACE INTO job_cards (job_number, client, data,
status, updated_at, synced_at)`: `job_number` is not declared unique, so a row
is added. -/
def Db.insertJobCard (d : Db) (c : JobCard) (t : Nat) : Db :=
  { d with
    job_cards := d.job_cards ++
      [{ id := d.seq_job_cards + 1, job_number := c.job_number,
         client := orDefault c.client "", data := c,
         status := orDefault c.status "active", updated_at := some t, synced_at := some t }]
    seq_job_cards := d.seq_job_cards + 1 }

/-- The method `cacheJobCards(jobCards)`. -/
def cacheJobCards (env : Env) : List JobCard → World → Res Unit
  | [], w => (.ok (), w)
  | c :: rest, w =>
    let t := w.now
    match dbCall env "INSERT OR REPLACE INTO job_cards" w with
    | (some error, w1) => (.error error, w1)
    | (none, w1) => cacheJobCards env rest { w1 with db := w1.db.insertJobCard c t }

/-- The effect of `INSERT INTO earnings (amount, period, description,
last_synced_at)`. -/
def Db.insertEarning (d : Db) (e : Earning) (t : Nat) : Db :=
  { d with
    earnings := d.earnings ++
      [{ id := d.seq_earnings + 1, amount := e.amount, period := e.period,
         description := orDefault e.description "", last_synced_at := some t }]
    seq_earnings := d.seq_earnings + 1 }

/-- The loop of `cacheEarnings` over the earnings. -/
def insertEarnings (env : Env) : List Earning → World → Res Unit
  | [], w => (.ok (), w)
  | e :: rest, w =>
    let t := w.now
    match dbCall env "INSERT INTO earnings" w with
    | (some error, w1) => (.error error, w1)
    | (none, w1) => insertEarnings env rest { w1 with db := w1.db.insertEarning e t }

/-- The method `cacheEarnings(earnings)`. -/
def cacheEarnings (env : Env) (earnings : List Earning) (w : World) : Res Unit :=
  match dbCall env "DELETE FROM earnings" w with
  | (some error, w1) => (.error error, w1)
  | (none, w1) => insertEarnings env earnings { w1 with db := { w1.db with earnings := [] } }

/-- The object returned by `getPendingSyncCount`. -/
structure PendingCount where
  audits : Nat
  jobCards : Nat
  total : Nat
deriving DecidableEq, Repr

/-- The value of `SELECT COUNT(*) FROM audits WHERE status = 'pending'`. -/
def Db.countPendingAudits (d : Db) : Nat :=
  (d.audits.filter (fun a => decide (a.status = "pending"))).length

/-- The value of `SELECT COUNT(*) FROM job_cards WHERE synced_at IS NULL AND
status = 'pending'`. -/
def Db.countPendingJobCards (d : Db) : Nat :=
  (d.job_cards.filter (fun c => c.synced_at.isNone && decide (c.status = "pending"))).length

/-- The method `getPendingSyncCount()`; its `catch` returns zeros. -/
def getPendingSyncCount (env : Env) (w : World) : Res PendingCount :=
  match dbCall env "SELECT COUNT(*) FROM audits WHERE status = 'pending'" w with
  | (some _, w1) => (.ok { audits := 0, jobCards := 0, total := 0 }, w1)
  | (none, w1) =>
    let audits := w1.db.countPendingAudits
    match dbCall env
        "SELECT COUNT(*) FROM job_cards WHERE synced_at IS NULL AND status = 'pending'" w1 with
    | (some _, w2) => (.ok { audits := 0, jobCards := 0, total := 0 }, w2)
    | (none, w2) =>
      let jobCards := w2.db.countPendingJobCards
      (.ok { audits := audits, jobCards := jobCards, total := audits + jobCards }, w2)

/-! ### Operations of `offline-sync.js` outside a pass -/

/-- The argument of `createAudit`: `notes` and `photos` may be missing. -/
structure AuditData where
  title : String
  notes : Option String
  photos : Option (List PhotoRef)
deriving DecidableEq, Repr

/-- The object returned by `createAudit`. -/
structure CreatedAudit where
  id : Nat
  status : String
  createdAt : Nat
deriving DecidableEq, Repr

/-- The effect of `INSERT INTO audits (title, notes, photos, status, created_at)
VALUES (?, ?, ?, 'pending', ?)`: the row gets the next generated id and NULL in
the other columns. -/
def Db.insertAudit (d : Db) (title notes : String) (photos : List PhotoRef)
    (createdAt : Nat) : Db :=
  { d with
    audits := d.audits ++
      [{ id := d.seq_audits + 1, title := title, notes := notes, photos := photos,
         status := "pending", created_at := createdAt, synced_at := none,
         server_id := none, last_error := none }]
    seq_audits := d.seq_audits + 1 }

/-- The method `onSyncNeeded(callback)` (the array push). -/
def onSyncNeeded (cb : Nat) (w : World) : World :=
  { w with syncCallbacks := w.syncCallbacks ++ [cb] }

/-- A call of a registered callback: it is recorded, and it throws when the
environment says so. -/
def invokeCallback (env : Env) (e : Event) (cb : Nat) (w : World) : Res Unit :=
  if env.callbackThrows w.trace.length cb then (.error "callback failed", w.emit e)
  else (.ok (), w.emit e)

/-- The body of the `forEach` of `notifySyncNeeded`: `try { callback(reason) }
catch { console.error }`. -/
def notifySyncOne (env : Env) (reason : String) (cb : Nat) (w : World) : Res Unit :=
  match invokeCallback env (Event.syncNeeded cb reason) cb w with
  | (.error _, w1) => (.ok (), w1)
  | (.ok (), w1) => (.ok (), w1)

/-- The `forEach` of `notifySyncNeeded` over the registered callbacks. -/
def notifySyncNeededLoop (env : Env) (reason : String) : List Nat → World → Res Unit
  | [], w => (.ok (), w)
  | cb :: rest, w =>
    match notifySyncOne env reason cb w with
    | (.error error, w1) => (.error error, w1)
    | (.ok (), w1) => notifySyncNeededLoop env reason rest w1

/-- The method `notifySyncNeeded(reason)`. -/
def notifySyncNeeded (env : Env) (reason : String) (w : World) : Res Unit :=
  notifySyncNeededLoop env reason w.syncCallbacks w

/-- The method `createAudit(auditData)`; its `catch` rethrows. -/
def createAudit (env : Env) (auditData : AuditData) (w : World) : Res CreatedAudit :=
  let createdAt := w.now
  match dbCall env "INSERT INTO audits" w with
  | (some error, w1) => (.error error, w1)
  | (none, w1) =>
    let notes := orDefault auditData.notes ""
    let photos := auditData.photos.getD []
    let w2 := { w1 with db := w1.db.insertAudit auditData.title notes photos createdAt }
    match notifySyncNeeded env "audit_created" w2 with
    | (.error error, w3) => (.error error, w3)
    | (.ok (), w3) =>
      (.ok { id := w2.db.seq_audits, status := "pending", createdAt := createdAt }, w3)

/-- The `updates` object of `updateJobCard`: the keys it has. -/
structure JobCardPatch where
  job_number : Option String
  client : Option String
  status : Option String
  extra : List (String × String)
deriving DecidableEq, Repr

/-- The object spread `{ ...base, ...updates }` on the other keys: a key of
`base` keeps its place and takes the value of `updates` when `updates` has it;
the keys only `updates` has follow. -/
def mergeExtra (base updates : List (String × String)) : List (String × String) :=
  base.map (fun kv => (kv.1, (updates.lookup kv.1).getD kv.2)) ++
    updates.filter (fun kv => (base.lookup kv.1).isNone)

/-- The object spread `{ ...jobCard, ...updates }`. -/
def JobCard.merge (jobCard : JobCard) (updates : JobCardPatch) : JobCard where
  job_number := updates.job_number.getD jobCard.job_number
  client :=
    match updates.client with
    | some c => some c
    | none => jobCard.client
  status :=
    match updates.status with
    | some s => some s
    | none => jobCard.status
  extra := mergeExtra jobCard.extra updates.extra

/-- The effect of `UPDATE job_cards SET data = ?, updated_at = ?, synced_at =
NULL, status = 'pending' WHERE job_number = ?`. -/
def Db.updateJobCard (d : Db) (data : JobCard) (t : Nat) (jobNumber : String) : Db :=
  { d with job_cards := d.job_cards.map (fun r =>
      if r.job_number = jobNumber then
        { r with data := data, updated_at := some t, synced_at := none, status := "pending" }
      else r) }

/-- The method `updateJobCard(jobNumber, updates)`; its `catch` rethrows. -/
def updateJobCard (env : Env) (jobNumber : String) (updates : JobCardPatch) (w : World) :
    Res JobCard :=
  match dbCall env "SELECT data FROM job_cards WHERE job_number = ?" w with
  | (some error, w1) => (.error error, w1)
  | (none, w1) =>
    match w1.db.job_cards.filter (fun r => decide (r.job_number = jobNumber)) with
    | [] => (.error ("Job card " ++ jobNumber ++ " not found"), w1)
    | row :: _ =>
      let updatedJobCard := row.data.merge updates
      let t := w1.now
      match dbCall env "UPDATE job_cards" w1 with
      | (some error, w2) => (.error error, w2)
      | (none, w2) =>
        let w3 := { w2 with db := w2.db.updateJobCard updatedJobCard t jobNumber }
        match notifySyncNeeded env "job_card_updated" w3 with
        | (.error error, w4) => (.error error, w4)
        | (.ok (), w4) => (.ok updatedJobCard, w4)

/-! ## `network-monitor.js` -/

/-- The object returned by `getStatus()`. -/
structure NetStatus where
  online : Bool
  offline : Bool
deriving DecidableEq, Repr

/-- The method `getStatus()`. -/
def NetworkMonitor.getStatus (n : NetworkMonitor) : NetStatus :=
  { online := n.isOnline, offline := !n.isOnline }

/-- The method `initialize()` of the monitor.  The handler passed to
`Network.addListener` is `handleNetworkChange`, which the plugin calls later; the
promise that call returns is not awaited.  The `catch` logs and assumes
online. -/
def NetworkMonitor.initialize (env : Env) (w : World) : Res Unit :=
  if w.net.isListening then (.ok (), w)
  else
    let w1 := { w with trace := w.trace ++ [Event.network "getStatus"],
                       now := w.now + env.elapsed w.trace.length }
    match env.probe w.trace.length with
    | .error _ => (.ok (), { w1 with net := { w1.net with isOnline := true } })
    | .ok connected =>
      let w2 := { w1 with net := { w1.net with isOnline := connected } }
      let w3 := w2.emit (Event.network "addListener")
      match env.subscribe w2.trace.length with
      | some _ => (.ok (), { w3 with net := { w3.net with isOnline := true } })
      | none => (.ok (), { w3 with net := { w3.net with isListening := true } })

/-- The method `addListener(callback)` (the array push). -/
def addListener (cb : Nat) (w : World) : World :=
  { w with net := { w.net with listeners := w.net.listeners ++ [cb] } }

/-- The method `onConnectionRestored(callback)` (the array push). -/
def onConnectionRestored (cb : Nat) (w : World) : World :=
  { w with net := { w.net with syncTriggers := w.net.syncTriggers ++ [cb] } }

/-- The body of the `forEach` of `notifyListeners`: `try { callback({online,
offline}) } catch { console.error }`. -/
def notifyListener (env : Env) (connected : Bool) (cb : Nat) (w : World) : Res Unit :=
  match invokeCallback env (Event.listener cb connected (!connected)) cb w with
  | (.error _, w1) => (.ok (), w1)
  | (.ok (), w1) => (.ok (), w1)

/-- The `forEach` of `notifyListeners` over the registered listeners. -/
def notifyListenersLoop (env : Env) (connected : Bool) : List Nat → World → Res Unit
  | [], w => (.ok (), w)
  | cb :: rest, w =>
    match notifyListener env connected cb w with
    | (.error error, w1) => (.error error, w1)
    | (.ok (), w1) => notifyListenersLoop env connected rest w1

/-- The method `notifyListeners(status)`. -/
def notifyListeners (env : Env) (connected : Bool) (w : World) : Res Unit :=
  notifyListenersLoop env connected w.net.listeners w

/-- The body of the `forEach` of `triggerSync`: `try { callback() } catch {
console.error }`. -/
def triggerOne (env : Env) (cb : Nat) (w : World) : Res Unit :=
  match invokeCallback env (Event.syncTrigger cb) cb w with
  | (.error _, w1) => (.ok (), w1)
  | (.ok (), w1) => (.ok (), w1)

/-- The `forEach` of `triggerSync` over the registered triggers. -/
def triggerSyncLoop (env : Env) : List Nat → World → Res Unit
  | [], w => (.ok (), w)
  | cb :: rest, w =>
    match triggerOne env cb w with
    | (.error error, w1) => (.error error, w1)
    | (.ok (), w1) => triggerSyncLoop env rest w1

/-- The method `triggerSync()`. -/
def triggerSync (env : Env) (w : World) : Res Unit :=
  triggerSyncLoop env w.net.syncTriggers w

/-- The method `handleNetworkChange(status)` of the monitor; `connected` is
`status.connected`. -/
def handleNetworkChange (env : Env) (connected : Bool) (w : World) : Res Unit :=
  let wasOnline := w.net.isOnline
  let w1 := { w with net := { w.net with isOnline := connected } }
  match notifyListeners env connected w1 with
  | (.error error, w2) => (.error error, w2)
  | (.ok (), w2) =>
    if !wasOnline && w2.net.isOnline then triggerSync env w2 else (.ok (), w2)

/-! ## `sync-ui.js` (calls into the UI are recorded; rendering is not part of the
engine) -/

/-- The method `showNotification(message, type)`. -/
def showNotification (message type : String) (w : World) : World :=
  w.emit (Event.notification message type)

/-- The method `showSyncProgress(message)`. -/
def showSyncProgress (message : String) (w : World) : World :=
  showNotification message "info" w

/-- The method `showSyncSuccess(message)`. -/
def showSyncSuccess (message : String) (w : World) : World :=
  showNotification message "success" w

/-- The method `showSyncError(message, error)` called with an error. -/
def showSyncError (message error : String) (w : World) : World :=
  showNotification (message ++ ": " ++ error) "error" w

/-! ## `app-mobile.js` -/

/-- The reply of the placeholder `apiRequest` of `app-mobile.js`; `random` stands
for `Math.floor(Math.random() * 10000)`. -/
def mockApi (random : Nat → Nat) (k : Nat) (_endpoint _method : String) (_data : ApiBody) :
    Except String ApiResponse :=
  .ok { id := random k % 10000, schedules := [], jobCards := [], earnings := [],
        url := "https://example.com/uploads/photo.jpg" }

/-- The method `apiRequest(endpoint, method, data)` as a call to the remote
service. -/
def apiRequest (env : Env) (endpoint method : String) (data : ApiBody) (w : World) :
    Res ApiResponse :=
  (env.api w.trace.length endpoint method data,
    { w with trace := w.trace ++ [Event.api endpoint method data],
             now := w.now + env.elapsed w.trace.length })

/-- The chain of conditions of `updateSyncStatus` that chooses the status
string. -/
def statusLabel (syncInProgress online : Bool) (total : Nat) : String :=
  if syncInProgress then "syncing"
  else if !online then "offline"
  else if total = 0 then "online-synced"
  else "online"

/-- The `try` block of `updateSyncStatus`. -/
def updateSyncStatusTry (env : Env) (w : World) : Res Unit :=
  let networkStatus := w.net.getStatus
  match getPendingSyncCount env w with
  | (.error error, w1) => (.error error, w1)
  | (.ok pendingCount, w1) =>
    let status := statusLabel w1.app.syncInProgress networkStatus.online pendingCount.total
    (.ok (), w1.emit
      (Event.status status pendingCount.total w1.app.lastSyncTime w1.app.syncInProgress))

/-- The method `updateSyncStatus()`; its `catch` only logs. -/
def updateSyncStatus (env : Env) (w : World) : Res Unit :=
  match updateSyncStatusTry env w with
  | (.error _, w1) => (.ok (), w1)
  | (.ok (), w1) => (.ok (), w1)

/-- The method `uploadPhoto(photoData)`; its `catch` rethrows. -/
def uploadPhoto (env : Env) (photoData : PhotoRef) (w : World) : Res String :=
  match apiRequest env "/api/mobile/uploads" "POST"
      (ApiBody.photo photoData.dataUrl photoData.timestamp) w with
  | (.error error, w1) => (.error error, w1)
  | (.ok response, w1) => (.ok response.url, w1)

/-- The loop of `syncAudit` over `audit.photos`, returning `photoUrls`. -/
def uploadPhotos (env : Env) : List PhotoRef → World → Res (List String)
  | [], w => (.ok [], w)
  | photo :: rest, w =>
    match uploadPhoto env photo w with
    | (.error error, w1) => (.error error, w1)
    | (.ok url, w1) =>
      match uploadPhotos env rest w1 with
      | (.error error, w2) => (.error error, w2)
      | (.ok urls, w2) => (.ok (url :: urls), w2)

/-- The `try` block of `syncAudit`. -/
def syncAuditTry (env : Env) (audit : Audit) (w : World) : Res Unit :=
  match uploadPhotos env audit.photos w with
  | (.error error, w1) => (.error error, w1)
  | (.ok photoUrls, w1) =>
    match apiRequest env "/api/mobile/sync/audits" "POST"
        (ApiBody.audit audit.title audit.notes photoUrls audit.created_at) w1 with
    | (.error error, w2) => (.error error, w2)
    | (.ok response, w2) => updateAuditSyncStatus env audit.id "synced" (some response.id) none w2

/-- The method `syncAudit(audit)`: on an error the audit is marked and the error
is thrown again. -/
def syncAudit (env : Env) (audit : Audit) (w : World) : Res Unit :=
  match syncAuditTry env audit w with
  | (.ok (), w1) => (.ok (), w1)
  | (.error error, w1) =>
    match updateAuditSyncStatus env audit.id "error" none (some error) w1 with
    | (.error error2, w2) => (.error error2, w2)
    | (.ok (), w2) => (.error error, w2)

/-- The loop `for (const audit of pendingAudits) await this.syncAudit(audit)`. -/
def syncAudits (env : Env) : List Audit → World → Res Unit
  | [], w => (.ok (), w)
  | audit :: rest, w =>
    match syncAudit env audit w with
    | (.error error, w1) => (.error error, w1)
    | (.ok (), w1) => syncAudits env rest w1

/-- The method `fetchSchedules()`; its `catch` only logs. -/
def fetchSchedules (env : Env) (w : World) : Res Unit :=
  match apiRequest env "/api/mobile/user/schedule" "GET" ApiBody.none w with
  | (.error _, w1) => (.ok (), w1)
  | (.ok response, w1) =>
    match cacheSchedules env response.schedules w1 with
    | (.error _, w2) => (.ok (), w2)
    | (.ok (), w2) => (.ok (), w2)

/-- The method `fetchJobCards()`; its `catch` only logs. -/
def fetchJobCards (env : Env) (w : World) : Res Unit :=
  match apiRequest env "/api/mobile/user/job-cards" "GET" ApiBody.none w with
  | (.error _, w1) => (.ok (), w1)
  | (.ok response, w1) =>
    match cacheJobCards env response.jobCards w1 with
    | (.error _, w2) => (.ok (), w2)
    | (.ok (), w2) => (.ok (), w2)

/-- The method `fetchEarnings()`; its `catch` only logs. -/
def fetchEarnings (env : Env) (w : World) : Res Unit :=
  match apiRequest env "/api/mobile/user/earnings" "GET" ApiBody.none w with
  | (.error _, w1) => (.ok (), w1)
  | (.ok response, w1) =>
    match cacheEarnings env response.earnings w1 with
    | (.error _, w2) => (.ok (), w2)
    | (.ok (), w2) => (.ok (), w2)

/-- The three fetches of `performSync` and the statements after them, up to the
end of the `try` block. -/
def refreshAndFinish (env : Env) (w : World) : Res Unit :=
  match fetchSchedules env w with
  | (.error error, w1) => (.error error, w1)
  | (.ok (), w1) =>
    match fetchJobCards env w1 with
    | (.error error, w2) => (.error error, w2)
    | (.ok (), w2) =>
      match fetchEarnings env w2 with
      | (.error error, w3) => (.error error, w3)
      | (.ok (), w3) =>
        let w4 := { w3 with app := { w3.app with lastSyncTime := some w3.now,
                                                 syncRetryCount := 0 } }
        (.ok (), showSyncSuccess "All data synced successfully" w4)

/-- The first part of the `try` block of `performSync`: the pending audits are
read and uploaded one after the other. -/
def uploadPending (env : Env) (w : World) : Res Unit :=
  let w1 := showSyncProgress "Syncing data..." w
  match getPendingAudits env w1 with
  | (.error error, w2) => (.error error, w2)
  | (.ok pendingAudits, w2) => syncAudits env pendingAudits w2

/-- The `try` block of `performSync`. -/
def performSyncTry (env : Env) (w : World) : Res Unit :=
  match uploadPending env w with
  | (.error error, w1) => (.error error, w1)
  | (.ok (), w1) => refreshAndFinish env w1

/-- The `catch` block of `performSync`: the retry with backoff. -/
def performSyncCatch (error : String) (w : World) : World :=
  let w1 := showSyncError "Sync failed" error w
  if w1.app.syncRetryCount < maxRetries then
    let delay := retryDelays[w1.app.syncRetryCount]?
    let w2 := { w1 with app := { w1.app with syncRetryCount := w1.app.syncRetryCount + 1 } }
    w2.emit (Event.setTimeout delay)
  else w1

/-- The `finally` block of `performSync`. -/
def performSyncFinally (env : Env) (w : World) : Res Unit :=
  updateSyncStatus env { w with app := { w.app with syncInProgress := false } }

/-- The assignment `this.syncInProgress = true` that opens a pass. -/
def enterSync (w : World) : World :=
  { w with app := { w.app with syncInProgress := true } }

/-- The assignment `this.syncInProgress = false` that opens the `finally` block of
`performSync`, before the awaited `updateSyncStatus()`. -/
def leaveSync (w : World) : World :=
  { w with app := { w.app with syncInProgress := false } }

/-- The `try`/`catch` of `performSync`, before its `finally`. -/
def performSyncBody (env : Env) (w : World) : Res Unit :=
  match performSyncTry env w with
  | (.ok (), w1) => (.ok (), w1)
  | (.error error, w1) => (.ok (), performSyncCatch error w1)

/-- A pass after `this.syncInProgress = true`: the status update, the
`try`/`catch` and the `finally` (whose own error, if any, replaces the
result). -/
def performSyncRunning (env : Env) (w : World) : Res Unit :=
  match updateSyncStatus env w with
  | (.error error, w1) => (.error error, w1)
  | (.ok (), w1) =>
    let r := performSyncBody env w1
    match performSyncFinally env r.2 with
    | (.error error, w2) => (.error error, w2)
    | (.ok (), w2) => (r.1, w2)

/-- The method `performSync()`. -/
def performSync (env : Env) (w : World) : Res Unit :=
  if w.app.syncInProgress then (.ok (), w)
  else performSyncRunning env (enterSync w)

/-- The method `performAutoSync()`. -/
def performAutoSync (env : Env) (w : World) : Res Unit :=
  if w.app.syncInProgress then (.ok (), w)
  else performSync env w

/-- The JavaScript truth value of `this.authToken` (null and the empty string
are false). -/
def MobileApp.hasAuthToken (a : MobileApp) : Bool :=
  match a.authToken with
  | some t => !decide (t = "")
  | none => false

/-- The method `performManualSync()`. -/
def performManualSync (env : Env) (w : World) : Res Unit :=
  if w.app.syncInProgress then
    (.ok (), showNotification "Sync already in progress" "info" w)
  else if !w.net.getStatus.online then
    (.ok (), showNotification "Cannot sync while offline" "error" w)
  else if !w.app.hasAuthToken then
    (.ok (), showNotification "Please log in to sync" "error" w)
  else performSync env w

/-- The end of the `try` block of `initialize` of the app: the initial sync when
online and logged in, then `this.isInitialized = true`.  An error of the awaited
`performSync` would leave the block before the assignment and be thrown again by
the `catch`. -/
def initialSync (env : Env) (w : World) : Res Unit :=
  if w.net.getStatus.online && w.app.hasAuthToken then
    match performSync env w with
    | (.error error, w1) => (.error error, w1)
    | (.ok (), w1) => (.ok (), { w1 with app := { w1.app with isInitialized := true } })
  else (.ok (), { w with app := { w.app with isInitialized := true } })

/-! ## Observing a run -/

/-- The events recorded between world `w` and a later world `w2`. -/
def eventsSince (w w2 : World) : List Event :=
  w2.trace.drop w.trace.length

/-- The delays of the retries scheduled with `setTimeout`, in order. -/
def retryTimers (evs : List Event) : List (Option Nat) :=
  evs.filterMap (fun e =>
    match e with
    | Event.setTimeout delay => some delay
    | _ => none)

/-- The API calls made, as endpoint and method, in order. -/
def apiRequests (evs : List Event) : List (String × String) :=
  evs.filterMap (fun e =>
    match e with
    | Event.api endpoint method _ => some (endpoint, method)
    | _ => none)

/-- The statements sent to the database, in order. -/
def dbStatements (evs : List Event) : List String :=
  evs.filterMap (fun e =>
    match e with
    | Event.db sql => some sql
    | _ => none)

/-- The notifications shown to the user, in order. -/
def notifications (evs : List Event) : List (String × String) :=
  evs.filterMap (fun e =>
    match e with
    | Event.notification message type => some (message, type)
    | _ => none)

/-- The callbacks of `onConnectionRestored` that were called, in order. -/
def triggerCalls (evs : List Event) : List Nat :=
  evs.filterMap (fun e =>
    match e with
    | Event.syncTrigger cb => some cb
    | _ => none)

/-- An event of the store: a statement sent to the database. -/
def Event.isDb : Event → Bool
  | Event.db _ => true
  | _ => false

/-- An event that stays on the device: a statement sent to the database, a
status published to the UI or a notification shown. -/
def Event.isLocal : Event → Bool
  | Event.db _ => true
  | Event.status _ _ _ _ => true
  | Event.notification _ _ => true
  | _ => false

/-- An event of the upload of an audit: a statement sent to the database or a
POST to the photo or audit endpoint. -/
def Event.isUpload : Event → Bool
  | Event.db _ => true
  | Event.api endpoint method _ =>
    decide (method = "POST") &&
      (decide (endpoint = "/api/mobile/uploads") || decide (endpoint = "/api/mobile/sync/audits"))
  | _ => false

/-- World `w2` comes after `w` by calls that leave the app and the monitor as
they are and record only events of kind `P`. -/
structure Steps (P : Event → Bool) (w w2 : World) : Prop where
  app : w2.app = w.app
  net : w2.net = w.net
  now : w.now ≤ w2.now
  trace : ∃ evs, w2.trace = w.trace ++ evs ∧ ∀ e ∈ evs, P e = true

/-- The world in which the `try` block of a pass starts: the flag is set and the
status has been published. -/
def passStart (env : Env) (w : World) : World :=
  (updateSyncStatus env (enterSync w)).2

/-- The world in which the call of `performSync` made in `w` awaits the status
update of its `finally` block: the `try`/`catch` has ended and the flag has been
cleared; the call has not resolved yet. -/
def finallyStart (env : Env) (w : World) : World :=
  leaveSync (performSyncBody env (passStart env w)).2

/-- The pass started in `w` fails: its `try` block throws. -/
def passFails (env : Env) (w : World) : Bool :=
  match (performSyncTry env (passStart env w)).1 with
  | .error _ => true
  | .ok _ => false

/-- The states of the app reached from construction by passes of `performSync`,
whatever the store, the network and the collaborators do in between. -/
inductive Reachable : MobileApp → Prop where
  | construct : Reachable MobileApp.new
  | pass (env : Env) (w : World) : Reachable w.app → Reachable (performSync env w).2.app
  /-- The other methods of the class assign only `authToken` and
  `isInitialized`. -/
  | assign (app : MobileApp) (token : Option String) (initialized : Bool) :
    Reachable app → Reachable { app with authToken := token, isInitialized := initialized }

/-- A store and network in which nothing has happened yet, around a new app. -/
def World.fresh : World where
  app := MobileApp.new
  net := NetworkMonitor.new
  db := { audits := [], schedules := [], job_cards := [], earnings := [],
          seq_audits := 0, seq_schedules := 0, seq_job_cards := 0, seq_earnings := 0 }
  now := 0
  trace := []

/-- Collaborators that never fail: the placeholder API, a healthy store. -/
def Env.healthy : Env where
  api := mockApi (fun k => k)
  dbFault := fun _ _ => none
  elapsed := fun _ => 1
  callbackThrows := fun _ _ => false

/-- Collaborators with a store that fails on every statement. -/
def Env.storeDown : Env where
  api := mockApi (fun k => k)
  dbFault := fun _ _ => some "database is locked"
  elapsed := fun _ => 1
  callbackThrows := fun _ _ => false

/-- The world left by a call of `performSync`. -/
def pass (env : Env) (w : World) : World :=
  (performSync env w).2

/-- A pending audit with one photo. -/
def Audit.roof : Audit where
  id := 1
  title := "Roof"
  notes := "loose tiles"
  photos := [{ dataUrl := "data:image/jpeg;base64,AAAA", timestamp := 100 }]
  status := "pending"
  created_at := 100
  synced_at := none
  server_id := none
  last_error := none

/-- An audit that has been uploaded. -/
def Audit.gutter : Audit where
  id := 2
  title := "Gutter"
  notes := ""
  photos := []
  status := "synced"
  created_at := 50
  synced_at := some 60
  server_id := some 7
  last_error := none

/-- An audit whose upload failed. -/
def Audit.fence : Audit where
  id := 3
  title := "Fence"
  notes := ""
  photos := []
  status := "error"
  created_at := 70
  synced_at := none
  server_id := none
  last_error := some "Network request failed"

/-- A pending audit without photos, older than `Audit.roof`. -/
def Audit.drain : Audit where
  id := 4
  title := "Drain"
  notes := ""
  photos := []
  status := "pending"
  created_at := 90
  synced_at := none
  server_id := none
  last_error := none

/-- A device that is online and logged in after two failed passes, holding three
audits (pending, synced, error) and two job cards (pending, active). -/
def World.sample : World where
  app := { MobileApp.new with authToken := some "token", syncRetryCount := 2 }
  net := { NetworkMonitor.new with listeners := [1], syncTriggers := [2, 3] }
  db :=
    { audits := [Audit.roof, Audit.gutter, Audit.fence]
      schedules := []
      job_cards :=
        [{ id := 1, job_number := "J-1", client := "Acme",
           data := { job_number := "J-1", client := some "Acme", status := none, extra := [] },
           status := "pending", updated_at := some 80, synced_at := none },
         { id := 2, job_number := "J-2", client := "",
           data := { job_number := "J-2", client := none, status := none, extra := [] },
           status := "active", updated_at := some 40, synced_at := some 40 }]
      earnings := []
      seq_audits := 3, seq_schedules := 0, seq_job_cards := 2, seq_earnings := 0 }
  now := 1000
  trace := []

/-- The sample device with a second pending audit, older than the first. -/
def World.twoPending : World :=
  { World.sample with
    db := { World.sample.db with
      audits := World.sample.db.audits ++ [Audit.drain]
      seq_audits := 4 } }

/-- Collaborators with an unreachable server and a healthy store. -/
def Env.serverDown : Env where
  api := fun _ _ _ _ => .error "Network request failed"
  dbFault := fun _ _ => none
  elapsed := fun _ => 1
  callbackThrows := fun _ _ => false

/-- Collaborators with an unreachable server and a store that refuses the
update of an audit. -/
def Env.serverDownNoWrite : Env where
  api := fun _ _ _ _ => .error "Network request failed"
  dbFault := fun _ sql =>
    if sql = "UPDATE audits" then some "attempt to write a readonly database" else none
  elapsed := fun _ => 1
  callbackThrows := fun _ _ => false

/-- Collaborators for which the schedule request is rejected and the earnings
table cannot be cleared; uploads and the job cards request work. -/
def Env.refreshBroken : Env where
  api := fun k endpoint method data =>
    if endpoint = "/api/mobile/user/schedule" then .error "HTTP 500"
    else mockApi (fun n => n) k endpoint method data
  dbFault := fun _ sql => if sql = "DELETE FROM earnings" then some "disk I/O error" else none
  elapsed := fun _ => 1
  callbackThrows := fun _ _ => true

/-- The worlds left by successive calls of `performSync`, one for each element of
`envs`. -/
def passes : List Env → World → World
  | [], w => w
  | env :: rest, w => passes rest (pass env w)

/-- The list `pendingAudits` that the pass started in `w` iterates over (empty
when reading it fails). -/
def pendingRead (env : Env) (w : World) : List Audit :=
  match (getPendingAudits env (showSyncProgress "Syncing data..." (passStart env w))).1 with
  | .ok pendingAudits => pendingAudits
  | .error _ => []

/-- The audit records posted to `/api/mobile/sync/audits`, as title, notes and
`created_at`, in order. -/
def auditPosts (evs : List Event) : List (String × String × Nat) :=
  evs.filterMap (fun e =>
    match e with
    | Event.api endpoint method (ApiBody.audit title notes _ created_at) =>
      if endpoint = "/api/mobile/sync/audits" ∧ method = "POST"
      then some (title, notes, created_at) else none
    | _ => none)

/-- The network listeners that were called, with the object passed, in order. -/
def listenerCalls (evs : List Event) : List (Nat × Bool × Bool) :=
  evs.filterMap (fun e =>
    match e with
    | Event.listener cb online offline => some (cb, online, offline)
    | _ => none)

/-- The callbacks of `onSyncNeeded` that were called, with the reason, in
order. -/
def syncNeededCalls (evs : List Event) : List (Nat × String) :=
  evs.filterMap (fun e =>
    match e with
    | Event.syncNeeded cb reason => some (cb, reason)
    | _ => none)

/-- An event of the upload of the audits `l`: a statement sent to the database, a
POST of a photo, or a POST of the record of one of the audits of `l`. -/
def Event.isUploadOf (l : List Audit) : Event → Bool
  | Event.db _ => true
  | Event.api endpoint method (ApiBody.photo _ _) =>
    decide (endpoint = "/api/mobile/uploads") && decide (method = "POST")
  | Event.api endpoint method (ApiBody.audit title notes _ created_at) =>
    decide (endpoint = "/api/mobile/sync/audits") && decide (method = "POST") &&
      l.any (fun a => decide (a.title = title) && decide (a.notes = notes) &&
        decide (a.created_at = created_at))
  | _ => false

/-- What the upload of the audits with the ids `ids` may do to a row `r` of table
`audits`: nothing, or, when `r` has one of these ids, write 'synced' or 'error'
into `status` (and `synced_at`, `server_id`, `last_error` with it). -/
def Touched (ids : List Nat) (r r2 : Audit) : Prop :=
  r2 = r ∨
    (r.id ∈ ids ∧ r2.id = r.id ∧ r2.title = r.title ∧ r2.notes = r.notes ∧
      r2.photos = r.photos ∧ r2.created_at = r.created_at ∧
      (r2.status = "synced" ∨ r2.status = "error"))

/-- World `w2` comes after `w` by calls that touch in table `audits` only rows
with an id in `ids`, as `Touched` says, and that only add rows to table
`job_cards`. -/
structure DbStep (ids : List Nat) (w w2 : World) : Prop where
  audits : List.Forall₂ (Touched ids) w.db.audits w2.db.audits
  job_cards : ∃ added, w2.db.job_cards = w.db.job_cards ++ added

/-- The changes of a row of table `audits` that passes may make: none, or the
write of 'synced' or 'error' into the status of a row that was 'pending'. -/
def StatusStep (r r2 : Audit) : Prop :=
  r2 = r ∨
    (r.status = "pending" ∧ r2.id = r.id ∧ r2.title = r.title ∧ r2.notes = r.notes ∧
      r2.photos = r.photos ∧ r2.created_at = r.created_at ∧
      (r2.status = "synced" ∨ r2.status = "error"))

/-- The call `apiRequest('/api/mobile/uploads', 'POST', {photo, timestamp})` that
`uploadPhoto` makes for a photo. -/
def photoPost (photo : PhotoRef) : Event :=
  Event.api "/api/mobile/uploads" "POST" (ApiBody.photo photo.dataUrl photo.timestamp)

/-- The reply of the API to the upload of a photo made when the trace has length
`k`. -/
def photoReply (env : Env) (k : Nat) (photo : PhotoRef) : Except String ApiResponse :=
  env.api k "/api/mobile/uploads" "POST" (ApiBody.photo photo.dataUrl photo.timestamp)

/-- The call `apiRequest('/api/mobile/sync/audits', 'POST', {title, notes, photos,
created_at})` for an audit, with `photos` the list `urls`. -/
def auditPost (audit : Audit) (urls : List String) : Event :=
  Event.api "/api/mobile/sync/audits" "POST"
    (ApiBody.audit audit.title audit.notes urls audit.created_at)

/-- The calls of `apiRequest` recorded, with their bodies, in order. -/
def apiEvents (evs : List Event) : List Event :=
  evs.filter (fun e =>
    match e with
    | Event.api _ _ _ => true
    | _ => false)

/-- Collaborators without the network plugin: the probe fails. -/
def Env.noPlugin : Env where
  api := mockApi (fun k => k)
  dbFault := fun _ _ => none
  elapsed := fun _ => 1
  callbackThrows := fun _ _ => false
  probe := fun _ => .error "Network plugin is not implemented"

/-- Collaborators for which the probe reports no connection and the
subscription throws. -/
def Env.noSubscription : Env where
  api := mockApi (fun k => k)
  dbFault := fun _ _ => none
  elapsed := fun _ => 1
  callbackThrows := fun _ _ => false
  probe := fun _ => .ok false
  subscribe := fun _ => some "addListener is not implemented"

/-- A server that stores each photo under a URL naming the photo, and rejects
the photo taken at `rejected`. -/
def Env.photoServer (rejected : Option Nat) : Env where
  api := fun k endpoint method data =>
    match data with
    | ApiBody.photo photo t =>
      if rejected = some t then .error "HTTP 413"
      else .ok { id := k, schedules := [], jobCards := [], earnings := [],
                 url := "https://cdn.example.com/" ++ photo }
    | _ => mockApi (fun n => n) k endpoint method data
  dbFault := fun _ _ => none
  elapsed := fun _ => 1
  callbackThrows := fun _ _ => false

/-- A pending audit with three photos. -/
def Audit.wall : Audit where
  id := 5
  title := "Wall"
  notes := "cracks"
  photos := [{ dataUrl := "a.jpg", timestamp := 201 },
             { dataUrl := "b.jpg", timestamp := 202 },
             { dataUrl := "c.jpg", timestamp := 203 }]
  status := "pending"
  created_at := 200
  synced_at := none
  server_id := none
  last_error := none

/-- A job card as the server sends it. -/
def JobCard.sample : JobCard where
  job_number := "J-1"
  client := some "Acme"
  status := some "active"
  extra := [("site", "North yard")]

/-- Collaborators for which the server rejects the record of the audit titled
"Drain" and accepts everything else. -/
def Env.drainRejected : Env where
  api := fun k endpoint method data =>
    match data with
    | ApiBody.audit title _ _ _ =>
      if title = "Drain" then .error "HTTP 422" else mockApi (fun n => n) k endpoint method data
    | _ => mockApi (fun n => n) k endpoint method data
  dbFault := fun _ _ => none
  elapsed := fun _ => 1
  callbackThrows := fun _ _ => false

/-- Collaborators with a store that fails on the statement sent when the trace
has length `n`, and on no other. -/
def Env.failsAt (n : Nat) : Env where
  api := mockApi (fun k => k)
  dbFault := fun k _ => if k = n then some "database or disk is full" else none
  elapsed := fun _ => 1
  callbackThrows := fun _ _ => false

/-- Two earnings as the server sends them, the second without description. -/
def sampleEarnings : List Earning :=
  [{ amount := 120, period := "2026-10", description := some "Bonus" },
   { amount := 80, period := "2026-09", description := none }]

/-! ## Lemmas on steps -/

theorem Steps.refl (P : Event → Bool) (w : World) : Steps P w w :=
  ⟨rfl, rfl, Nat.le_refl _, [], by simp, by simp⟩

theorem Steps.trans {P : Event → Bool} {w1 w2 w3 : World}
    (h12 : Steps P w1 w2) (h23 : Steps P w2 w3) : Steps P w1 w3 := by
  obtain ⟨a1, n1, t1, e1, he1, hp1⟩ := h12
  obtain ⟨a2, n2, t2, e2, he2, hp2⟩ := h23
  refine ⟨a2.trans a1, n2.trans n1, Nat.le_trans t1 t2, e1 ++ e2, ?_, ?_⟩
  · rw [he2, he1, List.append_assoc]
  · intro e he
    rcases List.mem_append.mp he with h | h
    · exact hp1 e h
    · exact hp2 e h

theorem Steps.mono {P Q : Event → Bool} {w1 w2 : World} (hPQ : ∀ e, P e = true → Q e = true)
    (h : Steps P w1 w2) : Steps Q w1 w2 := by
  obtain ⟨a1, n1, t1, e1, he1, hp1⟩ := h
  exact ⟨a1, n1, t1, e1, he1, fun e he => hPQ e (hp1 e he)⟩

theorem Event.isUpload_of_isDb (e : Event) (h : e.isDb = true) : e.isUpload = true := by
  cases e <;> simp_all [Event.isDb, Event.isUpload]

theorem steps_dbCall (env : Env) (sql : String) (w : World) :
    Steps Event.isDb w (dbCall env sql w).2 :=
  ⟨rfl, rfl, Nat.le_add_right _ _, [Event.db sql], rfl, by simp [Event.isDb]⟩

theorem steps_getAudits (env : Env) (filter : Option String) (w : World) :
    Steps Event.isDb w (getAudits env filter w).2 := by
  have h := steps_dbCall env "SELECT * FROM audits" w
  unfold getAudits
  split <;> rename_i heq <;> rw [heq] at h <;> exact h

theorem Event.isLocal_of_isDb (e : Event) (h : e.isDb = true) : e.isLocal = true := by
  cases e <;> simp_all [Event.isDb, Event.isLocal]

theorem Steps.setDb {P : Event → Bool} {w w1 : World} (h : Steps P w w1) (d : Db) :
    Steps P w { w1 with db := d } :=
  ⟨h.app, h.net, h.now, h.trace⟩

theorem Steps.emit {P : Event → Bool} {w w1 : World} (h : Steps P w w1) (e : Event)
    (he : P e = true) : Steps P w (w1.emit e) := by
  refine Steps.trans h ⟨rfl, rfl, Nat.le_refl _, [e], rfl, ?_⟩
  intro x hx
  rw [List.mem_singleton.mp hx]
  exact he

theorem steps_updateAuditSyncStatus (env : Env) (localId : Nat) (status : String)
    (serverId : Option Nat) (error : Option String) (w : World) :
    Steps Event.isDb w (updateAuditSyncStatus env localId status serverId error w).2 := by
  have h := steps_dbCall env "UPDATE audits" w
  unfold updateAuditSyncStatus
  rcases hd : dbCall env "UPDATE audits" w with ⟨_ | err, w1⟩ <;> rw [hd] at h
  · exact h.setDb _
  · exact h

theorem steps_insertSchedules (env : Env) (l : List Schedule) (w : World) :
    Steps Event.isDb w (insertSchedules env l w).2 := by
  induction l generalizing w with
  | nil => exact Steps.refl _ _
  | cons s rest ih =>
    have h := steps_dbCall env "INSERT OR REPLACE INTO schedules" w
    unfold insertSchedules
    split <;> rename_i heq <;> rw [heq] at h
    · exact h
    · exact (h.setDb _).trans (ih _)

theorem steps_cacheSchedules (env : Env) (l : List Schedule) (w : World) :
    Steps Event.isDb w (cacheSchedules env l w).2 := by
  have h := steps_dbCall env "DELETE FROM schedules WHERE last_synced_at < ?" w
  unfold cacheSchedules
  split <;> rename_i heq <;> rw [heq] at h
  · exact h
  · exact (h.setDb _).trans (steps_insertSchedules env l _)

theorem steps_cacheJobCards (env : Env) (l : List JobCard) (w : World) :
    Steps Event.isDb w (cacheJobCards env l w).2 := by
  induction l generalizing w with
  | nil => exact Steps.refl _ _
  | cons c rest ih =>
    have h := steps_dbCall env "INSERT OR REPLACE INTO job_cards" w
    unfold cacheJobCards
    split <;> rename_i heq <;> rw [heq] at h
    · exact h
    · exact (h.setDb _).trans (ih _)

theorem steps_insertEarnings (env : Env) (l : List Earning) (w : World) :
    Steps Event.isDb w (insertEarnings env l w).2 := by
  induction l generalizing w with
  | nil => exact Steps.refl _ _
  | cons c rest ih =>
    have h := steps_dbCall env "INSERT INTO earnings" w
    unfold insertEarnings
    split <;> rename_i heq <;> rw [heq] at h
    · exact h
    · exact (h.setDb _).trans (ih _)

theorem steps_cacheEarnings (env : Env) (l : List Earning) (w : World) :
    Steps Event.isDb w (cacheEarnings env l w).2 := by
  have h := steps_dbCall env "DELETE FROM earnings" w
  unfold cacheEarnings
  split <;> rename_i heq <;> rw [heq] at h
  · exact h
  · exact (h.setDb _).trans (steps_insertEarnings env l _)

theorem steps_getPendingSyncCount (env : Env) (w : World) :
    Steps Event.isDb w (getPendingSyncCount env w).2 := by
  have h := steps_dbCall env "SELECT COUNT(*) FROM audits WHERE status = 'pending'" w
  unfold getPendingSyncCount
  split <;> rename_i heq <;> rw [heq] at h
  · exact h
  · rename_i w1
    have h2 := steps_dbCall env
      "SELECT COUNT(*) FROM job_cards WHERE synced_at IS NULL AND status = 'pending'" w1
    split <;> rename_i heq2 <;> rw [heq2] at h2 <;> exact h.trans h2

theorem getPendingSyncCount_db (env : Env) (w : World) :
    (getPendingSyncCount env w).2.db = w.db := by
  have h : (dbCall env "SELECT COUNT(*) FROM audits WHERE status = 'pending'" w).2.db = w.db :=
    rfl
  unfold getPendingSyncCount
  split <;> rename_i heq <;> rw [heq] at h
  · exact h
  · rename_i w1
    have h2 : (dbCall env
      "SELECT COUNT(*) FROM job_cards WHERE synced_at IS NULL AND status = 'pending'" w1).2.db
        = w1.db := rfl
    split <;> rename_i heq2 <;> rw [heq2] at h2 <;> exact h2.trans h

theorem getPendingSyncCount_ok (env : Env) (w : World) :
    ∃ c, (getPendingSyncCount env w).1 = .ok c := by
  unfold getPendingSyncCount
  split
  · exact ⟨_, rfl⟩
  · split <;> exact ⟨_, rfl⟩

theorem updateSyncStatus_ok (env : Env) (w : World) : (updateSyncStatus env w).1 = .ok () := by
  unfold updateSyncStatus
  split <;> rfl

theorem steps_updateSyncStatus (env : Env) (w : World) :
    Steps Event.isLocal w (updateSyncStatus env w).2 := by
  have h := (steps_getPendingSyncCount env w).mono Event.isLocal_of_isDb
  unfold updateSyncStatus updateSyncStatusTry
  split <;> rename_i heq <;> split at heq <;> rename_i heq2 <;> rw [heq2] at h <;> cases heq
  · exact h
  · exact h.emit _ rfl

theorem updateSyncStatus_db (env : Env) (w : World) : (updateSyncStatus env w).2.db = w.db := by
  have h := getPendingSyncCount_db env w
  unfold updateSyncStatus updateSyncStatusTry
  split <;> rename_i heq <;> split at heq <;> rename_i heq2 <;> rw [heq2] at h <;> cases heq
  · exact h
  · exact h

/-! ## Lemmas on the observers -/

theorem filterMap_none {α β : Type} (f : α → Option β) (l : List α)
    (h : ∀ a ∈ l, f a = none) : l.filterMap f = [] := by
  induction l with
  | nil => rfl
  | cons a rest ih =>
    have ha : f a = none := h a (List.mem_cons_self a rest)
    rw [List.filterMap_cons, ha]
    exact ih (fun b hb => h b (List.mem_cons_of_mem a hb))

theorem eventsSince_append (w w2 : World) (evs : List Event) (h : w2.trace = w.trace ++ evs) :
    eventsSince w w2 = evs := by
  unfold eventsSince
  rw [h, List.drop_left]

theorem apiRequests_append (a b : List Event) :
    apiRequests (a ++ b) = apiRequests a ++ apiRequests b := by
  simp [apiRequests, List.filterMap_append]

theorem retryTimers_append (a b : List Event) :
    retryTimers (a ++ b) = retryTimers a ++ retryTimers b := by
  simp [retryTimers, List.filterMap_append]

theorem apiRequests_local (evs : List Event) (h : ∀ e ∈ evs, Event.isLocal e = true) :
    apiRequests evs = [] := by
  apply filterMap_none
  intro e he
  have := h e he
  cases e <;> simp_all [Event.isLocal]

theorem apiRequests_db (evs : List Event) (h : ∀ e ∈ evs, Event.isDb e = true) :
    apiRequests evs = [] :=
  apiRequests_local evs (fun e he => Event.isLocal_of_isDb e (h e he))

theorem retryTimers_quiet (evs : List Event)
    (h : ∀ e ∈ evs, (Event.isLocal e || Event.isUpload e) = true) : retryTimers evs = [] := by
  apply filterMap_none
  intro e he
  have := h e he
  cases e <;> simp_all [Event.isLocal, Event.isUpload]

theorem retryTimers_local (evs : List Event) (h : ∀ e ∈ evs, Event.isLocal e = true) :
    retryTimers evs = [] :=
  retryTimers_quiet evs (fun e he => by simp [h e he])

theorem retryTimers_db (evs : List Event) (h : ∀ e ∈ evs, Event.isDb e = true) :
    retryTimers evs = [] :=
  retryTimers_local evs (fun e he => Event.isLocal_of_isDb e (h e he))

/-! ## Lemmas on the upload of audits -/

theorem steps_apiRequest_post (env : Env) (endpoint : String) (data : ApiBody) (w : World)
    (h : endpoint = "/api/mobile/uploads" ∨ endpoint = "/api/mobile/sync/audits") :
    Steps Event.isUpload w (apiRequest env endpoint "POST" data w).2 := by
  refine ⟨rfl, rfl, Nat.le_add_right _ _, [Event.api endpoint "POST" data], rfl, ?_⟩
  intro e he
  rw [List.mem_singleton.mp he]
  rcases h with h | h <;> simp [Event.isUpload, h]

theorem steps_uploadPhoto (env : Env) (photo : PhotoRef) (w : World) :
    Steps Event.isUpload w (uploadPhoto env photo w).2 := by
  have h := steps_apiRequest_post env "/api/mobile/uploads"
    (ApiBody.photo photo.dataUrl photo.timestamp) w (Or.inl rfl)
  unfold uploadPhoto
  split <;> rename_i heq <;> rw [heq] at h <;> exact h

theorem steps_uploadPhotos (env : Env) (l : List PhotoRef) (w : World) :
    Steps Event.isUpload w (uploadPhotos env l w).2 := by
  induction l generalizing w with
  | nil => exact Steps.refl _ _
  | cons photo rest ih =>
    have h := steps_uploadPhoto env photo w
    unfold uploadPhotos
    split <;> rename_i heq <;> rw [heq] at h
    · exact h
    · rename_i w1
      have h2 := ih w1
      split <;> rename_i heq2 <;> rw [heq2] at h2 <;> exact h.trans h2

theorem steps_syncAuditTry (env : Env) (audit : Audit) (w : World) :
    Steps Event.isUpload w (syncAuditTry env audit w).2 := by
  have h := steps_uploadPhotos env audit.photos w
  unfold syncAuditTry
  split <;> rename_i heq <;> rw [heq] at h
  · exact h
  · rename_i photoUrls w1
    have h2 := steps_apiRequest_post env "/api/mobile/sync/audits"
      (ApiBody.audit audit.title audit.notes photoUrls audit.created_at) w1 (Or.inr rfl)
    split <;> rename_i heq2 <;> rw [heq2] at h2
    · exact h.trans h2
    · exact (h.trans h2).trans
        ((steps_updateAuditSyncStatus env _ _ _ _ _).mono Event.isUpload_of_isDb)

theorem steps_syncAudit (env : Env) (audit : Audit) (w : World) :
    Steps Event.isUpload w (syncAudit env audit w).2 := by
  have h := steps_syncAuditTry env audit w
  unfold syncAudit
  split <;> rename_i heq <;> rw [heq] at h
  · exact h
  · rename_i error w1
    have h2 := (steps_updateAuditSyncStatus env audit.id "error" none (some error) w1).mono
      Event.isUpload_of_isDb
    split <;> rename_i heq2 <;> rw [heq2] at h2 <;> exact h.trans h2

theorem steps_syncAudits (env : Env) (l : List Audit) (w : World) :
    Steps Event.isUpload w (syncAudits env l w).2 := by
  induction l generalizing w with
  | nil => exact Steps.refl _ _
  | cons audit rest ih =>
    have h := steps_syncAudit env audit w
    unfold syncAudits
    split <;> rename_i heq <;> rw [heq] at h
    · exact h
    · exact h.trans (ih _)

theorem steps_uploadPending (env : Env) (w : World) :
    Steps (fun e => Event.isLocal e || Event.isUpload e)
      (showSyncProgress "Syncing data..." w) (uploadPending env w).2 := by
  have h := (steps_getAudits env (some "pending")
    (showSyncProgress "Syncing data..." w)).mono
      (Q := fun e => Event.isLocal e || Event.isUpload e)
      (fun e he => by simp [Event.isLocal_of_isDb e he])
  unfold uploadPending getPendingAudits
  dsimp only
  split <;> rename_i heq <;> rw [heq] at h
  · exact h
  · exact h.trans ((steps_syncAudits env _ _).mono (fun e he => by simp [he]))

/-! ## Lemmas on a pass -/

theorem fetchSchedules_spec (env : Env) (w : World) :
    ∃ w1 evs, fetchSchedules env w = (.ok (), w1) ∧
      w1.trace = w.trace ++ Event.api "/api/mobile/user/schedule" "GET" ApiBody.none :: evs ∧
      (∀ e ∈ evs, Event.isDb e = true) ∧ w1.app = w.app ∧ w1.net = w.net ∧ w.now ≤ w1.now := by
  unfold fetchSchedules
  rcases ha : apiRequest env "/api/mobile/user/schedule" "GET" ApiBody.none w with ⟨_ | response, wa⟩
  · have hwa : wa = (apiRequest env "/api/mobile/user/schedule" "GET" ApiBody.none w).2 := by rw [ha]
    refine ⟨wa, [], rfl, ?_, by simp, ?_, ?_, ?_⟩ <;> rw [hwa] <;>
      simp [apiRequest]
  · have hwa : wa = (apiRequest env "/api/mobile/user/schedule" "GET" ApiBody.none w).2 := by rw [ha]
    have hs := steps_cacheSchedules env response.schedules wa
    obtain ⟨evs, hevs, hp⟩ := hs.trace
    have key : ∀ w2, w2 = (cacheSchedules env response.schedules wa).2 →
        w2.trace = w.trace ++ Event.api "/api/mobile/user/schedule" "GET" ApiBody.none :: evs ∧
        (∀ e ∈ evs, Event.isDb e = true) ∧ w2.app = w.app ∧ w2.net = w.net ∧ w.now ≤ w2.now := by
      intro w2 hw2
      subst hw2
      refine ⟨?_, hp, ?_, ?_, ?_⟩
      · rw [hevs, hwa]; simp [apiRequest]
      · rw [hs.app, hwa]; rfl
      · rw [hs.net, hwa]; rfl
      · refine Nat.le_trans ?_ hs.now
        rw [hwa]; simp [apiRequest]
    dsimp only
    rcases hc : cacheSchedules env response.schedules wa with ⟨_ | _, w2⟩
    · exact ⟨w2, evs, rfl, key w2 (by rw [hc])⟩
    · exact ⟨w2, evs, rfl, key w2 (by rw [hc])⟩

theorem fetchJobCards_spec (env : Env) (w : World) :
    ∃ w1 evs, fetchJobCards env w = (.ok (), w1) ∧
      w1.trace = w.trace ++ Event.api "/api/mobile/user/job-cards" "GET" ApiBody.none :: evs ∧
      (∀ e ∈ evs, Event.isDb e = true) ∧ w1.app = w.app ∧ w1.net = w.net ∧ w.now ≤ w1.now := by
  unfold fetchJobCards
  rcases ha : apiRequest env "/api/mobile/user/job-cards" "GET" ApiBody.none w with ⟨_ | response, wa⟩
  · have hwa : wa = (apiRequest env "/api/mobile/user/job-cards" "GET" ApiBody.none w).2 := by rw [ha]
    refine ⟨wa, [], rfl, ?_, by simp, ?_, ?_, ?_⟩ <;> rw [hwa] <;>
      simp [apiRequest]
  · have hwa : wa = (apiRequest env "/api/mobile/user/job-cards" "GET" ApiBody.none w).2 := by rw [ha]
    have hs := steps_cacheJobCards env response.jobCards wa
    obtain ⟨evs, hevs, hp⟩ := hs.trace
    have key : ∀ w2, w2 = (cacheJobCards env response.jobCards wa).2 →
        w2.trace = w.trace ++ Event.api "/api/mobile/user/job-cards" "GET" ApiBody.none :: evs ∧
        (∀ e ∈ evs, Event.isDb e = true) ∧ w2.app = w.app ∧ w2.net = w.net ∧ w.now ≤ w2.now := by
      intro w2 hw2
      subst hw2
      refine ⟨?_, hp, ?_, ?_, ?_⟩
      · rw [hevs, hwa]; simp [apiRequest]
      · rw [hs.app, hwa]; rfl
      · rw [hs.net, hwa]; rfl
      · refine Nat.le_trans ?_ hs.now
        rw [hwa]; simp [apiRequest]
    dsimp only
    rcases hc : cacheJobCards env response.jobCards wa with ⟨_ | _, w2⟩
    · exact ⟨w2, evs, rfl, key w2 (by rw [hc])⟩
    · exact ⟨w2, evs, rfl, key w2 (by rw [hc])⟩

theorem fetchEarnings_spec (env : Env) (w : World) :
    ∃ w1 evs, fetchEarnings env w = (.ok (), w1) ∧
      w1.trace = w.trace ++ Event.api "/api/mobile/user/earnings" "GET" ApiBody.none :: evs ∧
      (∀ e ∈ evs, Event.isDb e = true) ∧ w1.app = w.app ∧ w1.net = w.net ∧ w.now ≤ w1.now := by
  unfold fetchEarnings
  rcases ha : apiRequest env "/api/mobile/user/earnings" "GET" ApiBody.none w with ⟨_ | response, wa⟩
  · have hwa : wa = (apiRequest env "/api/mobile/user/earnings" "GET" ApiBody.none w).2 := by rw [ha]
    refine ⟨wa, [], rfl, ?_, by simp, ?_, ?_, ?_⟩ <;> rw [hwa] <;>
      simp [apiRequest]
  · have hwa : wa = (apiRequest env "/api/mobile/user/earnings" "GET" ApiBody.none w).2 := by rw [ha]
    have hs := steps_cacheEarnings env response.earnings wa
    obtain ⟨evs, hevs, hp⟩ := hs.trace
    have key : ∀ w2, w2 = (cacheEarnings env response.earnings wa).2 →
        w2.trace = w.trace ++ Event.api "/api/mobile/user/earnings" "GET" ApiBody.none :: evs ∧
        (∀ e ∈ evs, Event.isDb e = true) ∧ w2.app = w.app ∧ w2.net = w.net ∧ w.now ≤ w2.now := by
      intro w2 hw2
      subst hw2
      refine ⟨?_, hp, ?_, ?_, ?_⟩
      · rw [hevs, hwa]; simp [apiRequest]
      · rw [hs.app, hwa]; rfl
      · rw [hs.net, hwa]; rfl
      · refine Nat.le_trans ?_ hs.now
        rw [hwa]; simp [apiRequest]
    dsimp only
    rcases hc : cacheEarnings env response.earnings wa with ⟨_ | _, w2⟩
    · exact ⟨w2, evs, rfl, key w2 (by rw [hc])⟩
    · exact ⟨w2, evs, rfl, key w2 (by rw [hc])⟩

theorem refreshAndFinish_spec (env : Env) (w : World) :
    ∃ w4 evs t, refreshAndFinish env w = (.ok (), w4) ∧ w4.trace = w.trace ++ evs ∧
      apiRequests evs = [("/api/mobile/user/schedule", "GET"),
        ("/api/mobile/user/job-cards", "GET"), ("/api/mobile/user/earnings", "GET")] ∧
      retryTimers evs = [] ∧
      w4.app = { w.app with lastSyncTime := some t, syncRetryCount := 0 } ∧
      w.now ≤ t ∧ t ≤ w4.now ∧ w4.net = w.net ∧
      notifications evs = [("All data synced successfully", "success")] := by
  obtain ⟨w1, e1, h1, t1, p1, a1, n1, c1⟩ := fetchSchedules_spec env w
  obtain ⟨w2, e2, h2, t2, p2, a2, n2, c2⟩ := fetchJobCards_spec env w1
  obtain ⟨w3, e3, h3, t3, p3, a3, n3, c3⟩ := fetchEarnings_spec env w2
  unfold refreshAndFinish
  rw [h1]; dsimp only
  rw [h2]; dsimp only
  rw [h3]; dsimp only
  have q1 : ∀ e ∈ e1, (fun e => match e with
      | Event.notification message type => some (message, type) | _ => none) e = none := by
    intro e he; have := p1 e he; cases e <;> simp_all [Event.isDb]
  have q2 : ∀ e ∈ e2, (fun e => match e with
      | Event.notification message type => some (message, type) | _ => none) e = none := by
    intro e he; have := p2 e he; cases e <;> simp_all [Event.isDb]
  have q3 : ∀ e ∈ e3, (fun e => match e with
      | Event.notification message type => some (message, type) | _ => none) e = none := by
    intro e he; have := p3 e he; cases e <;> simp_all [Event.isDb]
  refine ⟨_, Event.api "/api/mobile/user/schedule" "GET" ApiBody.none :: e1 ++
      (Event.api "/api/mobile/user/job-cards" "GET" ApiBody.none :: e2 ++
      (Event.api "/api/mobile/user/earnings" "GET" ApiBody.none :: e3 ++
      [Event.notification "All data synced successfully" "success"])), w3.now, rfl,
      ?_, ?_, ?_, ?_, ?_, ?_, ?_, ?_⟩
  · simp [showSyncSuccess, showNotification, World.emit, t3, t2, t1]
  · have r1 := apiRequests_db e1 p1
    have r2 := apiRequests_db e2 p2
    have r3 := apiRequests_db e3 p3
    simp only [apiRequests_append]
    simp only [apiRequests, List.filterMap_cons, List.filterMap_nil] at r1 r2 r3 ⊢
    simp [r1, r2, r3]
  · have r1 := retryTimers_db e1 p1
    have r2 := retryTimers_db e2 p2
    have r3 := retryTimers_db e3 p3
    simp only [retryTimers_append]
    simp only [retryTimers, List.filterMap_cons, List.filterMap_nil] at r1 r2 r3 ⊢
    simp [r1, r2, r3]
  · simp [showSyncSuccess, showNotification, World.emit, a3, a2, a1]
  · exact Nat.le_trans c1 (Nat.le_trans c2 c3)
  · exact Nat.le_refl _
  · simp [showSyncSuccess, showNotification, World.emit, n3, n2, n1]
  · simp [notifications, List.filterMap_append, filterMap_none _ e1 q1, filterMap_none _ e2 q2,
      filterMap_none _ e3 q3]

theorem updateSyncStatus_eq (env : Env) (w : World) :
    updateSyncStatus env w = (.ok (), (updateSyncStatus env w).2) :=
  Prod.ext (updateSyncStatus_ok env w) rfl

theorem performSync_of_uploads_ok (env : Env) (w w2 : World)
    (h0 : w.app.syncInProgress = false)
    (hup : uploadPending env (passStart env w) = (.ok (), w2)) :
    ∃ w5 evsA evsR evsZ t, performSync env w = (.ok (), w5) ∧
      w2.trace = w.trace ++ evsA ∧
      Event.notification "Syncing data..." "info" ∈ evsA ∧
      (∀ e ∈ evsA, (Event.isLocal e || Event.isUpload e) = true) ∧
      w5.trace = w2.trace ++ evsR ++ evsZ ∧
      apiRequests evsR = [("/api/mobile/user/schedule", "GET"),
        ("/api/mobile/user/job-cards", "GET"), ("/api/mobile/user/earnings", "GET")] ∧
      retryTimers evsR = [] ∧
      notifications evsR = [("All data synced successfully", "success")] ∧
      (∀ e ∈ evsZ, Event.isLocal e = true) ∧
      w5.app = { w.app with syncInProgress := false, lastSyncTime := some t,
                            syncRetryCount := 0 } ∧
      w.now ≤ t ∧ t ≤ w5.now ∧ w5.net = w.net := by
  have hs1 : Steps Event.isLocal (enterSync w) (passStart env w) :=
    steps_updateSyncStatus env (enterSync w)
  have hs2a : Steps (fun e => Event.isLocal e || Event.isUpload e)
      (showSyncProgress "Syncing data..." (passStart env w)) w2 := by
    have h := steps_uploadPending env (passStart env w)
    rw [hup] at h
    exact h
  have hs2 : Steps (fun e => Event.isLocal e || Event.isUpload e) (passStart env w) w2 :=
    Steps.trans ((Steps.refl _ _).emit (Event.notification "Syncing data..." "info") rfl) hs2a
  have he2a : (showSyncProgress "Syncing data..." (passStart env w)).trace
      = (passStart env w).trace ++ [Event.notification "Syncing data..." "info"] := rfl
  obtain ⟨w4, evsR, t, h4, t4, r4, rt4, a4, c4, d4, n4, nf4⟩ := refreshAndFinish_spec env w2
  have hs5 := steps_updateSyncStatus env { w4 with app := { w4.app with syncInProgress := false } }
  obtain ⟨evs1, he1, hp1⟩ := hs1.trace
  obtain ⟨evs2, he2, hp2⟩ := hs2a.trace
  obtain ⟨evsZ, heZ, hpZ⟩ := hs5.trace
  refine ⟨(updateSyncStatus env { w4 with app := { w4.app with syncInProgress := false } }).2,
    evs1 ++ Event.notification "Syncing data..." "info" :: evs2, evsR, evsZ, t,
    ?_, ?_, by simp, ?_, ?_, r4, rt4, nf4, hpZ, ?_, ?_, ?_, ?_⟩
  · unfold performSync
    rw [if_neg (by simp [h0])]
    unfold performSyncRunning
    rw [updateSyncStatus_eq env (enterSync w)]
    dsimp only
    have hb : performSyncBody env (updateSyncStatus env (enterSync w)).2 = (.ok (), w4) := by
      have hps : (updateSyncStatus env (enterSync w)).2 = passStart env w := rfl
      rw [hps]
      unfold performSyncBody performSyncTry
      rw [hup]; dsimp only
      rw [h4]
    rw [hb]
    unfold performSyncFinally
    dsimp only
    rw [updateSyncStatus_eq env { w4 with app := { w4.app with syncInProgress := false } }]
  · rw [he2, he2a, he1]; simp [enterSync]
  · intro e he
    rcases List.mem_append.mp he with h | h
    · simp [hp1 e h]
    · rcases List.mem_cons.mp h with h | h
      · rw [h]; rfl
      · exact hp2 e h
  · rw [heZ]; simp [t4]
  · rw [hs5.app]; simp [a4, hs2.app, hs1.app, enterSync]
  · exact Nat.le_trans (Nat.le_trans hs1.now hs2.now) c4
  · exact Nat.le_trans d4 hs5.now
  · rw [hs5.net]; simp [n4, hs2.net, hs1.net, enterSync]

theorem performSync_of_uploads_fail (env : Env) (w w2 : World) (err : String)
    (h0 : w.app.syncInProgress = false)
    (hup : uploadPending env (passStart env w) = (.error err, w2)) :
    ∃ w5 evsA evsZ, performSync env w = (.ok (), w5) ∧
      w2.trace = w.trace ++ evsA ∧
      Event.notification "Syncing data..." "info" ∈ evsA ∧
      (∀ e ∈ evsA, (Event.isLocal e || Event.isUpload e) = true) ∧
      w5.trace = w2.trace ++ Event.notification ("Sync failed" ++ ": " ++ err) "error" ::
        (if w.app.syncRetryCount < maxRetries
          then [Event.setTimeout retryDelays[w.app.syncRetryCount]?] else []) ++ evsZ ∧
      (∀ e ∈ evsZ, Event.isLocal e = true) ∧
      w5.app = { w.app with
        syncInProgress := false,
        syncRetryCount := if w.app.syncRetryCount < maxRetries
          then w.app.syncRetryCount + 1 else w.app.syncRetryCount } ∧
      w5.db = w2.db ∧ w5.net = w.net := by
  have hs1 : Steps Event.isLocal (enterSync w) (passStart env w) :=
    steps_updateSyncStatus env (enterSync w)
  have hs2a : Steps (fun e => Event.isLocal e || Event.isUpload e)
      (showSyncProgress "Syncing data..." (passStart env w)) w2 := by
    have h := steps_uploadPending env (passStart env w)
    rw [hup] at h
    exact h
  have hs2 : Steps (fun e => Event.isLocal e || Event.isUpload e) (passStart env w) w2 :=
    Steps.trans ((Steps.refl _ _).emit (Event.notification "Syncing data..." "info") rfl) hs2a
  have he2a : (showSyncProgress "Syncing data..." (passStart env w)).trace
      = (passStart env w).trace ++ [Event.notification "Syncing data..." "info"] := rfl
  have hs5 : Steps Event.isLocal
      { (performSyncCatch err w2) with
        app := { (performSyncCatch err w2).app with syncInProgress := false } }
      (performSyncFinally env (performSyncCatch err w2)).2 :=
    steps_updateSyncStatus env _
  have hd5 : (performSyncFinally env (performSyncCatch err w2)).2.db
      = (performSyncCatch err w2).db :=
    updateSyncStatus_db env _
  have hf : performSyncFinally env (performSyncCatch err w2)
      = (.ok (), (performSyncFinally env (performSyncCatch err w2)).2) :=
    updateSyncStatus_eq env _
  obtain ⟨evs1, he1, hp1⟩ := hs1.trace
  obtain ⟨evs2, he2, hp2⟩ := hs2a.trace
  obtain ⟨evsZ, heZ, hpZ⟩ := hs5.trace
  have hcount : w2.app.syncRetryCount = w.app.syncRetryCount := by
    rw [hs2.app, hs1.app]; rfl
  refine ⟨(performSyncFinally env (performSyncCatch err w2)).2,
    evs1 ++ Event.notification "Syncing data..." "info" :: evs2, evsZ,
    ?_, ?_, by simp, ?_, ?_, hpZ, ?_, ?_, ?_⟩
  · unfold performSync
    rw [if_neg (by simp [h0])]
    unfold performSyncRunning
    rw [updateSyncStatus_eq env (enterSync w)]
    dsimp only
    have hb : performSyncBody env (updateSyncStatus env (enterSync w)).2
        = (.ok (), performSyncCatch err w2) := by
      have hps : (updateSyncStatus env (enterSync w)).2 = passStart env w := rfl
      rw [hps]
      unfold performSyncBody performSyncTry
      rw [hup]
    rw [hb]
    dsimp only
    rw [hf]
  · rw [he2, he2a, he1]; simp [enterSync]
  · intro e he
    rcases List.mem_append.mp he with h | h
    · simp [hp1 e h]
    · rcases List.mem_cons.mp h with h | h
      · rw [h]; rfl
      · exact hp2 e h
  · rw [heZ]
    simp only [performSyncCatch, showSyncError, showNotification, World.emit, hcount]
    split <;> simp
  · rw [hs5.app]
    simp only [performSyncCatch, showSyncError, showNotification, World.emit, hcount]
    split <;> simp [hs2.app, hs1.app, enterSync]
  · rw [hd5]
    simp only [performSyncCatch, showSyncError, showNotification, World.emit]
    split <;> rfl
  · rw [hs5.net]
    simp only [performSyncCatch, showSyncError, showNotification, World.emit]
    split <;> simp [hs2.net, hs1.net, enterSync]

theorem passFails_iff (env : Env) (w : World) :
    passFails env w = true ↔ ∃ err, (uploadPending env (passStart env w)).1 = .error err := by
  unfold passFails performSyncTry
  rcases hup : uploadPending env (passStart env w) with ⟨_ | _, w2⟩
  · simp
  · obtain ⟨w4, evs, t, h4, _⟩ := refreshAndFinish_spec env w2
    simp [h4]

theorem pass_of_uploads_fail (env : Env) (w : World) (h0 : w.app.syncInProgress = false)
    (hf : passFails env w = true) :
    retryTimers (eventsSince w (pass env w)) =
      (if w.app.syncRetryCount < maxRetries
        then [retryDelays[w.app.syncRetryCount]?] else []) ∧
    (pass env w).app = { w.app with
      syncInProgress := false,
      syncRetryCount := if w.app.syncRetryCount < maxRetries
        then w.app.syncRetryCount + 1 else w.app.syncRetryCount } := by
  obtain ⟨err, herr⟩ := (passFails_iff env w).mp hf
  have hup : uploadPending env (passStart env w)
      = (.error err, (uploadPending env (passStart env w)).2) := Prod.ext herr rfl
  obtain ⟨w5, evsA, evsZ, hp, hA, _, hqA, h5, hqZ, happ, _, _⟩ :=
    performSync_of_uploads_fail env w _ err h0 hup
  have hpass : pass env w = w5 := by unfold pass; rw [hp]
  rw [hpass]
  refine ⟨?_, happ⟩
  rw [eventsSince_append w w5 _ (by rw [h5, hA, List.append_assoc, List.append_assoc])]
  rw [retryTimers_append, retryTimers_append, retryTimers_quiet evsA hqA,
    retryTimers_local evsZ hqZ]
  split <;> simp [retryTimers]

/-! ## The status label -/

/-- C1: `updateSyncStatus` publishes exactly one status, whose label is 'syncing'
if `syncInProgress` is true, otherwise 'offline' if the monitor is not online,
otherwise 'online-synced' if the pending total returned by `getPendingSyncCount`
is 0, otherwise 'online'; the same chain describes `statusLabel` for every
`syncing`, `online` and `pendingTotal`, with the four values of the spec. -/
theorem updateSyncStatus_label (env : Env) (w : World) (syncing online : Bool)
    (pendingTotal : Nat) :
    (∃ c w1, getPendingSyncCount env w = (.ok c, w1) ∧
      updateSyncStatus env w = (.ok (), w1.emit (Event.status
        (if w.app.syncInProgress = true then "syncing"
         else if w.net.isOnline = false then "offline"
         else if c.total = 0 then "online-synced"
         else "online")
        c.total w.app.lastSyncTime w.app.syncInProgress))) ∧
    statusLabel syncing online pendingTotal =
      (if syncing = true then "syncing"
       else if online = false then "offline"
       else if pendingTotal = 0 then "online-synced"
       else "online") ∧
    statusLabel true true 5 = "syncing" ∧
    statusLabel false false 0 = "offline" ∧
    statusLabel false true 0 = "online-synced" ∧
    statusLabel false true 3 = "online" := by
  refine ⟨?_, ?_, rfl, rfl, rfl, rfl⟩
  · obtain ⟨c, hc⟩ := getPendingSyncCount_ok env w
    have hs := steps_getPendingSyncCount env w
    have hg : getPendingSyncCount env w = (.ok c, (getPendingSyncCount env w).2) :=
      Prod.ext hc rfl
    refine ⟨c, _, hg, ?_⟩
    unfold updateSyncStatus updateSyncStatusTry
    rw [hg]
    dsimp only
    rw [hs.app]
    rcases hsync : w.app.syncInProgress <;> rcases hon : w.net.isOnline <;>
      simp [statusLabel, NetworkMonitor.getStatus, hon]
  · cases syncing <;> cases online <;> simp [statusLabel]

/-! ## A request while a pass is running -/

theorem apiRequests_finally (env : Env) (w : World) :
    apiRequests (eventsSince (leaveSync w) (performSyncFinally env w).2) = [] := by
  obtain ⟨evs, hevs, hloc⟩ := (steps_updateSyncStatus env (leaveSync w)).trace
  have h : (performSyncFinally env w).2.trace = (leaveSync w).trace ++ evs := hevs
  rw [eventsSince_append _ _ _ h]
  exact apiRequests_local evs hloc

/-- C2 (amended): in every state `w` with `syncInProgress = true`, `performSync`
returns at once and leaves the whole world as it is: nothing is read from the
store, no API call is made, and `syncInProgress`, `syncRetryCount` and
`lastSyncTime` keep their values.  For a call made in an idle state `w0` the flag
is set before the first awaited call and is still set after the uploads and when
the `try`/`catch` ends, so a second call made in that window is dropped, and the
first call followed by such a second call does what a single call does.  The
`finally` block clears the flag before its awaited `updateSyncStatus()`: in the
world `finallyStart env w0` the first call has only that status update left,
which makes no API call, and a call of `performSync` made there is not dropped
but runs a pass. -/
theorem performSync_dropped_while_running (env : Env) (w w0 : World)
    (h : w.app.syncInProgress = true) (h0 : w0.app.syncInProgress = false) :
    performSync env w = (.ok (), w) ∧
    dbStatements (eventsSince w (pass env w)) = [] ∧
    apiRequests (eventsSince w (pass env w)) = [] ∧
    (pass env w).app = w.app ∧
    (enterSync w0).app.syncInProgress = true ∧
    (passStart env w0).app.syncInProgress = true ∧
    (uploadPending env (passStart env w0)).2.app.syncInProgress = true ∧
    (performSyncBody env (passStart env w0)).2.app.syncInProgress = true ∧
    performSync env (enterSync w0) = (.ok (), enterSync w0) ∧
    performSyncRunning env (pass env (enterSync w0)) = performSync env w0 ∧
    pass env w0 = (updateSyncStatus env (finallyStart env w0)).2 ∧
    (finallyStart env w0).app.syncInProgress = false ∧
    (∀ env2 : Env, performSync env2 (finallyStart env w0)
      = performSyncRunning env2 (enterSync (finallyStart env w0))) ∧
    apiRequests (eventsSince (finallyStart env w0) (pass env w0)) = [] := by
  have hdrop : ∀ v : World, v.app.syncInProgress = true → performSync env v = (.ok (), v) := by
    intro v hv
    unfold performSync
    rw [if_pos hv]
  have hstart : (passStart env w0).app.syncInProgress = true := by
    unfold passStart
    rw [(steps_updateSyncStatus env (enterSync w0)).app]
    rfl
  have hpass : pass env w0 = (updateSyncStatus env (finallyStart env w0)).2 := by
    unfold pass performSync
    rw [if_neg (by simp [h0])]
    unfold performSyncRunning
    rw [updateSyncStatus_eq env (enterSync w0)]
    dsimp only
    have hps : (updateSyncStatus env (enterSync w0)).2 = passStart env w0 := rfl
    rw [hps]
    have hfin : performSyncFinally env (performSyncBody env (passStart env w0)).2
        = updateSyncStatus env (finallyStart env w0) := rfl
    rw [hfin, updateSyncStatus_eq env (finallyStart env w0)]
  refine ⟨hdrop w h, ?_, ?_, ?_, rfl, hstart, ?_, ?_, hdrop _ rfl, ?_, hpass, rfl, ?_, ?_⟩
  · unfold pass; rw [hdrop w h]; simp [eventsSince, dbStatements]
  · unfold pass; rw [hdrop w h]; simp [eventsSince, apiRequests]
  · unfold pass; rw [hdrop w h]
  · have hs := steps_uploadPending env (passStart env w0)
    rw [hs.app]
    exact hstart
  · unfold performSyncBody performSyncTry
    have hs := steps_uploadPending env (passStart env w0)
    rcases hup : uploadPending env (passStart env w0) with ⟨err | _, w2⟩
    · rw [hup] at hs
      dsimp only
      simp only [performSyncCatch, showSyncError, showNotification, World.emit]
      split
      · show w2.app.syncInProgress = true
        rw [hs.app]; exact hstart
      · show w2.app.syncInProgress = true
        rw [hs.app]; exact hstart
    · rw [hup] at hs
      obtain ⟨w4, evs, t, h4, _, _, _, a4, _⟩ := refreshAndFinish_spec env w2
      dsimp only
      rw [h4]
      dsimp only
      rw [a4]
      show w2.app.syncInProgress = true
      rw [hs.app]; exact hstart
  · unfold pass
    rw [hdrop _ rfl]
    unfold performSync
    rw [if_neg (by simp [h0])]
  · intro env2
    unfold performSync
    rw [if_neg (by simp [finallyStart, leaveSync])]
  · rw [hpass]
    exact apiRequests_finally env (performSyncBody env (passStart env w0)).2

/-- Witness of C2: a second call on the sample device while its first pass is
running. -/
theorem performSync_dropped_while_running_witness :
    performSync Env.healthy (enterSync World.sample) = (.ok (), enterSync World.sample) ∧
    performSyncRunning Env.healthy (pass Env.healthy (enterSync World.sample))
      = performSync Env.healthy World.sample :=
  have h := performSync_dropped_while_running Env.healthy (enterSync World.sample)
    World.sample rfl rfl
  ⟨h.1, h.2.2.2.2.2.2.2.2.2.1⟩

/-- Counterexample to C2 as stated: on the device with two pending audits and the
server unreachable, the first call of `performSync` fails at 'Roof', and its
`finally` block clears the flag before it awaits the two count queries of the
last `updateSyncStatus()`.  A second call made during that await, before the
first call has resolved, is not dropped: it reads 'Drain' as pending and posts
its record, a second upload sequence. -/
theorem second_call_in_finally_not_dropped :
    apiEvents (eventsSince World.twoPending (finallyStart Env.serverDown World.twoPending))
      = [Event.api "/api/mobile/uploads" "POST"
          (ApiBody.photo "data:image/jpeg;base64,AAAA" 100)] ∧
    (finallyStart Env.serverDown World.twoPending).app.syncInProgress = false ∧
    pass Env.serverDown World.twoPending
      = (updateSyncStatus Env.serverDown (finallyStart Env.serverDown World.twoPending)).2 ∧
    dbStatements (eventsSince (finallyStart Env.serverDown World.twoPending)
        (pass Env.serverDown World.twoPending))
      = ["SELECT COUNT(*) FROM audits WHERE status = 'pending'",
         "SELECT COUNT(*) FROM job_cards WHERE synced_at IS NULL AND status = 'pending'"] ∧
    pendingRead Env.serverDown (finallyStart Env.serverDown World.twoPending) = [Audit.drain] ∧
    apiEvents (eventsSince (finallyStart Env.serverDown World.twoPending)
        (pass Env.serverDown (finallyStart Env.serverDown World.twoPending)))
      = [Event.api "/api/mobile/sync/audits" "POST" (ApiBody.audit "Drain" "" [] 90)] :=
  ⟨rfl, rfl, rfl, rfl, rfl, rfl⟩

/-! ## Retry and backoff -/

/-- C3: starting from `syncRetryCount = 0`, the first, second and third of four
consecutive failing passes schedule one retry each, after 1000, 2000 and 4000 ms
(`retryDelays[n-1]`), and leave `syncRetryCount` at 1, 2 and 3; the fourth
schedules no retry and leaves `syncRetryCount` at 3. -/
theorem backoff_schedule (e1 e2 e3 e4 : Env) (w0 : World)
    (h0 : w0.app.syncInProgress = false) (hc : w0.app.syncRetryCount = 0)
    (f1 : passFails e1 w0 = true)
    (f2 : passFails e2 (pass e1 w0) = true)
    (f3 : passFails e3 (pass e2 (pass e1 w0)) = true)
    (f4 : passFails e4 (pass e3 (pass e2 (pass e1 w0))) = true) :
    (retryTimers (eventsSince w0 (pass e1 w0)) = [retryDelays[0]?] ∧
      retryDelays[0]? = some 1000 ∧ (pass e1 w0).app.syncRetryCount = 1) ∧
    (retryTimers (eventsSince (pass e1 w0) (pass e2 (pass e1 w0))) = [retryDelays[1]?] ∧
      retryDelays[1]? = some 2000 ∧ (pass e2 (pass e1 w0)).app.syncRetryCount = 2) ∧
    (retryTimers (eventsSince (pass e2 (pass e1 w0)) (pass e3 (pass e2 (pass e1 w0))))
        = [retryDelays[2]?] ∧
      retryDelays[2]? = some 4000 ∧
      (pass e3 (pass e2 (pass e1 w0))).app.syncRetryCount = 3) ∧
    (retryTimers (eventsSince (pass e3 (pass e2 (pass e1 w0)))
        (pass e4 (pass e3 (pass e2 (pass e1 w0))))) = [] ∧
      (pass e4 (pass e3 (pass e2 (pass e1 w0)))).app.syncRetryCount = 3) := by
  obtain ⟨t1, a1⟩ := pass_of_uploads_fail e1 w0 h0 f1
  have g1 : (pass e1 w0).app.syncInProgress = false := by rw [a1]
  have c1 : (pass e1 w0).app.syncRetryCount = 1 := by rw [a1]; simp [hc, maxRetries]
  obtain ⟨t2, a2⟩ := pass_of_uploads_fail e2 _ g1 f2
  have g2 : (pass e2 (pass e1 w0)).app.syncInProgress = false := by rw [a2]
  have c2 : (pass e2 (pass e1 w0)).app.syncRetryCount = 2 := by rw [a2]; simp [c1, maxRetries]
  obtain ⟨t3, a3⟩ := pass_of_uploads_fail e3 _ g2 f3
  have g3 : (pass e3 (pass e2 (pass e1 w0))).app.syncInProgress = false := by rw [a3]
  have c3 : (pass e3 (pass e2 (pass e1 w0))).app.syncRetryCount = 3 := by
    rw [a3]; simp [c2, maxRetries]
  obtain ⟨t4, a4⟩ := pass_of_uploads_fail e4 _ g3 f4
  have c4 : (pass e4 (pass e3 (pass e2 (pass e1 w0)))).app.syncRetryCount = 3 := by
    rw [a4]; simp [c3, maxRetries]
  refine ⟨⟨?_, rfl, c1⟩, ⟨?_, rfl, c2⟩, ⟨?_, rfl, c3⟩, ?_, c4⟩
  · rw [t1]; simp [hc, maxRetries]
  · rw [t2]; simp [c1, maxRetries]
  · rw [t3]; simp [c2, maxRetries]
  · rw [t4]; simp [c3, maxRetries]

/-- Witness of C3: four passes of a new app whose store fails on every
statement. -/
theorem backoff_schedule_witness :
    (pass Env.storeDown World.fresh).app.syncRetryCount = 1 ∧
    (pass Env.storeDown (pass Env.storeDown World.fresh)).app.syncRetryCount = 2 ∧
    retryTimers (eventsSince (pass Env.storeDown (pass Env.storeDown
      (pass Env.storeDown World.fresh))) (pass Env.storeDown (pass Env.storeDown
      (pass Env.storeDown (pass Env.storeDown World.fresh))))) = [] :=
  have h := backoff_schedule Env.storeDown Env.storeDown Env.storeDown Env.storeDown
    World.fresh rfl rfl (by decide) (by decide) (by decide) (by decide)
  ⟨h.1.2.2, h.2.1.2.2, h.2.2.2.1⟩

/-- C4: whatever `syncRetryCount` was before, after a pass in which the pending
audits are read and all uploaded successfully `syncRetryCount` is 0 and
`lastSyncTime` is a time of that pass. -/
theorem retry_reset_after_success (env : Env) (w : World)
    (h0 : w.app.syncInProgress = false)
    (hup : (uploadPending env (passStart env w)).1 = .ok ()) :
    (pass env w).app.syncRetryCount = 0 ∧
    ∃ t, (pass env w).app.lastSyncTime = some t ∧ w.now ≤ t ∧ t ≤ (pass env w).now := by
  have hup2 : uploadPending env (passStart env w)
      = (.ok (), (uploadPending env (passStart env w)).2) := Prod.ext hup rfl
  obtain ⟨w5, evsA, evsR, evsZ, t, hp, _, _, _, _, _, _, _, _, happ, hl, hr, _⟩ :=
    performSync_of_uploads_ok env w _ h0 hup2
  have hpass : pass env w = w5 := by unfold pass; rw [hp]
  rw [hpass, happ]
  exact ⟨rfl, t, rfl, hl, hr⟩

/-- Witness of C4: a pass of the sample device, whose count was 2, with healthy
collaborators. -/
theorem retry_reset_after_success_witness :
    World.sample.app.syncRetryCount = 2 ∧
    (pass Env.healthy World.sample).app.syncRetryCount = 0 :=
  ⟨rfl, (retry_reset_after_success Env.healthy World.sample rfl rfl).1⟩

/-! ## A failing upload -/

theorem syncAudits_append (env : Env) (l1 l2 : List Audit) (w : World) :
    syncAudits env (l1 ++ l2) w =
      match syncAudits env l1 w with
      | (.error error, w1) => (.error error, w1)
      | (.ok (), w1) => syncAudits env l2 w1 := by
  induction l1 generalizing w with
  | nil => rfl
  | cons a rest ih =>
    have step : ∀ (l : List Audit) (v : World), syncAudits env (a :: l) v =
        match syncAudit env a v with
        | (.error error, w1) => (.error error, w1)
        | (.ok (), w1) => syncAudits env l w1 := fun _ _ => rfl
    rw [List.cons_append, step, step]
    rcases syncAudit env a w with ⟨_ | ⟨⟨⟩⟩, w1⟩
    · rfl
    · exact ih w1

theorem ids_updateAudit (d : Db) (status : String) (syncedAt serverId : Option Nat)
    (error : Option String) (localId : Nat) :
    (d.updateAudit status syncedAt serverId error localId).audits.map Audit.id
      = d.audits.map Audit.id := by
  unfold Db.updateAudit
  rw [List.map_map]
  apply List.map_congr_left
  intro a _
  simp only [Function.comp]
  split <;> rfl

theorem ids_updateAuditSyncStatus (env : Env) (localId : Nat) (status : String)
    (serverId : Option Nat) (error : Option String) (w : World) :
    (updateAuditSyncStatus env localId status serverId error w).2.db.audits.map Audit.id
      = w.db.audits.map Audit.id := by
  unfold updateAuditSyncStatus dbCall
  dsimp only
  split
  · rename_i heq
    rw [← (Prod.mk.inj heq).2]
  · rename_i heq
    rw [← (Prod.mk.inj heq).2]
    exact ids_updateAudit _ _ _ _ _ _

theorem db_uploadPhotos (env : Env) (l : List PhotoRef) (w : World) :
    (uploadPhotos env l w).2.db = w.db := by
  induction l generalizing w with
  | nil => rfl
  | cons photo rest ih =>
    have h : (uploadPhoto env photo w).2.db = w.db := by
      unfold uploadPhoto apiRequest
      split <;> rename_i heq <;> rw [← (Prod.mk.inj heq).2]
    unfold uploadPhotos
    split <;> rename_i heq <;> rw [heq] at h
    · exact h
    · rename_i w1
      have h2 := ih w1
      split <;> rename_i heq2 <;> rw [heq2] at h2 <;> exact h2.trans h

theorem ids_syncAuditTry (env : Env) (audit : Audit) (w : World) :
    (syncAuditTry env audit w).2.db.audits.map Audit.id = w.db.audits.map Audit.id := by
  have h := db_uploadPhotos env audit.photos w
  unfold syncAuditTry
  split <;> rename_i heq <;> rw [heq] at h
  · rw [h]
  · rename_i photoUrls w1
    have h2 : (apiRequest env "/api/mobile/sync/audits" "POST"
      (ApiBody.audit audit.title audit.notes photoUrls audit.created_at) w1).2.db = w1.db := rfl
    split <;> rename_i heq2 <;> rw [heq2] at h2
    · rw [h2, h]
    · rw [ids_updateAuditSyncStatus, h2, h]

theorem ids_syncAudit (env : Env) (audit : Audit) (w : World) :
    (syncAudit env audit w).2.db.audits.map Audit.id = w.db.audits.map Audit.id := by
  have h := ids_syncAuditTry env audit w
  unfold syncAudit
  split <;> rename_i heq <;> rw [heq] at h
  · exact h
  · rename_i error w1
    have h2 := ids_updateAuditSyncStatus env audit.id "error" none (some error) w1
    split <;> rename_i heq2 <;> rw [heq2] at h2 <;> exact h2.trans h

theorem ids_syncAudits (env : Env) (l : List Audit) (w : World) :
    (syncAudits env l w).2.db.audits.map Audit.id = w.db.audits.map Audit.id := by
  induction l generalizing w with
  | nil => rfl
  | cons audit rest ih =>
    have h := ids_syncAudit env audit w
    unfold syncAudits
    split <;> rename_i heq <;> rw [heq] at h
    · exact h
    · exact (ih _).trans h

theorem mem_getAudits (env : Env) (filter : Option String) (w w1 : World) (l : List Audit)
    (h : getAudits env filter w = (.ok l, w1)) (a : Audit) (ha : a ∈ l) :
    a ∈ w1.db.audits ∧ statusMatches filter a = true := by
  unfold getAudits at h
  split at h
  · exact absurd (Prod.mk.inj h).1 (by simp)
  · rename_i w2 heq
    obtain ⟨h1, h2⟩ := Prod.mk.inj h
    subst h2
    have hl := Except.ok.inj h1
    subst hl
    unfold orderByCreatedAtDesc at ha
    have hm := ((List.perm_insertionSort _ _).mem_iff).mp ha
    exact List.mem_filter.mp hm

theorem apiRequests_quiet (evs : List Event)
    (h : ∀ e ∈ evs, (Event.isLocal e || Event.isUpload e) = true) :
    ∀ r ∈ apiRequests evs, r.2 = "POST" ∧
      (r.1 = "/api/mobile/uploads" ∨ r.1 = "/api/mobile/sync/audits") := by
  intro r hr
  unfold apiRequests at hr
  obtain ⟨e, he, hre⟩ := List.mem_filterMap.mp hr
  have hq := h e he
  cases e with
  | api endpoint method body =>
    simp only [Option.some.injEq] at hre
    subst hre
    simpa [Event.isLocal, Event.isUpload] using hq
  | _ => simp at hre

theorem trace_updateAuditSyncStatus (env : Env) (localId : Nat) (status : String)
    (serverId : Option Nat) (error : Option String) (w : World) :
    (updateAuditSyncStatus env localId status serverId error w).2.trace
      = w.trace ++ [Event.db "UPDATE audits"] := by
  unfold updateAuditSyncStatus dbCall
  dsimp only
  split <;> rename_i heq <;> rw [← (Prod.mk.inj heq).2]

theorem db_updateAuditSyncStatus_ok (env : Env) (localId : Nat) (status : String)
    (serverId : Option Nat) (error : Option String) (w : World)
    (h : env.dbFault w.trace.length "UPDATE audits" = none) :
    (updateAuditSyncStatus env localId status serverId error w).2.db
      = w.db.updateAudit status (if status = "synced" then some w.now else none)
          serverId error localId := by
  unfold updateAuditSyncStatus dbCall
  rw [h]

theorem apiRequests_catch (err : String) (c : Nat) :
    apiRequests (Event.notification ("Sync failed" ++ ": " ++ err) "error" ::
      (if c < maxRetries then [Event.setTimeout retryDelays[c]?] else [])) = [] := by
  split <;> simp [apiRequests]

/-- C5 (amended): if the upload of a pending audit fails during a pass (a photo
upload, the audit POST or the write of the 'synced' status), then no API call is
made in the pass after that failure, so no later audit is uploaded and no cache
refresh is attempted, every API call of the pass is a POST to the photo or audit
endpoint, and `lastSyncTime` is unchanged; and provided the write of the 'error'
status itself succeeds, the store is left as it was at the failure except that
this audit (which exists) has status 'error', `server_id` null and `last_error`
set to the failure message. -/
theorem upload_failure_aborts_pass (env : Env) (w w1 w2 w3 : World) (pre post : List Audit)
    (a : Audit) (err : String)
    (h0 : w.app.syncInProgress = false)
    (hread : getPendingAudits env (showSyncProgress "Syncing data..." (passStart env w))
      = (.ok (pre ++ a :: post), w1))
    (hpre : syncAudits env pre w1 = (.ok (), w2))
    (hfail : syncAuditTry env a w2 = (.error err, w3)) :
    (env.dbFault w3.trace.length "UPDATE audits" = none →
      (pass env w).db = w3.db.updateAudit "error" none none (some err) a.id ∧
      (∃ r ∈ (pass env w).db.audits, r.id = a.id) ∧
      (∀ r ∈ (pass env w).db.audits, r.id = a.id →
        r.status = "error" ∧ r.server_id = none ∧ r.last_error = some err)) ∧
    apiRequests (eventsSince w (pass env w)) = apiRequests (eventsSince w w3) ∧
    (∀ r ∈ apiRequests (eventsSince w (pass env w)), r.2 = "POST" ∧
      (r.1 = "/api/mobile/uploads" ∨ r.1 = "/api/mobile/sync/audits")) ∧
    (pass env w).app.lastSyncTime = w.app.lastSyncTime := by
  -- the world after the `catch` of `syncAudit`
  have hsa : ∃ e2, syncAudit env a w2
      = (.error e2, (updateAuditSyncStatus env a.id "error" none (some err) w3).2) := by
    unfold syncAudit
    rw [hfail]
    dsimp only
    rcases updateAuditSyncStatus env a.id "error" none (some err) w3 with ⟨e2 | ⟨⟨⟩⟩, w4⟩
    · exact ⟨e2, rfl⟩
    · exact ⟨err, rfl⟩
  obtain ⟨e2, hsa⟩ := hsa
  have hup : uploadPending env (passStart env w)
      = (.error e2, (updateAuditSyncStatus env a.id "error" none (some err) w3).2) := by
    unfold uploadPending
    dsimp only
    rw [hread]
    dsimp only
    rw [syncAudits_append, hpre]
    dsimp only
    have step : syncAudits env (a :: post) w2 =
        match syncAudit env a w2 with
        | (.error error, v) => (.error error, v)
        | (.ok (), v) => syncAudits env post v := rfl
    rw [step, hsa]
  obtain ⟨w5, evsA, evsZ, hp, hA, _, hqA, h5, hqZ, happ, hdb, _⟩ :=
    performSync_of_uploads_fail env w _ e2 h0 hup
  have hpass : pass env w = w5 := by unfold pass; rw [hp]
  -- the trace up to the failure
  have s1 : Steps (fun e => Event.isLocal e || Event.isUpload e) (enterSync w)
      (showSyncProgress "Syncing data..." (passStart env w)) :=
    ((steps_updateSyncStatus env (enterSync w)).mono (fun e he => by simp [he])).emit
      (Event.notification "Syncing data..." "info") rfl
  have s2 : Steps (fun e => Event.isLocal e || Event.isUpload e)
      (showSyncProgress "Syncing data..." (passStart env w)) w1 := by
    have h := steps_getAudits env (some "pending")
      (showSyncProgress "Syncing data..." (passStart env w))
    unfold getPendingAudits at hread
    rw [hread] at h
    exact h.mono (fun e he => by simp [Event.isLocal_of_isDb e he])
  have s3 : Steps (fun e => Event.isLocal e || Event.isUpload e) w1 w2 := by
    have h := steps_syncAudits env pre w1
    rw [hpre] at h
    exact h.mono (fun e he => by simp [he])
  have s4 : Steps (fun e => Event.isLocal e || Event.isUpload e) w2 w3 := by
    have h := steps_syncAuditTry env a w2
    rw [hfail] at h
    exact h.mono (fun e he => by simp [he])
  obtain ⟨evs3, he3, hq3⟩ := (((s1.trans s2).trans s3).trans s4).trace
  have he3w : w3.trace = w.trace ++ evs3 := he3
  have hm := trace_updateAuditSyncStatus env a.id "error" none (some err) w3
  have hfull : w5.trace = w.trace ++ (evs3 ++ (Event.db "UPDATE audits" ::
      (Event.notification ("Sync failed" ++ ": " ++ e2) "error" ::
        (if w.app.syncRetryCount < maxRetries
          then [Event.setTimeout retryDelays[w.app.syncRetryCount]?] else [])) ++ evsZ)) := by
    rw [h5, hm, he3w]
    simp
  have hreq : apiRequests (eventsSince w w5) = apiRequests evs3 := by
    rw [eventsSince_append w w5 _ hfull]
    rw [apiRequests_append]
    have hz : apiRequests (Event.db "UPDATE audits" ::
        (Event.notification ("Sync failed" ++ ": " ++ e2) "error" ::
          (if w.app.syncRetryCount < maxRetries
            then [Event.setTimeout retryDelays[w.app.syncRetryCount]?] else [])) ++ evsZ)
        = [] := by
      rw [List.cons_append, ← List.singleton_append, apiRequests_append, apiRequests_append,
        apiRequests_catch e2 w.app.syncRetryCount, apiRequests_local evsZ hqZ]
      rfl
    rw [hz, List.append_nil]
  rw [hpass]
  refine ⟨?_, ?_, ?_, ?_⟩
  · intro hw
    have hdb3 := db_updateAuditSyncStatus_ok env a.id "error" none (some err) w3 hw
    rw [if_neg (by decide)] at hdb3
    have hdb5 : w5.db = w3.db.updateAudit "error" none none (some err) a.id := by
      rw [hdb, hdb3]
    have hmem : a ∈ w1.db.audits :=
      (mem_getAudits env (some "pending") _ w1 _ hread a (by simp)).1
    have hid : a.id ∈ w3.db.audits.map Audit.id := by
      have i3 := ids_syncAuditTry env a w2
      rw [hfail] at i3
      have i2 := ids_syncAudits env pre w1
      rw [hpre] at i2
      rw [i3, i2]
      exact List.mem_map_of_mem _ hmem
    refine ⟨hdb5, ?_, ?_⟩
    · rw [hdb5, ← ids_updateAudit w3.db "error" none none (some err) a.id] at *
      obtain ⟨r, hr, hrid⟩ := List.mem_map.mp hid
      exact ⟨r, hr, hrid⟩
    · intro r hr hrid
      rw [hdb5] at hr
      unfold Db.updateAudit at hr
      obtain ⟨r0, _, hr0⟩ := List.mem_map.mp hr
      by_cases hc : r0.id = a.id
      · rw [if_pos hc] at hr0
        subst hr0
        exact ⟨rfl, rfl, rfl⟩
      · rw [if_neg hc] at hr0
        subst hr0
        exact absurd hrid hc
  · rw [hreq, eventsSince_append w w3 _ he3w]
  · rw [hreq]
    exact apiRequests_quiet evs3 hq3
  · rw [happ]

/-- Witness of C5: with the server unreachable, the pass of a device with two
pending audits fails at the first one, which is marked; the second is not
uploaded. -/
theorem upload_failure_aborts_pass_witness :
    (pass Env.serverDown World.twoPending).db
      = (syncAuditTry Env.serverDown Audit.roof
          (getPendingAudits Env.serverDown (showSyncProgress "Syncing data..."
            (passStart Env.serverDown World.twoPending))).2).2.db.updateAudit
          "error" none none (some "Network request failed") Audit.roof.id ∧
    apiRequests (eventsSince World.twoPending (pass Env.serverDown World.twoPending))
      = apiRequests (eventsSince World.twoPending
          (syncAuditTry Env.serverDown Audit.roof
            (getPendingAudits Env.serverDown (showSyncProgress "Syncing data..."
              (passStart Env.serverDown World.twoPending))).2).2) ∧
    (pass Env.serverDown World.twoPending).app.lastSyncTime
      = World.twoPending.app.lastSyncTime :=
  have h := upload_failure_aborts_pass Env.serverDown World.twoPending
    (getPendingAudits Env.serverDown (showSyncProgress "Syncing data..."
      (passStart Env.serverDown World.twoPending))).2
    (getPendingAudits Env.serverDown (showSyncProgress "Syncing data..."
      (passStart Env.serverDown World.twoPending))).2
    (syncAuditTry Env.serverDown Audit.roof
      (getPendingAudits Env.serverDown (showSyncProgress "Syncing data..."
        (passStart Env.serverDown World.twoPending))).2).2
    [] [Audit.drain] Audit.roof "Network request failed" rfl rfl rfl rfl
  ⟨(h.1 rfl).1, h.2.1, h.2.2.2⟩

/-- Counterexample to C5 as stated: with the server unreachable and a store that
refuses the update, the upload of the pending audit of the sample device fails
and the audit is left 'pending' with no `last_error`. -/
theorem upload_failure_not_marked :
    (getPendingAudits Env.serverDownNoWrite (showSyncProgress "Syncing data..."
      (passStart Env.serverDownNoWrite World.sample))).1 = .ok [Audit.roof] ∧
    (syncAuditTry Env.serverDownNoWrite Audit.roof
      (getPendingAudits Env.serverDownNoWrite (showSyncProgress "Syncing data..."
        (passStart Env.serverDownNoWrite World.sample))).2).1
      = .error "Network request failed" ∧
    (pass Env.serverDownNoWrite World.sample).db.audits
      = [Audit.roof, Audit.gutter, Audit.fence] ∧
    Audit.roof.status = "pending" ∧ Audit.roof.last_error = none :=
  ⟨rfl, rfl, rfl, rfl, rfl⟩

/-! ## Failures of the cache refresh -/

theorem notifications_append (a b : List Event) :
    notifications (a ++ b) = notifications a ++ notifications b := by
  simp [notifications, List.filterMap_append]

/-- C6: in a pass whose uploads succeeded, whatever the API and the store do
during the cache refresh, the API calls made after the uploads are exactly the
schedule, job cards and earnings requests, once each and in that order, and the
pass is a full success: `performSync` completes, `syncRetryCount` is 0,
`lastSyncTime` is set, the success notification is shown and no retry is
scheduled. -/
theorem refresh_failures_isolated (env : Env) (w : World)
    (h0 : w.app.syncInProgress = false)
    (hup : (uploadPending env (passStart env w)).1 = .ok ()) :
    (performSync env w).1 = .ok () ∧
    apiRequests (eventsSince (uploadPending env (passStart env w)).2 (pass env w))
      = [("/api/mobile/user/schedule", "GET"), ("/api/mobile/user/job-cards", "GET"),
         ("/api/mobile/user/earnings", "GET")] ∧
    (pass env w).app.syncRetryCount = 0 ∧
    (∃ t, (pass env w).app.lastSyncTime = some t) ∧
    retryTimers (eventsSince w (pass env w)) = [] ∧
    ("All data synced successfully", "success") ∈ notifications (eventsSince w (pass env w)) := by
  have hup2 : uploadPending env (passStart env w)
      = (.ok (), (uploadPending env (passStart env w)).2) := Prod.ext hup rfl
  obtain ⟨w5, evsA, evsR, evsZ, t, hp, hA, _, hqA, h5, hreq, htim, hnot, hqZ, happ, _⟩ :=
    performSync_of_uploads_ok env w _ h0 hup2
  have hpass : pass env w = w5 := by unfold pass; rw [hp]
  have hfull : w5.trace = w.trace ++ (evsA ++ evsR ++ evsZ) := by
    rw [h5, hA]; simp
  rw [hpass]
  refine ⟨by rw [hp], ?_, by rw [happ], ⟨t, by rw [happ]⟩, ?_, ?_⟩
  · rw [eventsSince_append _ w5 (evsR ++ evsZ) (by rw [h5, List.append_assoc]),
      apiRequests_append, hreq, apiRequests_local evsZ hqZ, List.append_nil]
  · rw [eventsSince_append w w5 _ hfull, retryTimers_append, retryTimers_append,
      retryTimers_quiet evsA hqA, htim, retryTimers_local evsZ hqZ]
    rfl
  · rw [eventsSince_append w w5 _ hfull, notifications_append, notifications_append, hnot]
    simp

/-- Witness of C6: a pass of the sample device in which the schedule request is
rejected and the earnings table cannot be cleared. -/
theorem refresh_failures_isolated_witness :
    apiRequests (eventsSince (uploadPending Env.refreshBroken
        (passStart Env.refreshBroken World.sample)).2 (pass Env.refreshBroken World.sample))
      = [("/api/mobile/user/schedule", "GET"), ("/api/mobile/user/job-cards", "GET"),
         ("/api/mobile/user/earnings", "GET")] ∧
    (pass Env.refreshBroken World.sample).app.syncRetryCount = 0 :=
  have h := refresh_failures_isolated Env.refreshBroken World.sample rfl rfl
  ⟨h.2.1, h.2.2.1⟩

/-! ## The bound on the retry count -/

theorem pass_count_le (env : Env) (w : World) (h : w.app.syncRetryCount ≤ maxRetries) :
    (pass env w).app.syncRetryCount ≤ maxRetries := by
  by_cases hflag : w.app.syncInProgress = true
  · unfold pass performSync
    rw [if_pos hflag]
    exact h
  · have h0 : w.app.syncInProgress = false := by simpa using hflag
    rcases hup : uploadPending env (passStart env w) with ⟨err | ⟨⟨⟩⟩, w2⟩
    · obtain ⟨w5, _, _, hp, _, _, _, _, _, happ, _⟩ :=
        performSync_of_uploads_fail env w w2 err h0 hup
      unfold pass
      rw [hp, happ]
      dsimp only
      split <;> omega
    · obtain ⟨w5, _, _, _, _, hp, _, _, _, _, _, _, _, _, happ, _⟩ :=
        performSync_of_uploads_ok env w w2 h0 hup
      unfold pass
      rw [hp, happ]
      exact Nat.zero_le _

theorem pass_timers (env : Env) (w : World) :
    retryTimers (eventsSince w (pass env w)) =
      (if w.app.syncInProgress = false ∧ passFails env w = true ∧
          w.app.syncRetryCount < maxRetries
        then [retryDelays[w.app.syncRetryCount]?] else []) := by
  by_cases hflag : w.app.syncInProgress = true
  · rw [if_neg (by simp [hflag])]
    unfold pass performSync
    rw [if_pos hflag]
    simp [eventsSince, retryTimers]
  · have h0 : w.app.syncInProgress = false := by simpa using hflag
    rcases hf : passFails env w
    · rw [if_neg (by simp)]
      rcases hup : uploadPending env (passStart env w) with ⟨err | ⟨⟨⟩⟩, w2⟩
      · have hc := (passFails_iff env w).mpr ⟨err, by rw [hup]⟩
        rw [hf] at hc
        exact absurd hc (by simp)
      · obtain ⟨w5, evsA, evsR, evsZ, t, hp, hA, _, hqA, h5, _, htim, _, hqZ, _⟩ :=
          performSync_of_uploads_ok env w w2 h0 hup
        have hfull : w5.trace = w.trace ++ (evsA ++ evsR ++ evsZ) := by
          rw [h5, hA]; simp
        unfold pass
        rw [hp, eventsSince_append w w5 _ hfull, retryTimers_append, retryTimers_append,
          retryTimers_quiet evsA hqA, htim, retryTimers_local evsZ hqZ]
        rfl
    · rw [(pass_of_uploads_fail env w h0 hf).1]
      by_cases hc : w.app.syncRetryCount < maxRetries
      · rw [if_pos hc, if_pos ⟨h0, rfl, hc⟩]
      · rw [if_neg hc, if_neg (fun h => hc h.2.2)]

/-- C7: in every state of the app reached from construction by passes of
`performSync` (succeeding, failing or dropped), `syncRetryCount` is at most
`maxRetries = 3`, so it is a valid index of `retryDelays`; and every retry that a
pass started in such a state schedules has a delay read inside `retryDelays`. -/
theorem retryCount_bounded (app : MobileApp) (h : Reachable app) :
    0 ≤ app.syncRetryCount ∧ app.syncRetryCount ≤ maxRetries ∧ maxRetries = 3 ∧
    app.syncRetryCount < retryDelays.length ∧
    (retryDelays[app.syncRetryCount]?).isSome = true ∧
    (∀ (env : Env) (w : World), w.app = app →
      ∀ d ∈ retryTimers (eventsSince w (pass env w)), d.isSome = true) := by
  have hle : app.syncRetryCount ≤ maxRetries := by
    induction h with
    | construct => exact Nat.zero_le _
    | pass env w _ ih => exact pass_count_le env w ih
    | assign app token initialized _ ih => exact ih
  have h3 : app.syncRetryCount ≤ 3 := hle
  have hlen : retryDelays.length = 4 := rfl
  have hsome : (retryDelays[app.syncRetryCount]?).isSome = true := by
    rw [List.getElem?_eq_getElem (by omega)]
    rfl
  refine ⟨Nat.zero_le _, hle, rfl, by omega, hsome, ?_⟩
  intro env w hw d hd
  rw [pass_timers] at hd
  split at hd
  · rw [List.mem_singleton.mp hd, hw]
    exact hsome
  · exact absurd hd (List.not_mem_nil d)

/-- Witness of C7: the app after one pass with a store that is down. -/
theorem retryCount_bounded_witness :
    (pass Env.storeDown World.fresh).app.syncRetryCount ≤ maxRetries ∧
    (retryDelays[(pass Env.storeDown World.fresh).app.syncRetryCount]?).isSome = true :=
  have h := retryCount_bounded (pass Env.storeDown World.fresh).app
    (Reachable.pass Env.storeDown World.fresh Reachable.construct)
  ⟨h.2.1, h.2.2.2.2.1⟩

/-! ## The connection-restored trigger -/

theorem notifyListenersLoop_eq (env : Env) (connected : Bool) (l : List Nat) (w : World) :
    notifyListenersLoop env connected l w =
      (.ok (), { w with
        trace := (w.trace ++ l.map (fun cb => Event.listener cb connected (!connected))) }) := by
  induction l generalizing w with
  | nil => simp [notifyListenersLoop]
  | cons cb rest ih =>
    have h1 : notifyListener env connected cb w
        = (.ok (), w.emit (Event.listener cb connected (!connected))) := by
      unfold notifyListener invokeCallback
      cases env.callbackThrows w.trace.length cb <;> rfl
    unfold notifyListenersLoop
    rw [h1]
    dsimp only
    rw [ih]
    simp [World.emit]

theorem triggerSyncLoop_eq (env : Env) (l : List Nat) (w : World) :
    triggerSyncLoop env l w =
      (.ok (), { w with trace := w.trace ++ l.map Event.syncTrigger }) := by
  induction l generalizing w with
  | nil => simp [triggerSyncLoop]
  | cons cb rest ih =>
    have h1 : triggerOne env cb w = (.ok (), w.emit (Event.syncTrigger cb)) := by
      unfold triggerOne invokeCallback
      cases env.callbackThrows w.trace.length cb <;> rfl
    unfold triggerSyncLoop
    rw [h1]
    dsimp only
    rw [ih]
    simp [World.emit]

theorem triggerCalls_listeners (connected : Bool) (l : List Nat) :
    triggerCalls (l.map (fun cb => Event.listener cb connected (!connected))) = [] := by
  apply filterMap_none
  intro e he
  obtain ⟨cb, _, hcb⟩ := List.mem_map.mp he
  subst hcb
  rfl

theorem triggerCalls_triggers (l : List Nat) : triggerCalls (l.map Event.syncTrigger) = l := by
  induction l with
  | nil => rfl
  | cons cb rest ih =>
    unfold triggerCalls at ih ⊢
    rw [List.map_cons, List.filterMap_cons]
    dsimp only
    rw [ih]

theorem handleNetworkChange_eq (env : Env) (connected : Bool) (w : World) :
    handleNetworkChange env connected w =
      (.ok (), { w with
        net := { w.net with isOnline := connected }
        trace := w.trace ++
          (w.net.listeners.map (fun cb => Event.listener cb connected (!connected)) ++
            (if w.net.isOnline = false ∧ connected = true
              then w.net.syncTriggers.map Event.syncTrigger else [])) }) := by
  unfold handleNetworkChange notifyListeners
  dsimp only
  rw [notifyListenersLoop_eq]
  dsimp only
  rcases hw : w.net.isOnline <;> rcases hc : connected <;>
    simp [triggerSync, triggerSyncLoop_eq]

/-- C8: for every state of the monitor and every notification,
`handleNetworkChange` calls the callbacks registered with `onConnectionRestored`,
each as many times as it is registered (once) and in registration order, if
`isOnline` was false and the new status is connected, and calls none of them
otherwise. -/
theorem restored_trigger (env : Env) (connected : Bool) (w : World) :
    (handleNetworkChange env connected w).1 = .ok () ∧
    triggerCalls (eventsSince w (handleNetworkChange env connected w).2)
      = (if w.net.isOnline = false ∧ connected = true then w.net.syncTriggers else []) ∧
    (∀ cb, (triggerCalls (eventsSince w (handleNetworkChange env connected w).2)).count cb
      = (if w.net.isOnline = false ∧ connected = true
          then w.net.syncTriggers.count cb else 0)) ∧
    (handleNetworkChange env connected w).2.net.isOnline = connected := by
  have key : triggerCalls (eventsSince w (handleNetworkChange env connected w).2)
      = (if w.net.isOnline = false ∧ connected = true then w.net.syncTriggers else []) := by
    rw [handleNetworkChange_eq]
    rw [eventsSince_append w _ _ rfl]
    unfold triggerCalls
    rw [List.filterMap_append]
    have h1 := triggerCalls_listeners connected w.net.listeners
    unfold triggerCalls at h1
    rw [h1, List.nil_append]
    split
    · exact triggerCalls_triggers _
    · rfl
  refine ⟨by rw [handleNetworkChange_eq], key, ?_, by rw [handleNetworkChange_eq]⟩
  intro cb
  rw [key]
  split <;> simp

/-! ## The pending count -/

/-- C9: when the two count queries succeed, `getPendingSyncCount` returns as
`audits` the number of audits with status 'pending', as `jobCards` the number of
job cards with status 'pending' and `synced_at` null, and as `total` their sum;
for the three audits (pending, synced, error) and two job cards (pending, active)
of the sample device the total is 2. -/
theorem pending_count_correct (env : Env) (w : World)
    (h1 : env.dbFault w.trace.length
      "SELECT COUNT(*) FROM audits WHERE status = 'pending'" = none)
    (h2 : env.dbFault (w.trace.length + 1)
      "SELECT COUNT(*) FROM job_cards WHERE synced_at IS NULL AND status = 'pending'" = none) :
    (getPendingSyncCount env w).1 = .ok
      { audits := w.db.audits.countP (fun a => decide (a.status = "pending")),
        jobCards := w.db.job_cards.countP
          (fun c => decide (c.status = "pending") && decide (c.synced_at = none)),
        total := w.db.audits.countP (fun a => decide (a.status = "pending")) +
          w.db.job_cards.countP
            (fun c => decide (c.status = "pending") && decide (c.synced_at = none)) } ∧
    (getPendingSyncCount env w).2.db = w.db ∧
    World.sample.db.audits.map Audit.status = ["pending", "synced", "error"] ∧
    World.sample.db.job_cards.map JobCardRow.status = ["pending", "active"] ∧
    (getPendingSyncCount Env.healthy World.sample).1
      = .ok { audits := 1, jobCards := 1, total := 2 } := by
  refine ⟨?_, getPendingSyncCount_db env w, rfl, rfl, rfl⟩
  have hj : ∀ l : List JobCardRow,
      (l.filter (fun c => c.synced_at.isNone && decide (c.status = "pending"))).length
        = l.countP (fun c => decide (c.status = "pending") && decide (c.synced_at = none)) := by
    intro l
    rw [List.countP_eq_length_filter]
    congr 1
    apply List.filter_congr
    intro c _
    cases c.synced_at <;> simp
  unfold getPendingSyncCount dbCall
  rw [h1]
  dsimp only
  rw [List.length_append, List.length_singleton, h2]
  dsimp only
  simp only [Db.countPendingAudits, Db.countPendingJobCards, hj, List.countP_eq_length_filter]

/-- Witness of C9: the sample device with a healthy store. -/
theorem pending_count_correct_witness :
    (getPendingSyncCount Env.healthy World.sample).1
      = .ok { audits := World.sample.db.audits.countP (fun a => decide (a.status = "pending")),
              jobCards := World.sample.db.job_cards.countP
                (fun c => decide (c.status = "pending") && decide (c.synced_at = none)),
              total := World.sample.db.audits.countP (fun a => decide (a.status = "pending")) +
                World.sample.db.job_cards.countP
                  (fun c => decide (c.status = "pending") && decide (c.synced_at = none)) } :=
  (pending_count_correct Env.healthy World.sample rfl rfl).1

/-! ## The manual request -/

theorem progress_shown_of_pass (env : Env) (w : World) (h0 : w.app.syncInProgress = false) :
    ("Syncing data...", "info") ∈ notifications (eventsSince w (performSync env w).2) := by
  have hn : ∀ evsA evsB : List Event, Event.notification "Syncing data..." "info" ∈ evsA →
      ("Syncing data...", "info") ∈ notifications (evsA ++ evsB) := by
    intro evsA evsB hmem
    rw [notifications_append]
    apply List.mem_append_left
    unfold notifications
    exact List.mem_filterMap.mpr ⟨_, hmem, rfl⟩
  rcases hup : uploadPending env (passStart env w) with ⟨err | ⟨⟨⟩⟩, w2⟩
  · obtain ⟨w5, evsA, evsZ, hp, hA, hmem, _, h5, _⟩ :=
      performSync_of_uploads_fail env w w2 err h0 hup
    rw [hp]
    rw [eventsSince_append w w5 (evsA ++ _) (by rw [h5, hA, List.append_assoc,
      List.append_assoc])]
    exact hn _ _ hmem
  · obtain ⟨w5, evsA, evsR, evsZ, _, hp, hA, hmem, _, h5, _⟩ :=
      performSync_of_uploads_ok env w w2 h0 hup
    rw [hp]
    rw [eventsSince_append w w5 (evsA ++ _) (by rw [h5, hA, List.append_assoc,
      List.append_assoc])]
    exact hn _ _ hmem

/-- C10: `performManualSync` checks in this order: if `syncInProgress` it shows
'Sync already in progress'; else if the monitor is not online it shows 'Cannot
sync while offline'; else if `authToken` is missing (null or empty) it shows
'Please log in to sync'; in these three cases that notification is all that
happens (no statement is sent to the store, no API call is made, the app is
unchanged); otherwise it runs `performSync`, and the progress notification of a
pass appears exactly when none of the three conditions holds. -/
theorem manual_sync_preconditions (env : Env) (w : World) :
    performManualSync env w =
      (if w.app.syncInProgress = true then
        (.ok (), w.emit (Event.notification "Sync already in progress" "info"))
      else if w.net.isOnline = false then
        (.ok (), w.emit (Event.notification "Cannot sync while offline" "error"))
      else if w.app.authToken = none ∨ w.app.authToken = some "" then
        (.ok (), w.emit (Event.notification "Please log in to sync" "error"))
      else performSyncRunning env (enterSync w)) ∧
    (("Syncing data...", "info") ∈ notifications (eventsSince w (performManualSync env w).2) ↔
      (w.app.syncInProgress = false ∧ w.net.isOnline = true ∧
        ¬ (w.app.authToken = none ∨ w.app.authToken = some ""))) ∧
    ((w.app.syncInProgress = true ∨ w.net.isOnline = false ∨
        (w.app.authToken = none ∨ w.app.authToken = some "")) →
      (performManualSync env w).2.app = w.app ∧
      (performManualSync env w).2.db = w.db ∧
      dbStatements (eventsSince w (performManualSync env w).2) = [] ∧
      apiRequests (eventsSince w (performManualSync env w).2) = [] ∧
      (notifications (eventsSince w (performManualSync env w).2)).length = 1) := by
  have htok : w.app.hasAuthToken = false ↔
      (w.app.authToken = none ∨ w.app.authToken = some "") := by
    unfold MobileApp.hasAuthToken
    cases w.app.authToken <;> simp
  have hemit : ∀ m t : String,
      eventsSince w (w.emit (Event.notification m t)) = [Event.notification m t] :=
    fun m t => eventsSince_append w _ _ rfl
  have heq : performManualSync env w =
      (if w.app.syncInProgress = true then
        (.ok (), w.emit (Event.notification "Sync already in progress" "info"))
      else if w.net.isOnline = false then
        (.ok (), w.emit (Event.notification "Cannot sync while offline" "error"))
      else if w.app.authToken = none ∨ w.app.authToken = some "" then
        (.ok (), w.emit (Event.notification "Please log in to sync" "error"))
      else performSyncRunning env (enterSync w)) := by
    unfold performManualSync
    by_cases h1 : w.app.syncInProgress = true
    · rw [if_pos h1, if_pos h1]; rfl
    · rw [if_neg h1, if_neg h1]
      by_cases h2 : w.net.isOnline = false
      · rw [if_pos h2, if_pos (by simp [NetworkMonitor.getStatus, h2])]; rfl
      · rw [if_neg h2, if_neg (by simpa [NetworkMonitor.getStatus] using h2)]
        by_cases h3 : w.app.authToken = none ∨ w.app.authToken = some ""
        · rw [if_pos h3, if_pos (by simp [htok.mpr h3])]; rfl
        · have h3b : ¬ w.app.hasAuthToken = false := fun hc => h3 (htok.mp hc)
          rw [if_neg h3, if_neg (by simpa using h3b)]
          unfold performSync
          rw [if_neg h1]
  refine ⟨heq, ?_, ?_⟩
  · by_cases h1 : w.app.syncInProgress = true
    · rw [heq, if_pos h1]
      dsimp only
      rw [hemit]
      simp [notifications, h1]
    · by_cases h2 : w.net.isOnline = false
      · rw [heq, if_neg h1, if_pos h2]
        dsimp only
        rw [hemit]
        simp [notifications, h2]
      · by_cases h3 : w.app.authToken = none ∨ w.app.authToken = some ""
        · rw [heq, if_neg h1, if_neg h2, if_pos h3]
          dsimp only
          rw [hemit]
          simp [notifications, h3]
        · have h0 : w.app.syncInProgress = false := by simpa using h1
          have hon : w.net.isOnline = true := by simpa using h2
          have hrun : performManualSync env w = performSync env w := by
            rw [heq, if_neg h1, if_neg h2, if_neg h3]
            unfold performSync
            rw [if_neg h1]
          rw [hrun]
          exact ⟨fun _ => ⟨h0, hon, h3⟩, fun _ => progress_shown_of_pass env w h0⟩
  · intro hrej
    by_cases h1 : w.app.syncInProgress = true
    · rw [heq, if_pos h1]
      dsimp only
      rw [hemit]
      exact ⟨rfl, rfl, rfl, rfl, rfl⟩
    · by_cases h2 : w.net.isOnline = false
      · rw [heq, if_neg h1, if_pos h2]
        dsimp only
        rw [hemit]
        exact ⟨rfl, rfl, rfl, rfl, rfl⟩
      · by_cases h3 : w.app.authToken = none ∨ w.app.authToken = some ""
        · rw [heq, if_neg h1, if_neg h2, if_pos h3]
          dsimp only
          rw [hemit]
          exact ⟨rfl, rfl, rfl, rfl, rfl⟩
        · rcases hrej with h | h | h
          · exact absurd h h1
          · exact absurd h h2
          · exact absurd h h3

/-! ## Lemmas on the rows touched -/

theorem Touched.unchanged (ids : List Nat) (r : Audit) : Touched ids r r := Or.inl rfl

theorem Touched.comp {ids : List Nat} {r1 r2 r3 : Audit} (h12 : Touched ids r1 r2)
    (h23 : Touched ids r2 r3) : Touched ids r1 r3 := by
  rcases h12 with h12 | ⟨m1, i1, t1, n1, p1, c1, s1⟩
  · rw [h12] at h23; exact h23
  · rcases h23 with h23 | ⟨m2, i2, t2, n2, p2, c2, s2⟩
    · rw [h23]; exact Or.inr ⟨m1, i1, t1, n1, p1, c1, s1⟩
    · exact Or.inr ⟨m1, i2.trans i1, t2.trans t1, n2.trans n1, p2.trans p1, c2.trans c1, s2⟩

theorem Touched.widen {ids ids2 : List Nat} (hsub : ∀ i ∈ ids, i ∈ ids2) {r r2 : Audit}
    (h : Touched ids r r2) : Touched ids2 r r2 := by
  rcases h with h | ⟨m, rest⟩
  · exact Or.inl h
  · exact Or.inr ⟨hsub _ m, rest⟩

theorem Touched.same_id {ids : List Nat} {r r2 : Audit} (h : Touched ids r r2) : r2.id = r.id := by
  rcases h with h | ⟨_, i, _⟩
  · rw [h]
  · exact i

theorem forall₂_same_of {α : Type} (R : α → α → Prop) (hR : ∀ a, R a a) (l : List α) :
    List.Forall₂ R l l := by
  induction l with
  | nil => exact List.Forall₂.nil
  | cons a rest ih => exact List.Forall₂.cons (hR a) ih

theorem forall₂_map_of {α : Type} (R : α → α → Prop) (f : α → α) (hR : ∀ a, R a (f a))
    (l : List α) : List.Forall₂ R l (l.map f) := by
  induction l with
  | nil => exact List.Forall₂.nil
  | cons a rest ih => exact List.Forall₂.cons (hR a) ih

theorem forall₂_trans_of {α : Type} (R : α → α → Prop)
    (hR : ∀ a b c, R a b → R b c → R a c) {l1 l2 l3 : List α}
    (h12 : List.Forall₂ R l1 l2) (h23 : List.Forall₂ R l2 l3) : List.Forall₂ R l1 l3 := by
  induction h12 generalizing l3 with
  | nil => cases h23; exact List.Forall₂.nil
  | cons hab _ ih =>
    cases h23 with
    | cons hbc hrest => exact List.Forall₂.cons (hR _ _ _ hab hbc) (ih hrest)

theorem forall₂_mono_of {α : Type} (R S : α → α → Prop) (hRS : ∀ a b, R a b → S a b)
    {l1 l2 : List α} (h : List.Forall₂ R l1 l2) : List.Forall₂ S l1 l2 := by
  induction h with
  | nil => exact List.Forall₂.nil
  | cons hab _ ih => exact List.Forall₂.cons (hRS _ _ hab) ih

theorem DbStep.stay (ids : List Nat) (w : World) : DbStep ids w w :=
  ⟨forall₂_same_of (Touched ids) (Touched.unchanged ids) _, [], by simp⟩

theorem DbStep.of_db_eq (ids : List Nat) {w w2 : World} (h : w2.db = w.db) : DbStep ids w w2 := by
  refine ⟨?_, [], by simp [h]⟩
  rw [h]
  exact forall₂_same_of (Touched ids) (Touched.unchanged ids) _

theorem DbStep.andThen {ids : List Nat} {w1 w2 w3 : World} (h12 : DbStep ids w1 w2)
    (h23 : DbStep ids w2 w3) : DbStep ids w1 w3 := by
  obtain ⟨a1, j1, hj1⟩ := h12
  obtain ⟨a2, j2, hj2⟩ := h23
  refine ⟨forall₂_trans_of (Touched ids) (fun _ _ _ => Touched.comp) a1 a2, j1 ++ j2, ?_⟩
  rw [hj2, hj1, List.append_assoc]

theorem DbStep.weaken {ids ids2 : List Nat} (hsub : ∀ i ∈ ids, i ∈ ids2) {w w2 : World}
    (h : DbStep ids w w2) : DbStep ids2 w w2 :=
  ⟨forall₂_mono_of (Touched ids) (Touched ids2) (fun _ _ => Touched.widen hsub) h.audits,
    h.job_cards⟩

theorem DbStep.ids_eq {ids : List Nat} {w w2 : World} (h : DbStep ids w w2) :
    w2.db.audits.map Audit.id = w.db.audits.map Audit.id := by
  have key : ∀ l1 l2 : List Audit, List.Forall₂ (Touched ids) l1 l2 →
      l2.map Audit.id = l1.map Audit.id := by
    intro l1 l2 hl
    induction hl with
    | nil => rfl
    | cons hab _ ih => rw [List.map_cons, List.map_cons, ih, hab.same_id]
  exact key _ _ h.audits

theorem db_dbCall (env : Env) (sql : String) (w : World) : (dbCall env sql w).2.db = w.db := rfl

theorem db_getAudits (env : Env) (filter : Option String) (w : World) :
    (getAudits env filter w).2.db = w.db := by
  have h := db_dbCall env "SELECT * FROM audits" w
  unfold getAudits
  split <;> rename_i heq <;> rw [heq] at h <;> exact h

theorem touched_updateAudit (d : Db) (status : String) (syncedAt serverId : Option Nat)
    (error : Option String) (localId : Nat) (hs : status = "synced" ∨ status = "error") :
    List.Forall₂ (Touched [localId]) d.audits
      (d.updateAudit status syncedAt serverId error localId).audits := by
  unfold Db.updateAudit
  apply forall₂_map_of
  intro a
  by_cases h : a.id = localId
  · rw [if_pos h]
    exact Or.inr ⟨by simp [h], rfl, rfl, rfl, rfl, rfl, hs⟩
  · rw [if_neg h]
    exact Or.inl rfl

theorem dbstep_updateAuditSyncStatus (env : Env) (localId : Nat) (status : String)
    (serverId : Option Nat) (error : Option String) (w : World)
    (hs : status = "synced" ∨ status = "error") :
    DbStep [localId] w (updateAuditSyncStatus env localId status serverId error w).2 := by
  unfold updateAuditSyncStatus dbCall
  dsimp only
  split
  · rename_i heq
    rw [← (Prod.mk.inj heq).2]
    exact DbStep.of_db_eq _ rfl
  · rename_i heq
    rw [← (Prod.mk.inj heq).2]
    exact ⟨touched_updateAudit _ _ _ _ _ _ hs, [], by simp [Db.updateAudit]⟩

theorem dbstep_syncAuditTry (env : Env) (audit : Audit) (w : World) :
    DbStep [audit.id] w (syncAuditTry env audit w).2 := by
  have h := db_uploadPhotos env audit.photos w
  unfold syncAuditTry
  split <;> rename_i heq <;> rw [heq] at h
  · exact DbStep.of_db_eq _ h
  · rename_i photoUrls w1
    have h2 : (apiRequest env "/api/mobile/sync/audits" "POST"
      (ApiBody.audit audit.title audit.notes photoUrls audit.created_at) w1).2.db = w1.db := rfl
    split <;> rename_i heq2 <;> rw [heq2] at h2
    · exact DbStep.of_db_eq _ (h2.trans h)
    · exact (DbStep.of_db_eq _ (h2.trans h)).andThen
        (dbstep_updateAuditSyncStatus env _ _ _ _ _ (Or.inl rfl))

theorem dbstep_syncAudit (env : Env) (audit : Audit) (w : World) :
    DbStep [audit.id] w (syncAudit env audit w).2 := by
  have h := dbstep_syncAuditTry env audit w
  unfold syncAudit
  split <;> rename_i heq <;> rw [heq] at h
  · exact h
  · rename_i error w1
    have h2 := dbstep_updateAuditSyncStatus env audit.id "error" none (some error) w1
      (Or.inr rfl)
    split <;> rename_i heq2 <;> rw [heq2] at h2 <;> exact h.andThen h2

theorem dbstep_syncAudits (env : Env) (l : List Audit) (w : World) :
    DbStep (l.map Audit.id) w (syncAudits env l w).2 := by
  induction l generalizing w with
  | nil => exact DbStep.stay _ _
  | cons audit rest ih =>
    have h := @DbStep.weaken [audit.id] ((audit :: rest).map Audit.id)
      (fun i hi => by simp at hi; simp [hi]) _ _ (dbstep_syncAudit env audit w)
    unfold syncAudits
    split <;> rename_i heq <;> rw [heq] at h
    · exact h
    · exact h.andThen ((ih _).weaken (fun i hi => by simp at hi ⊢; exact Or.inr hi))

theorem dbstep_insertSchedules (env : Env) (l : List Schedule) (w : World) :
    DbStep [] w (insertSchedules env l w).2 := by
  induction l generalizing w with
  | nil => exact DbStep.stay _ _
  | cons s rest ih =>
    unfold insertSchedules dbCall
    dsimp only
    split
    · rename_i heq
      rw [← (Prod.mk.inj heq).2]
      exact DbStep.of_db_eq _ rfl
    · rename_i heq
      rw [← (Prod.mk.inj heq).2]
      refine DbStep.andThen ?_ (ih _)
      exact ⟨forall₂_same_of _ (Touched.unchanged _) _, [], by simp [Db.insertSchedule]⟩

theorem dbstep_cacheSchedules (env : Env) (l : List Schedule) (w : World) :
    DbStep [] w (cacheSchedules env l w).2 := by
  unfold cacheSchedules dbCall
  dsimp only
  split
  · rename_i heq
    rw [← (Prod.mk.inj heq).2]
    exact DbStep.of_db_eq _ rfl
  · rename_i heq
    rw [← (Prod.mk.inj heq).2]
    refine DbStep.andThen ?_ (dbstep_insertSchedules env l _)
    exact ⟨forall₂_same_of _ (Touched.unchanged _) _, [], by simp [Db.deleteSchedulesBefore]⟩

theorem dbstep_cacheJobCards (env : Env) (l : List JobCard) (w : World) :
    DbStep [] w (cacheJobCards env l w).2 := by
  induction l generalizing w with
  | nil => exact DbStep.stay _ _
  | cons s rest ih =>
    unfold cacheJobCards dbCall
    dsimp only
    split
    · rename_i heq
      rw [← (Prod.mk.inj heq).2]
      exact DbStep.of_db_eq _ rfl
    · rename_i heq
      rw [← (Prod.mk.inj heq).2]
      refine DbStep.andThen ?_ (ih _)
      exact ⟨forall₂_same_of _ (Touched.unchanged _) _, _, rfl⟩

theorem dbstep_insertEarnings (env : Env) (l : List Earning) (w : World) :
    DbStep [] w (insertEarnings env l w).2 := by
  induction l generalizing w with
  | nil => exact DbStep.stay _ _
  | cons s rest ih =>
    unfold insertEarnings dbCall
    dsimp only
    split
    · rename_i heq
      rw [← (Prod.mk.inj heq).2]
      exact DbStep.of_db_eq _ rfl
    · rename_i heq
      rw [← (Prod.mk.inj heq).2]
      refine DbStep.andThen ?_ (ih _)
      exact ⟨forall₂_same_of _ (Touched.unchanged _) _, [], by simp [Db.insertEarning]⟩

theorem dbstep_cacheEarnings (env : Env) (l : List Earning) (w : World) :
    DbStep [] w (cacheEarnings env l w).2 := by
  unfold cacheEarnings dbCall
  dsimp only
  split
  · rename_i heq
    rw [← (Prod.mk.inj heq).2]
    exact DbStep.of_db_eq _ rfl
  · rename_i heq
    rw [← (Prod.mk.inj heq).2]
    refine DbStep.andThen ?_ (dbstep_insertEarnings env l _)
    exact ⟨forall₂_same_of _ (Touched.unchanged _) _, [], by simp⟩

theorem dbstep_fetchSchedules (env : Env) (w : World) : DbStep [] w (fetchSchedules env w).2 := by
  unfold fetchSchedules
  have hdb : (apiRequest env "/api/mobile/user/schedule" "GET" ApiBody.none w).2.db = w.db := rfl
  rcases ha : apiRequest env "/api/mobile/user/schedule" "GET" ApiBody.none w with ⟨_ | response, wa⟩
  · rw [ha] at hdb
    exact DbStep.of_db_eq _ hdb
  · rw [ha] at hdb
    dsimp only
    have hs := dbstep_cacheSchedules env response.schedules wa
    rcases hc : cacheSchedules env response.schedules wa with ⟨_ | _, w2⟩ <;> rw [hc] at hs <;>
      exact (DbStep.of_db_eq _ hdb).andThen hs

theorem dbstep_fetchJobCards (env : Env) (w : World) : DbStep [] w (fetchJobCards env w).2 := by
  unfold fetchJobCards
  have hdb : (apiRequest env "/api/mobile/user/job-cards" "GET" ApiBody.none w).2.db = w.db := rfl
  rcases ha : apiRequest env "/api/mobile/user/job-cards" "GET" ApiBody.none w with ⟨_ | response, wa⟩
  · rw [ha] at hdb
    exact DbStep.of_db_eq _ hdb
  · rw [ha] at hdb
    dsimp only
    have hs := dbstep_cacheJobCards env response.jobCards wa
    rcases hc : cacheJobCards env response.jobCards wa with ⟨_ | _, w2⟩ <;> rw [hc] at hs <;>
      exact (DbStep.of_db_eq _ hdb).andThen hs

theorem dbstep_fetchEarnings (env : Env) (w : World) : DbStep [] w (fetchEarnings env w).2 := by
  unfold fetchEarnings
  have hdb : (apiRequest env "/api/mobile/user/earnings" "GET" ApiBody.none w).2.db = w.db := rfl
  rcases ha : apiRequest env "/api/mobile/user/earnings" "GET" ApiBody.none w with ⟨_ | response, wa⟩
  · rw [ha] at hdb
    exact DbStep.of_db_eq _ hdb
  · rw [ha] at hdb
    dsimp only
    have hs := dbstep_cacheEarnings env response.earnings wa
    rcases hc : cacheEarnings env response.earnings wa with ⟨_ | _, w2⟩ <;> rw [hc] at hs <;>
      exact (DbStep.of_db_eq _ hdb).andThen hs

theorem dbstep_refreshAndFinish (env : Env) (w : World) :
    DbStep [] w (refreshAndFinish env w).2 := by
  obtain ⟨w1, _, h1, _⟩ := fetchSchedules_spec env w
  obtain ⟨w2, _, h2, _⟩ := fetchJobCards_spec env w1
  obtain ⟨w3, _, h3, _⟩ := fetchEarnings_spec env w2
  have d1 := dbstep_fetchSchedules env w
  have d2 := dbstep_fetchJobCards env w1
  have d3 := dbstep_fetchEarnings env w2
  rw [h1] at d1
  rw [h2] at d2
  rw [h3] at d3
  unfold refreshAndFinish
  rw [h1]; dsimp only
  rw [h2]; dsimp only
  rw [h3]; dsimp only
  exact ((d1.andThen d2).andThen d3).andThen (DbStep.of_db_eq _ rfl)

theorem pass_eq_of_uploads_ok (env : Env) (w w2 : World) (h0 : w.app.syncInProgress = false)
    (hup : uploadPending env (passStart env w) = (.ok (), w2)) :
    pass env w = (performSyncFinally env (refreshAndFinish env w2).2).2 := by
  obtain ⟨w4, _, _, h4, _⟩ := refreshAndFinish_spec env w2
  unfold pass performSync
  rw [if_neg (by simp [h0])]
  unfold performSyncRunning
  rw [updateSyncStatus_eq env (enterSync w)]
  dsimp only
  have hps : (updateSyncStatus env (enterSync w)).2 = passStart env w := rfl
  rw [hps]
  have hb : performSyncBody env (passStart env w) = (.ok (), w4) := by
    unfold performSyncBody performSyncTry
    rw [hup]; dsimp only
    rw [h4]
  rw [hb, h4]
  dsimp only
  rcases performSyncFinally env w4 with ⟨_ | _, _⟩ <;> rfl

theorem pass_eq_of_uploads_fail (env : Env) (w w2 : World) (err : String)
    (h0 : w.app.syncInProgress = false)
    (hup : uploadPending env (passStart env w) = (.error err, w2)) :
    pass env w = (performSyncFinally env (performSyncCatch err w2)).2 := by
  unfold pass performSync
  rw [if_neg (by simp [h0])]
  unfold performSyncRunning
  rw [updateSyncStatus_eq env (enterSync w)]
  dsimp only
  have hps : (updateSyncStatus env (enterSync w)).2 = passStart env w := rfl
  rw [hps]
  have hb : performSyncBody env (passStart env w) = (.ok (), performSyncCatch err w2) := by
    unfold performSyncBody performSyncTry
    rw [hup]
  rw [hb]
  dsimp only
  rcases performSyncFinally env (performSyncCatch err w2) with ⟨_ | _, _⟩ <;> rfl

theorem db_performSyncFinally (env : Env) (w : World) :
    (performSyncFinally env w).2.db = w.db :=
  updateSyncStatus_db env _

theorem db_performSyncCatch (err : String) (w : World) : (performSyncCatch err w).db = w.db := by
  unfold performSyncCatch
  dsimp only
  split <;> rfl

theorem db_passStart (env : Env) (w : World) : (passStart env w).db = w.db :=
  updateSyncStatus_db env (enterSync w)

theorem pendingRead_eq (env : Env) (w wg : World) (l : List Audit)
    (h : getPendingAudits env (showSyncProgress "Syncing data..." (passStart env w)) = (.ok l, wg)) :
    pendingRead env w = l := by
  unfold pendingRead
  rw [h]

theorem dbstep_uploadPending (env : Env) (w : World) :
    DbStep ((pendingRead env w).map Audit.id) (passStart env w)
      (uploadPending env (passStart env w)).2 := by
  have hdb := db_getAudits env (some "pending")
    (showSyncProgress "Syncing data..." (passStart env w))
  unfold uploadPending
  dsimp only
  rcases hg : getPendingAudits env (showSyncProgress "Syncing data..." (passStart env w))
    with ⟨e | l, wg⟩
  · unfold getPendingAudits at hg
    rw [hg] at hdb
    have hdb2 : wg.db = (passStart env w).db := hdb
    exact DbStep.of_db_eq _ hdb2
  · rw [pendingRead_eq env w wg l hg]
    unfold getPendingAudits at hg
    rw [hg] at hdb
    have hdb2 : wg.db = (passStart env w).db := hdb
    dsimp only
    exact (DbStep.of_db_eq _ hdb2).andThen (dbstep_syncAudits env l wg)

theorem dbstep_pass (env : Env) (w : World) :
    DbStep ((pendingRead env w).map Audit.id) w (pass env w) := by
  by_cases hflag : w.app.syncInProgress = true
  · have : pass env w = w := by
      unfold pass performSync
      rw [if_pos hflag]
    rw [this]
    exact DbStep.stay _ _
  · have h0 : w.app.syncInProgress = false := by simpa using hflag
    have hs : DbStep ((pendingRead env w).map Audit.id) w (passStart env w) :=
      DbStep.of_db_eq _ (db_passStart env w)
    have hu := dbstep_uploadPending env w
    rcases hup : uploadPending env (passStart env w) with ⟨err | ⟨⟨⟩⟩, w2⟩
    · rw [hup] at hu
      rw [pass_eq_of_uploads_fail env w w2 err h0 hup]
      exact (hs.andThen hu).andThen (DbStep.of_db_eq _
        ((db_performSyncFinally env _).trans (db_performSyncCatch err w2)))
    · rw [hup] at hu
      rw [pass_eq_of_uploads_ok env w w2 h0 hup]
      exact ((hs.andThen hu).andThen
        ((dbstep_refreshAndFinish env w2).weaken (fun i hi => by simp at hi))).andThen
        (DbStep.of_db_eq _ (db_performSyncFinally env _))

/-! ## The status of an audit across passes -/

theorem pendingRead_mem (env : Env) (w : World) (a : Audit) (ha : a ∈ pendingRead env w) :
    a ∈ w.db.audits ∧ a.status = "pending" := by
  unfold pendingRead at ha
  rcases hg : getPendingAudits env (showSyncProgress "Syncing data..." (passStart env w))
    with ⟨e | l, wg⟩
  · rw [hg] at ha
    exact absurd ha (List.not_mem_nil a)
  · rw [hg] at ha
    have hdb := db_getAudits env (some "pending")
      (showSyncProgress "Syncing data..." (passStart env w))
    unfold getPendingAudits at hg
    rw [hg] at hdb
    have hdb2 : wg.db = w.db := hdb.trans (db_passStart env w)
    obtain ⟨hm, hst⟩ := mem_getAudits env (some "pending") _ wg l hg a ha
    rw [hdb2] at hm
    refine ⟨hm, ?_⟩
    simpa [statusMatches] using hst

theorem forall₂_imp_mem {α : Type} (R S : α → α → Prop) {l1 l2 : List α}
    (h : List.Forall₂ R l1 l2) (hRS : ∀ a ∈ l1, ∀ b, R a b → S a b) :
    List.Forall₂ S l1 l2 := by
  induction h with
  | nil => exact List.Forall₂.nil
  | cons hab _ ih =>
    exact List.Forall₂.cons (hRS _ (List.mem_cons_self _ _) _ hab)
      (ih (fun a ha b hb => hRS a (List.mem_cons_of_mem _ ha) b hb))

theorem StatusStep.chain {r1 r2 r3 : Audit} (h12 : StatusStep r1 r2) (h23 : StatusStep r2 r3) :
    StatusStep r1 r3 := by
  rcases h12 with h12 | ⟨m1, i1, t1, n1, p1, c1, s1⟩
  · rw [h12] at h23; exact h23
  · rcases h23 with h23 | ⟨m2, _⟩
    · rw [h23]; exact Or.inr ⟨m1, i1, t1, n1, p1, c1, s1⟩
    · rcases s1 with s1 | s1 <;> rw [s1] at m2 <;> exact absurd m2 (by decide)

theorem StatusStep.keeps_id {r r2 : Audit} (h : StatusStep r r2) : r2.id = r.id := by
  rcases h with h | ⟨_, i, _⟩
  · rw [h]
  · exact i

theorem statusStep_pass (env : Env) (w : World) (hid : (w.db.audits.map Audit.id).Nodup) :
    List.Forall₂ StatusStep w.db.audits (pass env w).db.audits := by
  refine forall₂_imp_mem (Touched ((pendingRead env w).map Audit.id)) StatusStep
    (dbstep_pass env w).audits ?_
  intro r hr r2 ht
  rcases ht with ht | ⟨hm, rest⟩
  · exact Or.inl ht
  · obtain ⟨a, ha, hai⟩ := List.mem_map.mp hm
    obtain ⟨hadb, hast⟩ := pendingRead_mem env w a ha
    have hra : a = r := List.inj_on_of_nodup_map hid hadb hr hai
    rw [hra] at hast
    exact Or.inr ⟨hast, rest⟩

theorem statusStep_ids {l1 l2 : List Audit} (h : List.Forall₂ StatusStep l1 l2) :
    l2.map Audit.id = l1.map Audit.id := by
  induction h with
  | nil => rfl
  | cons hab _ ih => rw [List.map_cons, List.map_cons, ih, hab.keeps_id]

theorem statusStep_passes (envs : List Env) (w : World)
    (hid : (w.db.audits.map Audit.id).Nodup) :
    List.Forall₂ StatusStep w.db.audits (passes envs w).db.audits := by
  induction envs generalizing w with
  | nil => exact forall₂_same_of StatusStep (fun _ => Or.inl rfl) _
  | cons env rest ih =>
    have h1 := statusStep_pass env w hid
    have hid2 : ((pass env w).db.audits.map Audit.id).Nodup := by
      rw [statusStep_ids h1]; exact hid
    exact forall₂_trans_of StatusStep (fun _ _ _ => StatusStep.chain) h1 (ih (pass env w) hid2)

/-- C11: in a store whose audits have distinct ids, every status write of a pass
targets a row whose audit was read as pending in that pass, and across any
sequence of passes each row of table `audits` is either left as it is or goes
from 'pending' to 'synced' or 'error' with its other data kept; a row that is
'synced' (or has any status other than 'pending') is never changed. -/
theorem audit_status_transitions (envs : List Env) (env : Env) (w : World)
    (hid : (w.db.audits.map Audit.id).Nodup) :
    List.Forall₂ (Touched ((pendingRead env w).map Audit.id)) w.db.audits
      (pass env w).db.audits ∧
    (∀ a ∈ pendingRead env w, a ∈ w.db.audits ∧ a.status = "pending") ∧
    List.Forall₂ StatusStep w.db.audits (passes envs w).db.audits ∧
    List.Forall₂ (fun r r2 => r.status ≠ "pending" → r2 = r) w.db.audits
      (passes envs w).db.audits ∧
    (∀ r ∈ w.db.audits, r.status = "synced" → r ∈ (passes envs w).db.audits) := by
  have hs := statusStep_passes envs w hid
  have hfix : List.Forall₂ (fun r r2 => r.status ≠ "pending" → r2 = r) w.db.audits
      (passes envs w).db.audits := by
    refine forall₂_imp_mem StatusStep _ hs ?_
    intro r _ r2 h hne
    rcases h with h | ⟨hp, _⟩
    · exact h
    · exact absurd hp hne
  refine ⟨(dbstep_pass env w).audits, pendingRead_mem env w, hs, hfix, ?_⟩
  intro r hr hsync
  have key : ∀ l1 l2 : List Audit,
      List.Forall₂ (fun r r2 => r.status ≠ "pending" → r2 = r) l1 l2 →
      r ∈ l1 → r ∈ l2 := by
    intro l1 l2 hl
    induction hl with
    | nil => intro h; exact h
    | cons hab _ ih =>
      intro h
      rcases List.mem_cons.mp h with h | h
      · subst h
        have := hab (by rw [hsync]; decide)
        rw [this]
        exact List.mem_cons_self _ _
      · exact List.mem_cons_of_mem _ (ih h)
  exact key _ _ hfix hr

/-- Witness of C11: two passes of the device with two pending audits, the first
with the server unreachable. -/
theorem audit_status_transitions_witness :
    List.Forall₂ StatusStep World.twoPending.db.audits
      (passes [Env.serverDown, Env.healthy] World.twoPending).db.audits :=
  (audit_status_transitions [Env.serverDown, Env.healthy] Env.serverDown World.twoPending
    (by decide)).2.2.1

/-! ## Job cards edited on the device -/

theorem job_cards_passes (envs : List Env) (w : World) :
    ∃ added, (passes envs w).db.job_cards = w.db.job_cards ++ added := by
  induction envs generalizing w with
  | nil => exact ⟨[], by simp [passes]⟩
  | cons env rest ih =>
    obtain ⟨a1, h1⟩ := (dbstep_pass env w).job_cards
    obtain ⟨a2, h2⟩ := ih (pass env w)
    exact ⟨a1 ++ a2, by rw [passes, h2, h1, List.append_assoc]⟩

/-- C12 (what the code does): no pass pushes an edited job card.  After any
sequence of passes the rows of table `job_cards` are those from before, unchanged
and in place, followed by the rows added by the fetches; so a job card that was
'pending' with `synced_at` null is still so and is still counted.  On the sample
device a fully successful pass leaves job card J-1 'pending' with `synced_at`
null and the count of pending job cards at 1. -/
theorem job_card_edit_never_pushed (envs : List Env) (w : World) :
    (∃ added, (passes envs w).db.job_cards = w.db.job_cards ++ added) ∧
    (∀ c ∈ w.db.job_cards, c.status = "pending" → c.synced_at = none →
      c ∈ (passes envs w).db.job_cards) ∧
    w.db.countPendingJobCards ≤ (passes envs w).db.countPendingJobCards ∧
    passFails Env.healthy World.sample = false ∧
    (pass Env.healthy World.sample).db.job_cards.map
        (fun c => (c.job_number, c.status, c.synced_at))
      = [("J-1", "pending", none), ("J-2", "active", some 40)] ∧
    (getPendingSyncCount Env.healthy (pass Env.healthy World.sample)).1
      = .ok { audits := 0, jobCards := 1, total := 1 } := by
  obtain ⟨added, h⟩ := job_cards_passes envs w
  refine ⟨⟨added, h⟩, ?_, ?_, rfl, rfl, rfl⟩
  · intro c hc _ _
    rw [h]
    exact List.mem_append_left _ hc
  · unfold Db.countPendingJobCards
    rw [h, List.filter_append, List.length_append]
    exact Nat.le_add_right _ _

/-! ## The audit records posted by a pass -/

theorem Event.isUploadOf_mono {l l2 : List Audit} (hsub : ∀ a ∈ l, a ∈ l2) (e : Event)
    (h : Event.isUploadOf l e = true) : Event.isUploadOf l2 e = true := by
  cases e with
  | api endpoint method body =>
    cases body with
    | audit title notes photos created_at =>
      simp only [Event.isUploadOf, Bool.and_eq_true, List.any_eq_true] at h ⊢
      obtain ⟨h1, a, ha, h2⟩ := h
      exact ⟨h1, a, hsub a ha, h2⟩
    | _ => exact h
  | _ => exact h

theorem Event.isUploadOf_of_isDb (l : List Audit) (e : Event) (h : e.isDb = true) :
    Event.isUploadOf l e = true := by
  cases e <;> simp_all [Event.isDb, Event.isUploadOf]

theorem stepsOf_uploadPhoto (env : Env) (photo : PhotoRef) (w : World) :
    Steps (Event.isUploadOf []) w (uploadPhoto env photo w).2 := by
  have h : Steps (Event.isUploadOf []) w (apiRequest env "/api/mobile/uploads" "POST"
      (ApiBody.photo photo.dataUrl photo.timestamp) w).2 := by
    refine ⟨rfl, rfl, Nat.le_add_right _ _, [_], rfl, ?_⟩
    intro e he
    rw [List.mem_singleton.mp he]
    rfl
  unfold uploadPhoto
  split <;> rename_i heq <;> rw [heq] at h <;> exact h

theorem stepsOf_uploadPhotos (env : Env) (l : List PhotoRef) (w : World) :
    Steps (Event.isUploadOf []) w (uploadPhotos env l w).2 := by
  induction l generalizing w with
  | nil => exact Steps.refl _ _
  | cons photo rest ih =>
    have h := stepsOf_uploadPhoto env photo w
    unfold uploadPhotos
    split <;> rename_i heq <;> rw [heq] at h
    · exact h
    · rename_i w1
      have h2 := ih w1
      split <;> rename_i heq2 <;> rw [heq2] at h2 <;> exact h.trans h2

theorem stepsOf_syncAuditTry (env : Env) (audit : Audit) (w : World) :
    Steps (Event.isUploadOf [audit]) w (syncAuditTry env audit w).2 := by
  have h := (stepsOf_uploadPhotos env audit.photos w).mono
    (@Event.isUploadOf_mono [] [audit] (fun a ha => absurd ha (List.not_mem_nil a)))
  unfold syncAuditTry
  split <;> rename_i heq <;> rw [heq] at h
  · exact h
  · rename_i photoUrls w1
    have h2 : Steps (Event.isUploadOf [audit]) w1 (apiRequest env "/api/mobile/sync/audits"
        "POST" (ApiBody.audit audit.title audit.notes photoUrls audit.created_at) w1).2 := by
      refine ⟨rfl, rfl, Nat.le_add_right _ _, [_], rfl, ?_⟩
      intro e he
      rw [List.mem_singleton.mp he]
      simp [Event.isUploadOf]
    split <;> rename_i heq2 <;> rw [heq2] at h2
    · exact h.trans h2
    · exact (h.trans h2).trans
        ((steps_updateAuditSyncStatus env _ _ _ _ _).mono (Event.isUploadOf_of_isDb _))

theorem stepsOf_syncAudit (env : Env) (audit : Audit) (w : World) :
    Steps (Event.isUploadOf [audit]) w (syncAudit env audit w).2 := by
  have h := stepsOf_syncAuditTry env audit w
  unfold syncAudit
  split <;> rename_i heq <;> rw [heq] at h
  · exact h
  · rename_i error w1
    have h2 := (steps_updateAuditSyncStatus env audit.id "error" none (some error) w1).mono
      (Event.isUploadOf_of_isDb [audit])
    split <;> rename_i heq2 <;> rw [heq2] at h2 <;> exact h.trans h2

theorem stepsOf_syncAudits (env : Env) (l : List Audit) (w : World) :
    Steps (Event.isUploadOf l) w (syncAudits env l w).2 := by
  induction l generalizing w with
  | nil => exact Steps.refl _ _
  | cons audit rest ih =>
    have h := (stepsOf_syncAudit env audit w).mono
      (@Event.isUploadOf_mono [audit] (audit :: rest) (fun a ha => by simp at ha; simp [ha]))
    unfold syncAudits
    split <;> rename_i heq <;> rw [heq] at h
    · exact h
    · exact h.trans ((ih _).mono
        (Event.isUploadOf_mono (fun a ha => List.mem_cons_of_mem _ ha)))

theorem stepsOf_uploadPending (env : Env) (w : World) :
    Steps (fun e => Event.isLocal e || Event.isUploadOf (pendingRead env w) e)
      (showSyncProgress "Syncing data..." (passStart env w))
      (uploadPending env (passStart env w)).2 := by
  have h := (steps_getAudits env (some "pending")
    (showSyncProgress "Syncing data..." (passStart env w))).mono
      (Q := fun e => Event.isLocal e || Event.isUploadOf (pendingRead env w) e)
      (fun e he => by simp [Event.isLocal_of_isDb e he])
  unfold uploadPending
  dsimp only
  rcases hg : getPendingAudits env (showSyncProgress "Syncing data..." (passStart env w))
    with ⟨e | l, wg⟩
  · unfold getPendingAudits at hg
    rw [hg] at h
    exact h
  · rw [pendingRead_eq env w wg l hg]
    rw [pendingRead_eq env w wg l hg] at h
    unfold getPendingAudits at hg
    rw [hg] at h
    dsimp only
    exact h.trans ((stepsOf_syncAudits env l wg).mono (fun e he => by simp [he]))

theorem auditPosts_append (a b : List Event) :
    auditPosts (a ++ b) = auditPosts a ++ auditPosts b := by
  simp [auditPosts, List.filterMap_append]

theorem auditPosts_of_requests (evs : List Event)
    (h : ("/api/mobile/sync/audits", "POST") ∉ apiRequests evs) : auditPosts evs = [] := by
  apply filterMap_none
  intro e he
  cases e with
  | api endpoint method body =>
    cases body with
    | audit title notes photos created_at =>
      dsimp only
      split
      · rename_i hc
        exfalso
        apply h
        unfold apiRequests
        refine List.mem_filterMap.mpr ⟨_, he, ?_⟩
        simp [hc.1, hc.2]
      · rfl
    | _ => rfl
  | _ => rfl

theorem auditPosts_uploadOf (l : List Audit) (evs : List Event)
    (h : ∀ e ∈ evs, (Event.isLocal e || Event.isUploadOf l e) = true) :
    ∀ p ∈ auditPosts evs, ∃ x ∈ l, p = (x.title, x.notes, x.created_at) := by
  intro p hp
  unfold auditPosts at hp
  obtain ⟨e, he, hpe⟩ := List.mem_filterMap.mp hp
  have hq := h e he
  cases e with
  | api endpoint method body =>
    cases body with
    | audit title notes photos created_at =>
      dsimp only at hpe
      split at hpe
      · simp only [Option.some.injEq] at hpe
        subst hpe
        simp only [Event.isLocal, Event.isUploadOf, Bool.false_or, Bool.and_eq_true,
          List.any_eq_true, decide_eq_true_eq] at hq
        obtain ⟨_, x, hx, ⟨h1, h2⟩, h3⟩ := hq
        exact ⟨x, hx, by rw [h1, h2, h3]⟩
      · exact absurd hpe (by simp)
    | _ => exact absurd hpe (by simp)
  | _ => exact absurd hpe (by simp)

theorem auditPosts_pass (env : Env) (w : World) :
    ∀ p ∈ auditPosts (eventsSince w (pass env w)),
      ∃ x ∈ pendingRead env w, p = (x.title, x.notes, x.created_at) := by
  by_cases hflag : w.app.syncInProgress = true
  · have : pass env w = w := by
      unfold pass performSync
      rw [if_pos hflag]
    rw [this]
    intro p hp
    simp [eventsSince, auditPosts] at hp
  · have h0 : w.app.syncInProgress = false := by simpa using hflag
    have s1 : Steps (fun e => Event.isLocal e || Event.isUploadOf (pendingRead env w) e)
        (enterSync w) (showSyncProgress "Syncing data..." (passStart env w)) :=
      ((steps_updateSyncStatus env (enterSync w)).mono (fun e he => by simp [he])).emit
        (Event.notification "Syncing data..." "info") rfl
    obtain ⟨evs, hevs, hq⟩ := (s1.trans (stepsOf_uploadPending env w)).trace
    have hevs2 : (uploadPending env (passStart env w)).2.trace = w.trace ++ evs := hevs
    rcases hup : uploadPending env (passStart env w) with ⟨err | ⟨⟨⟩⟩, w2⟩
    · rw [hup] at hevs2
      obtain ⟨w5, evsA, evsZ, hp, _, _, _, h5, hqZ, _⟩ :=
        performSync_of_uploads_fail env w w2 err h0 hup
      have hpass : pass env w = w5 := by unfold pass; rw [hp]
      rw [hpass, eventsSince_append w w5 (evs ++ (Event.notification
        ("Sync failed" ++ ": " ++ err) "error" :: (if w.app.syncRetryCount < maxRetries
          then [Event.setTimeout retryDelays[w.app.syncRetryCount]?] else []) ++ evsZ))
        (by rw [h5, hevs2]; simp)]
      have hc : auditPosts (Event.notification ("Sync failed" ++ ": " ++ err) "error" ::
          (if w.app.syncRetryCount < maxRetries
            then [Event.setTimeout retryDelays[w.app.syncRetryCount]?] else [])) = [] :=
        auditPosts_of_requests _ (by rw [apiRequests_catch]; exact List.not_mem_nil _)
      have hz : auditPosts evsZ = [] :=
        auditPosts_of_requests evsZ (by
          rw [apiRequests_local evsZ hqZ]; exact List.not_mem_nil _)
      rw [auditPosts_append, auditPosts_append, hc, hz, List.append_nil, List.append_nil]
      exact auditPosts_uploadOf (pendingRead env w) evs hq
    · rw [hup] at hevs2
      obtain ⟨w5, evsA, evsR, evsZ, _, hp, _, _, _, h5, hreq, _, _, hqZ, _⟩ :=
        performSync_of_uploads_ok env w w2 h0 hup
      have hpass : pass env w = w5 := by unfold pass; rw [hp]
      rw [hpass, eventsSince_append w w5 (evs ++ (evsR ++ evsZ))
        (by rw [h5, hevs2]; simp)]
      have hc : auditPosts evsR = [] :=
        auditPosts_of_requests evsR (by rw [hreq]; decide)
      have hz : auditPosts evsZ = [] :=
        auditPosts_of_requests evsZ (by
          rw [apiRequests_local evsZ hqZ]; exact List.not_mem_nil _)
      rw [auditPosts_append, auditPosts_append, hc, hz, List.append_nil, List.append_nil]
      exact auditPosts_uploadOf (pendingRead env w) evs hq

/-! ## The retry after a partial failure -/

theorem rows_updateAuditSyncStatus_ok (env : Env) (localId : Nat) (status : String)
    (serverId : Option Nat) (error : Option String) (w w1 : World)
    (h : updateAuditSyncStatus env localId status serverId error w = (.ok (), w1)) :
    ∀ r ∈ w1.db.audits, r.id = localId → r.status = status ∧ r.server_id = serverId := by
  cases hf : env.dbFault w.trace.length "UPDATE audits" with
  | some e =>
    have he : (updateAuditSyncStatus env localId status serverId error w).1 = .error e := by
      unfold updateAuditSyncStatus dbCall
      rw [hf]
    rw [h] at he
    cases he
  | none =>
    have hdb := db_updateAuditSyncStatus_ok env localId status serverId error w hf
    rw [h] at hdb
    intro r hr hrid
    have hdb2 : w1.db = w.db.updateAudit status (if status = "synced" then some w.now else none)
      serverId error localId := hdb
    rw [hdb2] at hr
    unfold Db.updateAudit at hr
    obtain ⟨r0, _, hr0⟩ := List.mem_map.mp hr
    by_cases hc : r0.id = localId
    · rw [if_pos hc] at hr0
      subst hr0
      exact ⟨rfl, rfl⟩
    · rw [if_neg hc] at hr0
      subst hr0
      exact absurd hrid hc

theorem syncAudit_error_of_try (env : Env) (a : Audit) (w w3 : World) (err : String)
    (hfail : syncAuditTry env a w = (.error err, w3)) :
    ∃ e2, syncAudit env a w = (.error e2, (syncAudit env a w).2) := by
  unfold syncAudit
  rw [hfail]
  dsimp only
  rcases updateAuditSyncStatus env a.id "error" none (some err) w3 with ⟨e2 | ⟨⟨⟩⟩, w4⟩
  · exact ⟨e2, rfl⟩
  · exact ⟨err, rfl⟩

theorem synced_of_syncAudit_ok (env : Env) (a : Audit) (w w1 : World)
    (h : syncAudit env a w = (.ok (), w1)) :
    ∀ r ∈ w1.db.audits, r.id = a.id → r.status = "synced" := by
  rcases ht : syncAuditTry env a w with ⟨e | ⟨⟨⟩⟩, wt⟩
  · obtain ⟨e2, he2⟩ := syncAudit_error_of_try env a w wt e ht
    rw [h] at he2
    cases (Prod.mk.inj he2).1
  · have hw : wt = w1 := by
      unfold syncAudit at h
      rw [ht] at h
      exact (Prod.mk.inj h).2
    subst hw
    unfold syncAuditTry at ht
    rcases hp : uploadPhotos env a.photos w with ⟨e | urls, wp⟩
    · rw [hp] at ht
      cases (Prod.mk.inj ht).1
    · rw [hp] at ht
      dsimp only at ht
      rcases ha : apiRequest env "/api/mobile/sync/audits" "POST"
        (ApiBody.audit a.title a.notes urls a.created_at) wp with ⟨e | response, wa⟩
      · rw [ha] at ht
        cases (Prod.mk.inj ht).1
      · rw [ha] at ht
        dsimp only at ht
        intro r hr hrid
        exact (rows_updateAuditSyncStatus_ok env a.id "synced" (some response.id) none wa wt
          ht r hr hrid).1

theorem untouched_mem {ids : List Nat} {l1 l2 : List Audit}
    (h : List.Forall₂ (Touched ids) l1 l2) (r : Audit) (hr : r ∈ l2) (hid : r.id ∉ ids) :
    r ∈ l1 := by
  induction h with
  | nil => exact hr
  | cons hab _ ih =>
    rcases List.mem_cons.mp hr with hr | hr
    · subst hr
      rcases hab with hab | ⟨hm, hi, _⟩
      · rw [hab]
        exact List.mem_cons_self _ _
      · rw [hi] at hid
        exact absurd hm hid
    · exact List.mem_cons_of_mem _ (ih hr)

theorem synced_of_syncAudits_ok (env : Env) (l : List Audit) (w w2 : World)
    (h : syncAudits env l w = (.ok (), w2)) (hnd : (l.map Audit.id).Nodup) :
    ∀ s ∈ l, ∀ r ∈ w2.db.audits, r.id = s.id → r.status = "synced" := by
  induction l generalizing w with
  | nil => intro s hs; exact absurd hs (List.not_mem_nil s)
  | cons a rest ih =>
    have step : syncAudits env (a :: rest) w =
        match syncAudit env a w with
        | (.error error, v) => (.error error, v)
        | (.ok (), v) => syncAudits env rest v := rfl
    rw [step] at h
    rcases ha : syncAudit env a w with ⟨e | ⟨⟨⟩⟩, wa⟩
    · rw [ha] at h
      cases (Prod.mk.inj h).1
    · rw [ha] at h
      dsimp only at h
      rw [List.map_cons, List.nodup_cons] at hnd
      intro s hs r hr hrid
      rcases List.mem_cons.mp hs with hs | hs
      · subst hs
        have hd := dbstep_syncAudits env rest wa
        rw [h] at hd
        have hmem : r ∈ wa.db.audits := untouched_mem hd.audits r hr (by rw [hrid]; exact hnd.1)
        exact synced_of_syncAudit_ok env s w wa ha r hmem hrid
      · exact ih wa h hnd.2 s hs r hr hrid

theorem nodup_getAudits (env : Env) (filter : Option String) (w w1 : World) (l : List Audit)
    (h : getAudits env filter w = (.ok l, w1)) (hid : (w.db.audits.map Audit.id).Nodup) :
    (l.map Audit.id).Nodup := by
  have hdb := db_getAudits env filter w
  rw [h] at hdb
  have hdb2 : w1.db = w.db := hdb
  unfold getAudits at h
  split at h
  · exact absurd (Prod.mk.inj h).1 (by simp)
  · rename_i w2 heq
    obtain ⟨h1, h2⟩ := Prod.mk.inj h
    subst h2
    have hl := Except.ok.inj h1
    subst hl
    unfold orderByCreatedAtDesc
    rw [hdb2]
    have hperm := (List.perm_insertionSort (fun a b : Audit => b.created_at ≤ a.created_at)
      (w.db.audits.filter (statusMatches filter))).map Audit.id
    rw [hperm.nodup_iff]
    exact hid.sublist ((List.filter_sublist _).map Audit.id)

theorem mem_passes_of_not_pending (envs : List Env) (w : World)
    (hid : (w.db.audits.map Audit.id).Nodup) (r : Audit) (hr : r ∈ w.db.audits)
    (hne : r.status ≠ "pending") : r ∈ (passes envs w).db.audits := by
  have key : ∀ l1 l2 : List Audit, List.Forall₂ StatusStep l1 l2 → r ∈ l1 → r ∈ l2 := by
    intro l1 l2 hl
    induction hl with
    | nil => intro h; exact h
    | cons hab _ ih =>
      intro h
      rcases List.mem_cons.mp h with h | h
      · subst h
        rcases hab with hab | ⟨hp, _⟩
        · rw [hab]
          exact List.mem_cons_self _ _
        · exact absurd hp hne
      · exact List.mem_cons_of_mem _ (ih h)
  exact key _ _ (statusStep_passes envs w hid) hr

theorem nodup_passes (envs : List Env) (w : World) (hid : (w.db.audits.map Audit.id).Nodup) :
    ((passes envs w).db.audits.map Audit.id).Nodup := by
  rw [statusStep_ids (statusStep_passes envs w hid)]
  exact hid

/-- C13: in a store whose audits have distinct ids, let a pass read the pending
audits `pre ++ a :: post`, upload all of `pre` (their 'synced' writes succeeding)
and fail at `a`.  Then every audit of `pre` is 'synced' after that pass, and in
the retry and in any later pass it is not among the audits the pass reads and
uploads: every audit record posted by such a pass is that of an audit read as
pending in that pass, with another id. -/
theorem retry_uploads_nothing_twice (env1 env2 : Env) (later : List Env) (w w1 w2 w3 : World)
    (pre post : List Audit) (a : Audit) (err : String)
    (h0 : w.app.syncInProgress = false) (hid : (w.db.audits.map Audit.id).Nodup)
    (hread : getPendingAudits env1 (showSyncProgress "Syncing data..." (passStart env1 w))
      = (.ok (pre ++ a :: post), w1))
    (hpre : syncAudits env1 pre w1 = (.ok (), w2))
    (hfail : syncAuditTry env1 a w2 = (.error err, w3))
    (s : Audit) (hs : s ∈ pre) :
    (∃ r ∈ (pass env1 w).db.audits, r.id = s.id ∧ r.status = "synced") ∧
    (∀ x ∈ pendingRead env2 (passes later (pass env1 w)), x.id ≠ s.id) ∧
    (∀ p ∈ auditPosts (eventsSince (passes later (pass env1 w))
        (pass env2 (passes later (pass env1 w)))),
      ∃ x ∈ pendingRead env2 (passes later (pass env1 w)),
        x.id ≠ s.id ∧ p = (x.title, x.notes, x.created_at)) := by
  have hpend : pendingRead env1 w = pre ++ a :: post := pendingRead_eq env1 w w1 _ hread
  have hidp : ((showSyncProgress "Syncing data..." (passStart env1 w)).db.audits.map
      Audit.id).Nodup := by
    have : (showSyncProgress "Syncing data..." (passStart env1 w)).db = w.db :=
      db_passStart env1 w
    rw [this]; exact hid
  have hnd : ((pre ++ a :: post).map Audit.id).Nodup :=
    nodup_getAudits env1 (some "pending") _ w1 _ hread hidp
  rw [List.map_append, List.nodup_append] at hnd
  obtain ⟨hndpre, _, hdisj⟩ := hnd
  have hsa : s.id ≠ a.id := by
    intro hc
    exact hdisj (List.mem_map_of_mem _ hs) (by rw [hc]; simp)
  -- the rows of `s` when the loop reaches `a`
  have hw2 := synced_of_syncAudits_ok env1 pre w1 w2 hpre hndpre s hs
  -- the end of the first pass
  obtain ⟨e2, he2⟩ := syncAudit_error_of_try env1 a w2 w3 err hfail
  have hup : uploadPending env1 (passStart env1 w) = (.error e2, (syncAudit env1 a w2).2) := by
    unfold uploadPending
    dsimp only
    rw [hread]
    dsimp only
    rw [syncAudits_append, hpre]
    dsimp only
    have step : syncAudits env1 (a :: post) w2 =
        match syncAudit env1 a w2 with
        | (.error error, v) => (.error error, v)
        | (.ok (), v) => syncAudits env1 post v := rfl
    rw [step, he2]
  have hdb1 : (pass env1 w).db = (syncAudit env1 a w2).2.db := by
    rw [pass_eq_of_uploads_fail env1 w _ e2 h0 hup]
    exact (db_performSyncFinally env1 _).trans (db_performSyncCatch e2 _)
  have hsynced : ∀ r ∈ (pass env1 w).db.audits, r.id = s.id → r.status = "synced" := by
    intro r hr hrid
    rw [hdb1] at hr
    have hmem : r ∈ w2.db.audits :=
      untouched_mem (dbstep_syncAudit env1 a w2).audits r hr (by
        rw [hrid]; simpa using hsa)
    exact hw2 r hmem hrid
  have hsdb : s ∈ w.db.audits :=
    (pendingRead_mem env1 w s (by rw [hpend]; exact List.mem_append_left _ hs)).1
  have hex : ∃ r ∈ (pass env1 w).db.audits, r.id = s.id := by
    have hids := (dbstep_pass env1 w).ids_eq
    have : s.id ∈ (pass env1 w).db.audits.map Audit.id := by
      rw [hids]; exact List.mem_map_of_mem _ hsdb
    obtain ⟨r, hr, hrid⟩ := List.mem_map.mp this
    exact ⟨r, hr, hrid⟩
  obtain ⟨r0, hr0, hr0id⟩ := hex
  have hr0s : r0.status = "synced" := hsynced r0 hr0 hr0id
  have hid1 : ((pass env1 w).db.audits.map Audit.id).Nodup := by
    rw [(dbstep_pass env1 w).ids_eq]; exact hid
  have hr0W : r0 ∈ (passes later (pass env1 w)).db.audits :=
    mem_passes_of_not_pending later _ hid1 r0 hr0 (by rw [hr0s]; decide)
  have hidW := nodup_passes later (pass env1 w) hid1
  have hno : ∀ x ∈ pendingRead env2 (passes later (pass env1 w)), x.id ≠ s.id := by
    intro x hx hxid
    obtain ⟨hxdb, hxst⟩ := pendingRead_mem env2 _ x hx
    have : x = r0 := List.inj_on_of_nodup_map hidW hxdb hr0W (hxid.trans hr0id.symm)
    rw [this, hr0s] at hxst
    exact absurd hxst (by decide)
  refine ⟨⟨r0, hr0, hr0id, hr0s⟩, hno, ?_⟩
  intro p hp
  obtain ⟨x, hx, hpx⟩ := auditPosts_pass env2 _ p hp
  exact ⟨x, hx, hno x hx, hpx⟩

/-- Witness of C13: on the device with two pending audits the server accepts the
first and rejects the second; the retry does not read the first again. -/
theorem retry_uploads_nothing_twice_witness :
    (∃ r ∈ (pass Env.drainRejected World.twoPending).db.audits,
      r.id = Audit.roof.id ∧ r.status = "synced") ∧
    (∀ x ∈ pendingRead Env.healthy (passes [] (pass Env.drainRejected World.twoPending)),
      x.id ≠ Audit.roof.id) :=
  have h := retry_uploads_nothing_twice Env.drainRejected Env.healthy [] World.twoPending
    (getPendingAudits Env.drainRejected (showSyncProgress "Syncing data..."
      (passStart Env.drainRejected World.twoPending))).2
    (syncAudits Env.drainRejected [Audit.roof]
      (getPendingAudits Env.drainRejected (showSyncProgress "Syncing data..."
        (passStart Env.drainRejected World.twoPending))).2).2
    (syncAuditTry Env.drainRejected Audit.drain
      (syncAudits Env.drainRejected [Audit.roof]
        (getPendingAudits Env.drainRejected (showSyncProgress "Syncing data..."
          (passStart Env.drainRejected World.twoPending))).2).2).2
    [Audit.roof] [] Audit.drain "HTTP 422" rfl (by decide) rfl rfl rfl Audit.roof
    (List.mem_singleton.mpr rfl)
  ⟨h.1, h.2.1⟩

/-! ## Creating an audit and uploading it -/

theorem notifySyncNeededLoop_eq (env : Env) (reason : String) (l : List Nat) (w : World) :
    notifySyncNeededLoop env reason l w =
      (.ok (), { w with
        trace := (w.trace ++ l.map (fun cb => Event.syncNeeded cb reason)) }) := by
  induction l generalizing w with
  | nil => simp [notifySyncNeededLoop]
  | cons cb rest ih =>
    have h1 : notifySyncOne env reason cb w = (.ok (), w.emit (Event.syncNeeded cb reason)) := by
      unfold notifySyncOne invokeCallback
      cases env.callbackThrows w.trace.length cb <;> rfl
    unfold notifySyncNeededLoop
    rw [h1]
    dsimp only
    rw [ih]
    simp [World.emit]

theorem notifySyncNeeded_eq (env : Env) (reason : String) (w : World) :
    notifySyncNeeded env reason w =
      (.ok (), { w with
        trace := (w.trace ++ w.syncCallbacks.map (fun cb => Event.syncNeeded cb reason)) }) :=
  notifySyncNeededLoop_eq env reason w.syncCallbacks w

theorem createAudit_eq (env : Env) (d : AuditData) (w : World)
    (h : env.dbFault w.trace.length "INSERT INTO audits" = none) :
    createAudit env d w =
      (.ok { id := w.db.seq_audits + 1, status := "pending", createdAt := w.now },
       { w with
         db := w.db.insertAudit d.title (orDefault d.notes "") (d.photos.getD []) w.now
         now := w.now + env.elapsed w.trace.length
         trace := (w.trace ++ Event.db "INSERT INTO audits" ::
           w.syncCallbacks.map (fun cb => Event.syncNeeded cb "audit_created")) }) := by
  unfold createAudit dbCall
  rw [h]
  dsimp only
  rw [notifySyncNeeded_eq]
  simp [Db.insertAudit]

theorem orDefault_some (n : String) : orDefault (some n) "" = n := by
  unfold orDefault
  dsimp only
  split
  · rename_i h; exact h.symm
  · rfl

theorem getAudits_eq (env : Env) (filter : Option String) (w : World)
    (h : env.dbFault w.trace.length "SELECT * FROM audits" = none) :
    getAudits env filter w =
      (.ok (orderByCreatedAtDesc (w.db.audits.filter (statusMatches filter))),
       (dbCall env "SELECT * FROM audits" w).2) := by
  unfold getAudits dbCall
  rw [h]

theorem syncAudit_eq_of_no_photos (env : Env) (a : Audit) (w : World) (response : ApiResponse)
    (hp : a.photos = [])
    (hapi : env.api w.trace.length "/api/mobile/sync/audits" "POST"
      (ApiBody.audit a.title a.notes [] a.created_at) = .ok response)
    (hdb : env.dbFault (w.trace.length + 1) "UPDATE audits" = none) :
    syncAudit env a w =
      (.ok (), { w with
        db := w.db.updateAudit "synced" (some (w.now + env.elapsed w.trace.length))
          (some response.id) none a.id
        now := w.now + env.elapsed w.trace.length + env.elapsed (w.trace.length + 1)
        trace := (w.trace ++ [Event.api "/api/mobile/sync/audits" "POST"
          (ApiBody.audit a.title a.notes [] a.created_at), Event.db "UPDATE audits"]) }) := by
  unfold syncAudit syncAuditTry
  rw [hp]
  simp [uploadPhotos, apiRequest, hapi, updateAuditSyncStatus, dbCall, hdb]

/-- C14: on a store without audits and with a store that does not fail,
`createAudit({title: t, notes: n, photos: []})` followed by `getPendingAudits`
returns exactly one record, with title `t`, notes `n`, no photos and status
'pending'; when the server accepts its record, `syncAudit` of that record
succeeds, after which `getPendingAudits` returns nothing and
`getAudits({status: 'synced'})` returns the record with `server_id` the id of the
server's response. -/
theorem audit_round_trip (env : Env) (w : World) (t n : String) (response : ApiResponse)
    (hempty : w.db.audits = []) (hdb : ∀ k sql, env.dbFault k sql = none)
    (hapi : env.api (w.trace.length + w.syncCallbacks.length + 2) "/api/mobile/sync/audits"
      "POST" (ApiBody.audit t n [] w.now) = .ok response) :
    ∃ (w1 w2 w3 w4 w5 : World) (record : Audit) (syncedAt : Nat),
      createAudit env { title := t, notes := some n, photos := some [] } w
        = (.ok { id := record.id, status := "pending", createdAt := w.now }, w1) ∧
      getPendingAudits env w1 = (.ok [record], w2) ∧
      record.title = t ∧ record.notes = n ∧ record.photos = [] ∧ record.status = "pending" ∧
      syncAudit env record w2 = (.ok (), w3) ∧
      getPendingAudits env w3 = (.ok [], w4) ∧
      getAudits env (some "synced") w4
        = (.ok [{ record with status := "synced", server_id := some response.id,
                              synced_at := some syncedAt }], w5) := by
  have hc := createAudit_eq env { title := t, notes := some n, photos := some [] } w (hdb _ _)
  have hrec : ∀ (W1 W2 W3 W4 : World) (record : Audit),
      W1 = (createAudit env { title := t, notes := some n, photos := some [] } w).2 →
      record = { id := w.db.seq_audits + 1, title := t, notes := n, photos := [],
                 status := "pending", created_at := w.now, synced_at := none,
                 server_id := none, last_error := none } →
      W2 = (getPendingAudits env W1).2 →
      W3 = (syncAudit env record W2).2 →
      W4 = (getPendingAudits env W3).2 →
      (getPendingAudits env W1).1 = .ok [record] ∧
      (syncAudit env record W2).1 = .ok () ∧
      (getPendingAudits env W3).1 = .ok [] ∧
      (getAudits env (some "synced") W4).1
        = .ok [{ record with status := "synced", server_id := some response.id,
                             synced_at := some (W2.now + env.elapsed W2.trace.length) }] := by
    intro W1 W2 W3 W4 record h1 hr h2 h3 h4
    have a1 : W1.db.audits = [record] := by
      rw [h1, hc, hr]
      simp [Db.insertAudit, hempty, orDefault_some]
    have g1 := getAudits_eq env (some "pending") W1 (hdb _ _)
    have b1 : (getPendingAudits env W1).1 = .ok [record] := by
      unfold getPendingAudits
      rw [g1, a1, hr]
      rfl
    have a2 : W2.db.audits = [record] := by
      rw [h2]
      unfold getPendingAudits
      rw [g1]
      exact a1
    have hlen : W2.trace.length = w.trace.length + w.syncCallbacks.length + 2 := by
      rw [h2]
      unfold getPendingAudits
      rw [g1, h1, hc]
      simp [dbCall]
      omega
    have s2 := syncAudit_eq_of_no_photos env record W2 response (by rw [hr])
      (by rw [hr, hlen]; exact hapi) (hdb _ _)
    have a3 : W3.db.audits =
        [{ record with status := "synced", server_id := some response.id,
                       synced_at := some (W2.now + env.elapsed W2.trace.length) }] := by
      rw [h3, s2]
      simp [Db.updateAudit, a2, hr]
    have g3 := getAudits_eq env (some "pending") W3 (hdb _ _)
    have b3 : (getPendingAudits env W3).1 = .ok [] := by
      unfold getPendingAudits
      rw [g3, a3]
      rfl
    have a4 : W4.db.audits = W3.db.audits := by
      rw [h4]
      unfold getPendingAudits
      rw [g3]
      rfl
    have g4 := getAudits_eq env (some "synced") W4 (hdb _ _)
    refine ⟨b1, by rw [s2], b3, ?_⟩
    rw [g4, a4, a3]
    rfl
  obtain ⟨b1, b2, b3, b4⟩ := hrec _ _ _ _ _ rfl rfl rfl rfl rfl
  exact ⟨_, _, _, _, _, _, _, by rw [hc], Prod.ext b1 rfl, rfl, rfl, rfl, rfl,
    Prod.ext b2 rfl, Prod.ext b3 rfl, Prod.ext b4 rfl⟩

/-- Witness of C14: an audit created on a new device with one registered
callback and uploaded through the placeholder API. -/
theorem audit_round_trip_witness :
    ∃ (w1 w2 w3 w4 w5 : World) (record : Audit) (syncedAt : Nat),
      createAudit Env.healthy { title := "Roof", notes := some "loose tiles", photos := some [] }
          (onSyncNeeded 5 World.fresh)
        = (.ok { id := record.id, status := "pending", createdAt := 0 }, w1) ∧
      getPendingAudits Env.healthy w1 = (.ok [record], w2) ∧
      record.title = "Roof" ∧ record.notes = "loose tiles" ∧ record.photos = [] ∧
      record.status = "pending" ∧
      syncAudit Env.healthy record w2 = (.ok (), w3) ∧
      getPendingAudits Env.healthy w3 = (.ok [], w4) ∧
      getAudits Env.healthy (some "synced") w4
        = (.ok [{ record with status := "synced", server_id := some 3,
                              synced_at := some syncedAt }], w5) :=
  audit_round_trip Env.healthy (onSyncNeeded 5 World.fresh) "Roof" "loose tiles"
    { id := 3, schedules := [], jobCards := [], earnings := [],
      url := "https://example.com/uploads/photo.jpg" }
    rfl (fun _ _ => rfl) rfl

/-! ## The write of a sync status -/

/-- C15: when its statement succeeds,
`updateAuditSyncStatus(id, status, serverId, errorMessage)` sets, in every row
with that id, `status`, `server_id` and `last_error` to the values given (null
when the caller gives none) and `synced_at` to the current time if `status` is
'synced' and to null otherwise; `id`, `title`, `notes`, `photos` and `created_at`
of that row are kept, every other row of `audits` is unchanged, and so are the
other tables. -/
theorem updateAuditSyncStatus_frame (env : Env) (localId : Nat) (status : String)
    (serverId : Option Nat) (error : Option String) (w : World)
    (hok : env.dbFault w.trace.length "UPDATE audits" = none) :
    (updateAuditSyncStatus env localId status serverId error w).1 = .ok () ∧
    List.Forall₂
      (fun a a2 =>
        (a.id = localId →
          a2.status = status ∧ a2.server_id = serverId ∧ a2.last_error = error ∧
          a2.synced_at = (if status = "synced" then some w.now else none) ∧
          a2.id = a.id ∧ a2.title = a.title ∧ a2.notes = a.notes ∧ a2.photos = a.photos ∧
          a2.created_at = a.created_at) ∧
        (a.id ≠ localId → a2 = a))
      w.db.audits (updateAuditSyncStatus env localId status serverId error w).2.db.audits ∧
    (updateAuditSyncStatus env localId status serverId error w).2.db.schedules
      = w.db.schedules ∧
    (updateAuditSyncStatus env localId status serverId error w).2.db.job_cards
      = w.db.job_cards ∧
    (updateAuditSyncStatus env localId status serverId error w).2.db.earnings
      = w.db.earnings := by
  have hdb := db_updateAuditSyncStatus_ok env localId status serverId error w hok
  refine ⟨?_, ?_, by rw [hdb]; rfl, by rw [hdb]; rfl, by rw [hdb]; rfl⟩
  · unfold updateAuditSyncStatus dbCall
    rw [hok]
  · rw [hdb]
    unfold Db.updateAudit
    apply forall₂_map_of
    intro a
    by_cases h : a.id = localId
    · rw [if_pos h]
      exact ⟨fun _ => ⟨rfl, rfl, rfl, rfl, rfl, rfl, rfl, rfl, rfl⟩, fun hne => absurd h hne⟩
    · rw [if_neg h]
      exact ⟨fun he => absurd he h, fun _ => rfl⟩

/-- Witness of C15: the audit with id 1 of the sample device marked 'synced' with
server id 42. -/
theorem updateAuditSyncStatus_frame_witness :
    (updateAuditSyncStatus Env.healthy 1 "synced" (some 42) none World.sample).1 = .ok () ∧
    (updateAuditSyncStatus Env.healthy 1 "synced" (some 42) none World.sample).2.db.job_cards
      = World.sample.db.job_cards :=
  have h := updateAuditSyncStatus_frame Env.healthy 1 "synced" (some 42) none World.sample rfl
  ⟨h.1, h.2.2.2.1⟩

/-! ## Listeners of the network monitor -/

theorem listenerCalls_listeners (connected : Bool) (l : List Nat) :
    listenerCalls (l.map (fun cb => Event.listener cb connected (!connected)))
      = l.map (fun cb => (cb, connected, !connected)) := by
  induction l with
  | nil => rfl
  | cons cb rest ih =>
    unfold listenerCalls at ih ⊢
    rw [List.map_cons, List.filterMap_cons]
    dsimp only
    rw [ih, List.map_cons]

theorem listenerCalls_triggers (l : List Nat) :
    listenerCalls (l.map Event.syncTrigger) = [] := by
  apply filterMap_none
  intro e he
  obtain ⟨cb, _, hcb⟩ := List.mem_map.mp he
  subst hcb
  rfl

/-- C17: for every list of registered listeners, every notification and every
choice of the listeners that throw, `notifyListeners` calls every registered
listener once, in registration order, with `{online: connected, offline: not
connected}` and completes normally; so does `handleNetworkChange`, which calls
the same listeners with the same object and throws nothing. -/
theorem notifyListeners_isolated (env : Env) (connected : Bool) (w : World) :
    (notifyListeners env connected w).1 = .ok () ∧
    listenerCalls (eventsSince w (notifyListeners env connected w).2)
      = w.net.listeners.map (fun cb => (cb, connected, !connected)) ∧
    (handleNetworkChange env connected w).1 = .ok () ∧
    listenerCalls (eventsSince w (handleNetworkChange env connected w).2)
      = w.net.listeners.map (fun cb => (cb, connected, !connected)) ∧
    (listenerCalls (eventsSince w (handleNetworkChange env connected w).2)).length
      = w.net.listeners.length := by
  have hn : notifyListeners env connected w = (.ok (), { w with
      trace := (w.trace ++ w.net.listeners.map
        (fun cb => Event.listener cb connected (!connected))) }) :=
    notifyListenersLoop_eq env connected w.net.listeners w
  have h1 : listenerCalls (eventsSince w (notifyListeners env connected w).2)
      = w.net.listeners.map (fun cb => (cb, connected, !connected)) := by
    rw [hn, eventsSince_append w _ _ rfl]
    exact listenerCalls_listeners connected _
  have h2 : listenerCalls (eventsSince w (handleNetworkChange env connected w).2)
      = w.net.listeners.map (fun cb => (cb, connected, !connected)) := by
    rw [handleNetworkChange_eq, eventsSince_append w _ _ rfl]
    unfold listenerCalls
    rw [List.filterMap_append]
    have ha := listenerCalls_listeners connected w.net.listeners
    unfold listenerCalls at ha
    rw [ha]
    split
    · have hb := listenerCalls_triggers w.net.syncTriggers
      unfold listenerCalls at hb
      rw [hb, List.append_nil]
    · simp
  exact ⟨by rw [hn], h1, by rw [handleNetworkChange_eq], h2, by rw [h2, List.length_map]⟩

/-! ## The Running flag -/

/-- C18: every pass that entered Running (started with `syncInProgress` false)
completes normally and ends with `syncInProgress` false, whatever the store and
the API did during the pass. -/
theorem running_flag_cleared (env : Env) (w : World) (h0 : w.app.syncInProgress = false) :
    (performSync env w).1 = .ok () ∧ (pass env w).app.syncInProgress = false := by
  rcases hup : uploadPending env (passStart env w) with ⟨err | ⟨⟨⟩⟩, w2⟩
  · obtain ⟨w5, _, _, hp, _, _, _, _, _, happ, _⟩ :=
      performSync_of_uploads_fail env w w2 err h0 hup
    unfold pass
    rw [hp, happ]
    exact ⟨rfl, rfl⟩
  · obtain ⟨w5, _, _, _, _, hp, _, _, _, _, _, _, _, _, happ, _⟩ :=
      performSync_of_uploads_ok env w w2 h0 hup
    unfold pass
    rw [hp, happ]
    exact ⟨rfl, rfl⟩

/-- Witness of C18: passes of the sample device with the store down and with the
server unreachable. -/
theorem running_flag_cleared_witness :
    (pass Env.storeDown World.sample).app.syncInProgress = false ∧
    (pass Env.serverDown World.sample).app.syncInProgress = false :=
  ⟨(running_flag_cleared Env.storeDown World.sample rfl).2,
   (running_flag_cleared Env.serverDown World.sample rfl).2⟩

/-! ## The cache of job cards -/

theorem cacheJobCards_numbers (env : Env) (l : List JobCard) (w : World)
    (h : (cacheJobCards env l w).1 = .ok ()) :
    (cacheJobCards env l w).2.db.job_cards.map JobCardRow.job_number
      = w.db.job_cards.map JobCardRow.job_number ++ l.map JobCard.job_number := by
  induction l generalizing w with
  | nil => simp [cacheJobCards]
  | cons c rest ih =>
    unfold cacheJobCards dbCall at h ⊢
    dsimp only at h ⊢
    cases hf : env.dbFault w.trace.length "INSERT OR REPLACE INTO job_cards" with
    | some e =>
      rw [hf] at h
      exact absurd h (by simp)
    | none =>
      rw [hf] at h
      dsimp only at h ⊢
      rw [ih _ h]
      simp [Db.insertJobCard]

/-- C19 (what the code does): `cacheJobCards` adds one row for every job card of
the list, whatever the table holds: table `job_cards` has no unique key on
`job_number`, so `INSERT OR REPLACE` replaces nothing.  Caching the same job card
twice on a new device leaves two rows with its job number, where one call leaves
one. -/
theorem cacheJobCards_duplicates :
    (∀ (env : Env) (l : List JobCard) (w : World), (cacheJobCards env l w).1 = .ok () →
      (cacheJobCards env l w).2.db.job_cards.map JobCardRow.job_number
        = w.db.job_cards.map JobCardRow.job_number ++ l.map JobCard.job_number) ∧
    (cacheJobCards Env.healthy [JobCard.sample] World.fresh).1 = .ok () ∧
    (cacheJobCards Env.healthy [JobCard.sample] World.fresh).2.db.job_cards.map
        JobCardRow.job_number = ["J-1"] ∧
    (cacheJobCards Env.healthy [JobCard.sample]
      (cacheJobCards Env.healthy [JobCard.sample] World.fresh).2).1 = .ok () ∧
    (cacheJobCards Env.healthy [JobCard.sample]
      (cacheJobCards Env.healthy [JobCard.sample] World.fresh).2).2.db.job_cards.map
        JobCardRow.job_number = ["J-1", "J-1"] :=
  ⟨cacheJobCards_numbers, rfl, rfl, rfl, rfl⟩

/-! ## The cache of earnings -/

theorem insertEarnings_ok (env : Env) (l : List Earning) (w : World)
    (h : (insertEarnings env l w).1 = .ok ()) :
    (insertEarnings env l w).2.db.earnings.map (fun r => (r.amount, r.period, r.description))
      = w.db.earnings.map (fun r => (r.amount, r.period, r.description)) ++
          l.map (fun e => (e.amount, e.period, orDefault e.description "")) ∧
    (∀ r ∈ (insertEarnings env l w).2.db.earnings,
      r ∈ w.db.earnings ∨ w.db.seq_earnings < r.id) := by
  induction l generalizing w with
  | nil => exact ⟨by simp [insertEarnings], fun r hr => Or.inl hr⟩
  | cons e rest ih =>
    unfold insertEarnings dbCall at h ⊢
    dsimp only at h ⊢
    cases hf : env.dbFault w.trace.length "INSERT INTO earnings" with
    | some msg =>
      rw [hf] at h
      exact absurd h (by simp)
    | none =>
      rw [hf] at h
      dsimp only at h ⊢
      obtain ⟨h1, h2⟩ := ih _ h
      refine ⟨?_, ?_⟩
      · rw [h1]
        simp [Db.insertEarning]
      · intro r hr
        rcases h2 r hr with hm | hlt
        · simp only [Db.insertEarning, List.mem_append, List.mem_singleton] at hm
          rcases hm with hm | hm
          · exact Or.inl hm
          · right
            rw [hm]
            exact Nat.lt_succ_self _
        · right
          simp only [Db.insertEarning] at hlt
          omega

theorem insertEarnings_fail_at (env : Env) (l : List Earning) (w : World) (i : Nat)
    (msg : String) (hi : i < l.length)
    (hbefore : ∀ j < i, env.dbFault (w.trace.length + j) "INSERT INTO earnings" = none)
    (hat : env.dbFault (w.trace.length + i) "INSERT INTO earnings" = some msg) :
    (insertEarnings env l w).1 = .error msg ∧
    (insertEarnings env l w).2.db.earnings.map (fun r => (r.amount, r.period, r.description))
      = w.db.earnings.map (fun r => (r.amount, r.period, r.description)) ++
          (l.take i).map (fun e => (e.amount, e.period, orDefault e.description "")) := by
  induction l generalizing w i with
  | nil => exact absurd hi (Nat.not_lt_zero _)
  | cons e rest ih =>
    unfold insertEarnings dbCall
    dsimp only
    cases i with
    | zero =>
      rw [Nat.add_zero] at hat
      rw [hat]
      simp
    | succ i =>
      have h0 := hbefore 0 (Nat.succ_pos _)
      rw [Nat.add_zero] at h0
      rw [h0]
      dsimp only
      have hlen : ∀ j, w.trace.length + 1 + j = w.trace.length + (j + 1) := fun j => by omega
      obtain ⟨h1, h2⟩ := ih
        { w with db := w.db.insertEarning e w.now,
                 now := w.now + env.elapsed w.trace.length,
                 trace := w.trace ++ [Event.db "INSERT INTO earnings"] } i
        (Nat.lt_of_succ_lt_succ hi)
        (fun j hj => by
          simp only [List.length_append, List.length_singleton]
          rw [hlen]
          exact hbefore (j + 1) (Nat.succ_lt_succ hj))
        (by
          simp only [List.length_append, List.length_singleton]
          rw [hlen]
          exact hat)
      refine ⟨h1, ?_⟩
      rw [h2]
      simp [Db.insertEarning]

/-- C20: when the clearing statement of `cacheEarnings(list)` succeeds, then (a)
if the call succeeds, table `earnings` holds exactly one row for each element of
the list, in order, with its amount, period and description ('' when missing),
and every row has an id generated after the call began, so none is from before;
(b) if the insert of element `i` is the first to fail, the call fails with that
error to its caller, and the table holds only the rows of the first `i`
elements. -/
theorem cacheEarnings_full_replace (env : Env) (l : List Earning) (w : World)
    (hclear : env.dbFault w.trace.length "DELETE FROM earnings" = none) :
    ((cacheEarnings env l w).1 = .ok () →
      (cacheEarnings env l w).2.db.earnings.map (fun r => (r.amount, r.period, r.description))
        = l.map (fun e => (e.amount, e.period, orDefault e.description "")) ∧
      (cacheEarnings env l w).2.db.earnings.length = l.length ∧
      (∀ r ∈ (cacheEarnings env l w).2.db.earnings, w.db.seq_earnings < r.id)) ∧
    (∀ (i : Nat) (msg : String), i < l.length →
      (∀ j < i, env.dbFault (w.trace.length + 1 + j) "INSERT INTO earnings" = none) →
      env.dbFault (w.trace.length + 1 + i) "INSERT INTO earnings" = some msg →
      (cacheEarnings env l w).1 = .error msg ∧
      (cacheEarnings env l w).2.db.earnings.map (fun r => (r.amount, r.period, r.description))
        = (l.take i).map (fun e => (e.amount, e.period, orDefault e.description ""))) := by
  have hc : cacheEarnings env l w = insertEarnings env l
      { w with db := { w.db with earnings := [] },
               now := w.now + env.elapsed w.trace.length,
               trace := w.trace ++ [Event.db "DELETE FROM earnings"] } := by
    unfold cacheEarnings dbCall
    rw [hclear]
  rw [hc]
  refine ⟨?_, ?_⟩
  · intro hok
    obtain ⟨h1, h2⟩ := insertEarnings_ok env l _ hok
    have h1b : (insertEarnings env l
        { w with db := { w.db with earnings := [] },
                 now := w.now + env.elapsed w.trace.length,
                 trace := w.trace ++ [Event.db "DELETE FROM earnings"] }).2.db.earnings.map
          (fun r => (r.amount, r.period, r.description))
        = l.map (fun e => (e.amount, e.period, orDefault e.description "")) := by
      rw [h1]; rfl
    refine ⟨h1b, ?_, ?_⟩
    · have := congrArg List.length h1b
      simpa using this
    · intro r hr
      rcases h2 r hr with hm | hlt
      · exact absurd hm (List.not_mem_nil r)
      · exact hlt
  · intro i msg hi hbefore hat
    obtain ⟨h1, h2⟩ := insertEarnings_fail_at env l
      { w with db := { w.db with earnings := [] },
               now := w.now + env.elapsed w.trace.length,
               trace := w.trace ++ [Event.db "DELETE FROM earnings"] } i msg hi
      (fun j hj => by
        simp only [List.length_append, List.length_singleton]
        exact hbefore j hj)
      (by
        simp only [List.length_append, List.length_singleton]
        exact hat)
    refine ⟨h1, ?_⟩
    rw [h2]; rfl

/-- Witness of C20: two earnings cached on the sample device, with a healthy
store and with a store that fails at the second insert. -/
theorem cacheEarnings_full_replace_witness :
    (cacheEarnings Env.healthy sampleEarnings World.sample).2.db.earnings.map
        (fun r => (r.amount, r.period, r.description))
      = sampleEarnings.map (fun e => (e.amount, e.period, orDefault e.description "")) ∧
    (cacheEarnings (Env.failsAt 2) sampleEarnings World.sample).1
      = .error "database or disk is full" :=
  ⟨((cacheEarnings_full_replace Env.healthy sampleEarnings World.sample rfl).1 rfl).1,
   ((cacheEarnings_full_replace (Env.failsAt 2) sampleEarnings World.sample rfl).2 1
      "database or disk is full" (by decide) (fun j hj => by
        have : j = 0 := by omega
        subst this
        rfl) rfl).1⟩

/-! ## The local edit of a job card -/

theorem lookup_map_override (base updates : List (String × String)) (k : String) :
    (base.map (fun kv => (kv.1, (updates.lookup kv.1).getD kv.2))).lookup k
      = (base.lookup k).map (fun v => (updates.lookup k).getD v) := by
  induction base with
  | nil => rfl
  | cons kv rest ih =>
    obtain ⟨k0, v0⟩ := kv
    by_cases h : k = k0
    · subst h
      simp [List.lookup]
    · have hb : (k == k0) = false := by simpa using h
      simp only [List.map_cons, List.lookup, hb]
      exact ih

theorem lookup_filter_new (base updates : List (String × String)) (k : String)
    (hk : base.lookup k = none) :
    (updates.filter (fun kv => (base.lookup kv.1).isNone)).lookup k = updates.lookup k := by
  induction updates with
  | nil => rfl
  | cons kv rest ih =>
    obtain ⟨k1, v1⟩ := kv
    by_cases h : k = k1
    · subst h
      simp [List.filter, hk, List.lookup]
    · have hb : (k == k1) = false := by simpa using h
      by_cases hf : (base.lookup k1).isNone = true
      · simp only [List.filter, hf, List.lookup, hb]
        exact ih
      · have hf2 : (base.lookup k1).isNone = false := by simpa using hf
        simp only [List.filter, hf2, List.lookup, hb]
        exact ih

theorem lookup_append_of (l1 l2 : List (String × String)) (k : String) :
    (l1 ++ l2).lookup k = match l1.lookup k with
      | some v => some v
      | none => l2.lookup k := by
  induction l1 with
  | nil => rfl
  | cons kv rest ih =>
    obtain ⟨k0, v0⟩ := kv
    by_cases h : k = k0
    · subst h
      simp [List.lookup]
    · have hb : (k == k0) = false := by simpa using h
      simp only [List.cons_append, List.lookup, hb]
      exact ih

theorem lookup_mergeExtra (base updates : List (String × String)) (k : String) :
    (mergeExtra base updates).lookup k =
      match updates.lookup k with
      | some v => some v
      | none => base.lookup k := by
  unfold mergeExtra
  rw [lookup_append_of, lookup_map_override]
  cases hb : base.lookup k with
  | none =>
    simp only [Option.map_none']
    rw [lookup_filter_new base updates k hb]
    cases updates.lookup k <;> rfl
  | some v =>
    simp only [Option.map_some']
    cases updates.lookup k <;> rfl

theorem syncNeededCalls_callbacks (reason : String) (l : List Nat) :
    syncNeededCalls (l.map (fun cb => Event.syncNeeded cb reason))
      = l.map (fun cb => (cb, reason)) := by
  induction l with
  | nil => rfl
  | cons cb rest ih =>
    unfold syncNeededCalls at ih ⊢
    rw [List.map_cons, List.filterMap_cons]
    dsimp only
    rw [ih, List.map_cons]

/-- C16: when the store does not fail, `updateJobCard(jobNumber, updates)` fails
with the error 'Job card <jobNumber> not found' if and only if no row of
`job_cards` has that job number, and then the store is unchanged and no callback
of `onSyncNeeded` is called.  Otherwise it returns the object spread of the
stored record of the first such row with `updates` (a key of `updates` wins),
writes that merge with status 'pending', `synced_at` null and the current time as
`updated_at` into the rows with that job number, leaves the other rows as they
are, and calls every callback of `onSyncNeeded` once with 'job_card_updated'. -/
theorem updateJobCard_spec (env : Env) (jobNumber : String) (updates : JobCardPatch)
    (w : World)
    (h1 : env.dbFault w.trace.length "SELECT data FROM job_cards WHERE job_number = ?" = none)
    (h2 : env.dbFault (w.trace.length + 1) "UPDATE job_cards" = none) :
    ((updateJobCard env jobNumber updates w).1
        = .error ("Job card " ++ jobNumber ++ " not found") ↔
      ∀ c ∈ w.db.job_cards, c.job_number ≠ jobNumber) ∧
    ((∀ c ∈ w.db.job_cards, c.job_number ≠ jobNumber) →
      (updateJobCard env jobNumber updates w).2.db = w.db ∧
      syncNeededCalls (eventsSince w (updateJobCard env jobNumber updates w).2) = []) ∧
    (∀ row rest, w.db.job_cards.filter (fun r => decide (r.job_number = jobNumber))
        = row :: rest →
      (updateJobCard env jobNumber updates w).1 = .ok (row.data.merge updates) ∧
      List.Forall₂
        (fun c c2 =>
          (c.job_number = jobNumber →
            c2 = { c with data := row.data.merge updates,
                          updated_at := some (w.now + env.elapsed w.trace.length),
                          synced_at := none, status := "pending" }) ∧
          (c.job_number ≠ jobNumber → c2 = c))
        w.db.job_cards (updateJobCard env jobNumber updates w).2.db.job_cards ∧
      (updateJobCard env jobNumber updates w).2.db.audits = w.db.audits ∧
      syncNeededCalls (eventsSince w (updateJobCard env jobNumber updates w).2)
        = w.syncCallbacks.map (fun cb => (cb, "job_card_updated"))) ∧
    (∀ card : JobCard,
      (card.merge updates).job_number = updates.job_number.getD card.job_number ∧
      (∀ v, updates.client = some v → (card.merge updates).client = some v) ∧
      (updates.client = none → (card.merge updates).client = card.client) ∧
      (∀ v, updates.status = some v → (card.merge updates).status = some v) ∧
      (updates.status = none → (card.merge updates).status = card.status) ∧
      (∀ k, (card.merge updates).extra.lookup k =
        match updates.extra.lookup k with
        | some v => some v
        | none => card.extra.lookup k)) := by
  have hnone : (∀ c ∈ w.db.job_cards, c.job_number ≠ jobNumber) ↔
      w.db.job_cards.filter (fun r => decide (r.job_number = jobNumber)) = [] := by
    rw [List.filter_eq_nil_iff]
    simp
  have hmiss : w.db.job_cards.filter (fun r => decide (r.job_number = jobNumber)) = [] →
      updateJobCard env jobNumber updates w =
        (.error ("Job card " ++ jobNumber ++ " not found"),
         (dbCall env "SELECT data FROM job_cards WHERE job_number = ?" w).2) := by
    intro hf
    unfold updateJobCard dbCall
    rw [h1]
    dsimp only
    rw [hf]
  have hhit : ∀ row rest, w.db.job_cards.filter (fun r => decide (r.job_number = jobNumber))
      = row :: rest →
      updateJobCard env jobNumber updates w =
        (.ok (row.data.merge updates),
         { w with
           db := w.db.updateJobCard (row.data.merge updates)
             (w.now + env.elapsed w.trace.length) jobNumber
           now := w.now + env.elapsed w.trace.length + env.elapsed (w.trace.length + 1)
           trace := (w.trace ++ (Event.db "SELECT data FROM job_cards WHERE job_number = ?" ::
             Event.db "UPDATE job_cards" ::
             w.syncCallbacks.map (fun cb => Event.syncNeeded cb "job_card_updated"))) }) := by
    intro row rest hf
    unfold updateJobCard dbCall
    rw [h1]
    dsimp only
    rw [hf]
    dsimp only
    rw [List.length_append, List.length_singleton, h2]
    dsimp only
    rw [notifySyncNeeded_eq]
    simp
  refine ⟨?_, ?_, ?_, ?_⟩
  · constructor
    · intro herr
      rw [hnone]
      rcases hf : w.db.job_cards.filter (fun r => decide (r.job_number = jobNumber))
        with _ | ⟨row, rest⟩
      · exact hf
      · rw [hhit row rest hf] at herr
        exact absurd herr (by simp)
    · intro hno
      rw [hmiss (hnone.mp hno)]
  · intro hno
    rw [hmiss (hnone.mp hno)]
    refine ⟨rfl, ?_⟩
    rw [eventsSince_append w _ [Event.db "SELECT data FROM job_cards WHERE job_number = ?"] rfl]
    rfl
  · intro row rest hf
    rw [hhit row rest hf]
    refine ⟨rfl, ?_, rfl, ?_⟩
    · dsimp only
      unfold Db.updateJobCard
      apply forall₂_map_of
      intro c
      by_cases hc : c.job_number = jobNumber
      · rw [if_pos hc]
        exact ⟨fun _ => rfl, fun hne => absurd hc hne⟩
      · rw [if_neg hc]
        exact ⟨fun he => absurd he hc, fun _ => rfl⟩
    · rw [eventsSince_append w _ _ rfl]
      have hs := syncNeededCalls_callbacks "job_card_updated" w.syncCallbacks
      unfold syncNeededCalls at hs ⊢
      rw [List.filterMap_cons, List.filterMap_cons]
      exact hs
  · intro card
    refine ⟨rfl, ?_, ?_, ?_, ?_, ?_⟩
    · intro v hv
      simp [JobCard.merge, hv]
    · intro hv
      simp [JobCard.merge, hv]
    · intro v hv
      simp [JobCard.merge, hv]
    · intro hv
      simp [JobCard.merge, hv]
    · intro k
      exact lookup_mergeExtra card.extra updates.extra k

/-- Witness of C16: the client of job card J-2 of the sample device edited, with
one registered callback. -/
theorem updateJobCard_spec_witness :
    (updateJobCard Env.healthy "J-2"
      { job_number := none, client := some "Borealis", status := none, extra := [] }
      (onSyncNeeded 9 World.sample)).1
      = .ok { job_number := "J-2", client := some "Borealis", status := none, extra := [] } ∧
    syncNeededCalls (eventsSince (onSyncNeeded 9 World.sample)
      (updateJobCard Env.healthy "J-2"
        { job_number := none, client := some "Borealis", status := none, extra := [] }
        (onSyncNeeded 9 World.sample)).2) = [(9, "job_card_updated")] :=
  have h := (updateJobCard_spec Env.healthy "J-2"
    { job_number := none, client := some "Borealis", status := none, extra := [] }
    (onSyncNeeded 9 World.sample) rfl rfl).2.2.1
    { id := 2, job_number := "J-2", client := "",
      data := { job_number := "J-2", client := none, status := none, extra := [] },
      status := "active", updated_at := some 40, synced_at := some 40 } [] rfl
  ⟨h.1, h.2.2.2⟩

/-! ## The upload of an audit with photos -/

theorem apiEvents_append (a b : List Event) : apiEvents (a ++ b) = apiEvents a ++ apiEvents b := by
  unfold apiEvents
  rw [List.filter_append]

theorem apiEvents_db (evs : List Event) (h : ∀ e ∈ evs, Event.isDb e = true) :
    apiEvents evs = [] := by
  unfold apiEvents
  rw [List.filter_eq_nil_iff]
  intro e he
  have := h e he
  cases e <;> simp_all [Event.isDb]

theorem apiEvents_photoPosts (photos : List PhotoRef) :
    apiEvents (photos.map photoPost) = photos.map photoPost := by
  unfold apiEvents
  rw [List.filter_eq_self]
  intro e he
  obtain ⟨p, _, hp⟩ := List.mem_map.mp he
  rw [← hp]
  rfl

theorem uploadPhoto_result (env : Env) (photo : PhotoRef) (w : World) :
    (uploadPhoto env photo w).1 = (photoReply env w.trace.length photo).map ApiResponse.url ∧
    (uploadPhoto env photo w).2.trace = w.trace ++ [photoPost photo] := by
  unfold uploadPhoto apiRequest photoReply photoPost
  cases env.api w.trace.length "/api/mobile/uploads" "POST"
    (ApiBody.photo photo.dataUrl photo.timestamp) <;> exact ⟨rfl, rfl⟩

theorem uploadPhotos_ok (env : Env) (photos : List PhotoRef) :
    ∀ (w : World) (replies : List ApiResponse),
      (photos.enumFrom w.trace.length).map (fun ip => photoReply env ip.1 ip.2)
        = replies.map Except.ok →
      (uploadPhotos env photos w).1 = .ok (replies.map ApiResponse.url) ∧
      (uploadPhotos env photos w).2.trace = w.trace ++ photos.map photoPost := by
  induction photos with
  | nil =>
    intro w replies h
    cases replies with
    | nil => exact ⟨rfl, by simp [uploadPhotos]⟩
    | cons r rs => simp at h
  | cons p rest ih =>
    intro w replies h
    cases replies with
    | nil => simp [List.enumFrom] at h
    | cons r rs =>
      simp only [List.enumFrom, List.map_cons, List.cons.injEq] at h
      obtain ⟨hr, hrest⟩ := h
      obtain ⟨hres, htr⟩ := uploadPhoto_result env p w
      rw [hr] at hres
      unfold uploadPhotos
      rcases hup : uploadPhoto env p w with ⟨res, w1⟩
      rw [hup] at hres htr
      have hres2 : res = .ok r.url := hres
      have htr2 : w1.trace = w.trace ++ [photoPost p] := htr
      subst hres2
      dsimp only
      have hlen : w1.trace.length = w.trace.length + 1 := by simp [htr2]
      have hih := ih w1 rs (by rw [hlen]; exact hrest)
      rcases hrec : uploadPhotos env rest w1 with ⟨_ | urls, w2⟩
      · rw [hrec] at hih
        exact absurd hih.1 (by simp)
      · rw [hrec] at hih
        obtain ⟨h1, h2⟩ := hih
        have hu : urls = rs.map ApiResponse.url := Except.ok.inj h1
        have h2b : w2.trace = w1.trace ++ rest.map photoPost := h2
        refine ⟨by simp [hu], ?_⟩
        simp [h2b, htr2]

theorem uploadPhotos_fail (env : Env) (before : List PhotoRef) (p : PhotoRef)
    (after : List PhotoRef) (error : String) :
    ∀ (w : World) (replies : List ApiResponse),
      (before.enumFrom w.trace.length).map (fun ip => photoReply env ip.1 ip.2)
        = replies.map Except.ok →
      photoReply env (w.trace.length + before.length) p = .error error →
      (uploadPhotos env (before ++ p :: after) w).1 = .error error ∧
      (uploadPhotos env (before ++ p :: after) w).2.trace
        = w.trace ++ (before ++ [p]).map photoPost := by
  induction before with
  | nil =>
    intro w replies _ hp
    rw [List.length_nil, Nat.add_zero] at hp
    obtain ⟨hres, htr⟩ := uploadPhoto_result env p w
    rw [hp] at hres
    rw [List.nil_append]
    unfold uploadPhotos
    rcases hup : uploadPhoto env p w with ⟨res, w1⟩
    rw [hup] at hres htr
    have hres2 : res = .error error := hres
    subst hres2
    exact ⟨rfl, htr⟩
  | cons q rest ih =>
    intro w replies h hp
    cases replies with
    | nil => simp [List.enumFrom] at h
    | cons r rs =>
      simp only [List.enumFrom, List.map_cons, List.cons.injEq] at h
      obtain ⟨hr, hrest⟩ := h
      obtain ⟨hres, htr⟩ := uploadPhoto_result env q w
      rw [hr] at hres
      rw [List.cons_append]
      unfold uploadPhotos
      rcases hup : uploadPhoto env q w with ⟨res, w1⟩
      rw [hup] at hres htr
      have hres2 : res = .ok r.url := hres
      have htr2 : w1.trace = w.trace ++ [photoPost q] := htr
      subst hres2
      dsimp only
      have hlen : w1.trace.length = w.trace.length + 1 := by simp [htr2]
      have hl : w1.trace.length + rest.length = w.trace.length + (q :: rest).length := by
        rw [hlen, List.length_cons]
        omega
      have hih := ih w1 rs (by rw [hlen]; exact hrest) (by rw [hl]; exact hp)
      rcases hrec : uploadPhotos env (rest ++ p :: after) w1 with ⟨e | urls, w2⟩
      · rw [hrec] at hih
        obtain ⟨h1, h2⟩ := hih
        have h2b : w2.trace = w1.trace ++ (rest ++ [p]).map photoPost := h2
        refine ⟨h1, ?_⟩
        simp [h2b, htr2]
      · rw [hrec] at hih
        exact absurd hih.1 (by simp)

theorem trace_apiRequest (env : Env) (endpoint method : String) (data : ApiBody) (w : World) :
    (apiRequest env endpoint method data w).2.trace = w.trace ++ [Event.api endpoint method data] :=
  rfl

theorem syncAudit_after_photos (env : Env) (audit : Audit) (w w1 : World) (urls : List String)
    (h : uploadPhotos env audit.photos w = (.ok urls, w1)) :
    ∃ evs, (syncAudit env audit w).2.trace = w1.trace ++ auditPost audit urls :: evs ∧
      ∀ e ∈ evs, Event.isDb e = true := by
  have hdb : ∀ e ∈ [Event.db "UPDATE audits"], Event.isDb e = true := by simp [Event.isDb]
  have hdb2 : ∀ e ∈ [Event.db "UPDATE audits", Event.db "UPDATE audits"],
      Event.isDb e = true := by simp [Event.isDb]
  have hreq := trace_apiRequest env "/api/mobile/sync/audits" "POST"
    (ApiBody.audit audit.title audit.notes urls audit.created_at) w1
  unfold syncAudit syncAuditTry
  rw [h]
  dsimp only
  rcases hr : apiRequest env "/api/mobile/sync/audits" "POST"
    (ApiBody.audit audit.title audit.notes urls audit.created_at) w1 with ⟨err | response, w2⟩
  · rw [hr] at hreq
    have hreq2 : w2.trace = w1.trace ++ [auditPost audit urls] := hreq
    dsimp only
    refine ⟨[Event.db "UPDATE audits"], ?_, hdb⟩
    have ht := trace_updateAuditSyncStatus env audit.id "error" none (some err) w2
    rcases hu : updateAuditSyncStatus env audit.id "error" none (some err) w2
      with ⟨_ | ⟨⟨⟩⟩, w3⟩ <;> rw [hu] at ht <;>
    · have ht2 : w3.trace = w2.trace ++ [Event.db "UPDATE audits"] := ht
      dsimp only
      rw [ht2, hreq2]
      simp
  · rw [hr] at hreq
    have hreq2 : w2.trace = w1.trace ++ [auditPost audit urls] := hreq
    dsimp only
    have ht := trace_updateAuditSyncStatus env audit.id "synced" (some response.id) none w2
    rcases hu : updateAuditSyncStatus env audit.id "synced" (some response.id) none w2
      with ⟨err | ⟨⟨⟩⟩, w3⟩ <;> rw [hu] at ht
    · have ht2 : w3.trace = w2.trace ++ [Event.db "UPDATE audits"] := ht
      dsimp only
      refine ⟨[Event.db "UPDATE audits", Event.db "UPDATE audits"], ?_, hdb2⟩
      have ht3 := trace_updateAuditSyncStatus env audit.id "error" none (some err) w3
      rcases hu2 : updateAuditSyncStatus env audit.id "error" none (some err) w3
        with ⟨_ | ⟨⟨⟩⟩, w4⟩ <;> rw [hu2] at ht3 <;>
      · have ht4 : w4.trace = w3.trace ++ [Event.db "UPDATE audits"] := ht3
        dsimp only
        rw [ht4, ht2, hreq2]
        simp
    · have ht2 : w3.trace = w2.trace ++ [Event.db "UPDATE audits"] := ht
      dsimp only
      refine ⟨[Event.db "UPDATE audits"], ?_, hdb⟩
      rw [ht2, hreq2]
      simp

theorem syncAudit_photos_fail (env : Env) (audit : Audit) (w w1 : World) (error : String)
    (h : uploadPhotos env audit.photos w = (.error error, w1)) :
    (∃ e, (syncAudit env audit w).1 = .error e) ∧
    (syncAudit env audit w).2.trace = w1.trace ++ [Event.db "UPDATE audits"] := by
  unfold syncAudit syncAuditTry
  rw [h]
  dsimp only
  have ht := trace_updateAuditSyncStatus env audit.id "error" none (some error) w1
  rcases hu : updateAuditSyncStatus env audit.id "error" none (some error) w1
    with ⟨e2 | ⟨⟨⟩⟩, w3⟩ <;> rw [hu] at ht
  · exact ⟨⟨e2, rfl⟩, ht⟩
  · exact ⟨⟨error, rfl⟩, ht⟩

/-- C21: `syncAudit` uploads the photos of the audit one after the other in list
order, each upload being made when the one before it has answered.  When the
uploads answer with `replies`, the calls of `apiRequest` made by `syncAudit` are
the `k` photo uploads followed by one POST of the audit record that carries the
title, the notes, `created_at` and as `photos` the `k` URLs of `replies`, in
order.  When the uploads before photo `p` succeed and the upload of `p` fails,
`syncAudit` throws and its calls of `apiRequest` are the uploads up to `p`: no
later photo is uploaded and the record is not posted. -/
theorem syncAudit_photo_order (env : Env) (audit : Audit) (w : World) :
    (∀ replies : List ApiResponse,
      (audit.photos.enumFrom w.trace.length).map (fun ip => photoReply env ip.1 ip.2)
        = replies.map Except.ok →
      (replies.map ApiResponse.url).length = audit.photos.length ∧
      apiEvents (eventsSince w (syncAudit env audit w).2) =
        audit.photos.map photoPost ++ [auditPost audit (replies.map ApiResponse.url)]) ∧
    (∀ (before : List PhotoRef) (p : PhotoRef) (after : List PhotoRef)
        (replies : List ApiResponse) (error : String),
      audit.photos = before ++ p :: after →
      (before.enumFrom w.trace.length).map (fun ip => photoReply env ip.1 ip.2)
        = replies.map Except.ok →
      photoReply env (w.trace.length + before.length) p = .error error →
      (∃ e, (syncAudit env audit w).1 = .error e) ∧
      apiEvents (eventsSince w (syncAudit env audit w).2) = (before ++ [p]).map photoPost) := by
  constructor
  · intro replies h
    obtain ⟨h1, h2⟩ := uploadPhotos_ok env audit.photos w replies h
    have hup : uploadPhotos env audit.photos w
        = (.ok (replies.map ApiResponse.url), (uploadPhotos env audit.photos w).2) :=
      Prod.ext h1 rfl
    obtain ⟨evs, ht, hq⟩ := syncAudit_after_photos env audit w _ _ hup
    constructor
    · have hlen := congrArg List.length h
      simp only [List.length_map, List.enumFrom_length] at hlen
      rw [List.length_map]
      exact hlen.symm
    · have hfull : (syncAudit env audit w).2.trace = w.trace ++ (audit.photos.map photoPost ++
          (auditPost audit (replies.map ApiResponse.url) :: evs)) := by
        rw [ht, h2, List.append_assoc]
      rw [eventsSince_append w _ _ hfull, apiEvents_append, apiEvents_photoPosts]
      have hcons : auditPost audit (replies.map ApiResponse.url) :: evs
          = [auditPost audit (replies.map ApiResponse.url)] ++ evs := rfl
      rw [hcons, apiEvents_append, apiEvents_db evs hq, List.append_nil]
      rfl
  · intro before p after replies error hph h hp
    have hf := uploadPhotos_fail env before p after error w replies h hp
    rw [← hph] at hf
    obtain ⟨h1, h2⟩ := hf
    have hup : uploadPhotos env audit.photos w
        = (.error error, (uploadPhotos env audit.photos w).2) := Prod.ext h1 rfl
    obtain ⟨he, ht⟩ := syncAudit_photos_fail env audit w _ error hup
    refine ⟨he, ?_⟩
    have hfull : (syncAudit env audit w).2.trace = w.trace ++ ((before ++ [p]).map photoPost ++
        [Event.db "UPDATE audits"]) := by
      rw [ht, h2, List.append_assoc]
    rw [eventsSince_append w _ _ hfull, apiEvents_append, apiEvents_photoPosts]
    rw [apiEvents_db [Event.db "UPDATE audits"] (by simp [Event.isDb]), List.append_nil]

/-- Witness of C21: an audit with three photos uploaded to a server that names
the URL after the photo, and the same audit when the second photo is rejected. -/
theorem syncAudit_photo_order_witness :
    apiEvents (eventsSince World.sample (syncAudit (Env.photoServer none) Audit.wall World.sample).2)
      = [Event.api "/api/mobile/uploads" "POST" (ApiBody.photo "a.jpg" 201),
         Event.api "/api/mobile/uploads" "POST" (ApiBody.photo "b.jpg" 202),
         Event.api "/api/mobile/uploads" "POST" (ApiBody.photo "c.jpg" 203),
         Event.api "/api/mobile/sync/audits" "POST"
           (ApiBody.audit "Wall" "cracks"
             ["https://cdn.example.com/a.jpg", "https://cdn.example.com/b.jpg",
              "https://cdn.example.com/c.jpg"] 200)] ∧
    apiEvents (eventsSince World.sample
        (syncAudit (Env.photoServer (some 202)) Audit.wall World.sample).2)
      = [Event.api "/api/mobile/uploads" "POST" (ApiBody.photo "a.jpg" 201),
         Event.api "/api/mobile/uploads" "POST" (ApiBody.photo "b.jpg" 202)] :=
  ⟨((syncAudit_photo_order (Env.photoServer none) Audit.wall World.sample).1
      [{ id := 0, schedules := [], jobCards := [], earnings := [],
         url := "https://cdn.example.com/a.jpg" },
       { id := 1, schedules := [], jobCards := [], earnings := [],
         url := "https://cdn.example.com/b.jpg" },
       { id := 2, schedules := [], jobCards := [], earnings := [],
         url := "https://cdn.example.com/c.jpg" }] rfl).2,
   ((syncAudit_photo_order (Env.photoServer (some 202)) Audit.wall World.sample).2
      [{ dataUrl := "a.jpg", timestamp := 201 }] { dataUrl := "b.jpg", timestamp := 202 }
      [{ dataUrl := "c.jpg", timestamp := 203 }]
      [{ id := 0, schedules := [], jobCards := [], earnings := [],
         url := "https://cdn.example.com/a.jpg" }] "HTTP 413" rfl rfl rfl).2⟩

/-! ## Reading the audits -/

theorem sorted_orderByCreatedAtDesc (rows : List Audit) :
    (orderByCreatedAtDesc rows).Sorted (fun a b => b.created_at ≤ a.created_at) := by
  haveI : IsTotal Audit (fun a b => b.created_at ≤ a.created_at) :=
    ⟨fun a b => Nat.le_total b.created_at a.created_at⟩
  haveI : IsTrans Audit (fun a b => b.created_at ≤ a.created_at) :=
    ⟨fun _ _ _ hab hbc => Nat.le_trans hbc hab⟩
  exact List.sorted_insertionSort _ rows

theorem filter_statusMatches_some (s : String) (hs : s ≠ "") (rows : List Audit) :
    rows.filter (statusMatches (some s)) = rows.filter (fun a => decide (a.status = s)) := by
  apply List.filter_congr
  intro a _
  simp [statusMatches, hs]

theorem filter_statusMatches_all (filter : Option String) (hf : filter = none ∨ filter = some "")
    (rows : List Audit) : rows.filter (statusMatches filter) = rows := by
  rw [List.filter_eq_self]
  intro a _
  rcases hf with h | h <;> simp [statusMatches, h]

/-- C22: when its query succeeds, `getAudits(filter)` returns the rows of table
`audits` whose status equals `filter.status`, or all rows when `filter.status` is
missing or empty: each such row once, as stored (with the list of photos that was
stored), ordered by `created_at` descending; the store is left as it is.
`getPendingAudits()` is `getAudits({status: 'pending'})`. -/
theorem getAudits_spec (env : Env) (filter : Option String) (w : World)
    (hq : env.dbFault w.trace.length "SELECT * FROM audits" = none) :
    ∃ l, (getAudits env filter w).1 = .ok l ∧
      (∀ s, filter = some s → s ≠ "" →
        l.Perm (w.db.audits.filter (fun a => decide (a.status = s)))) ∧
      (filter = none ∨ filter = some "" → l.Perm w.db.audits) ∧
      l.Sorted (fun a b => b.created_at ≤ a.created_at) ∧
      (∀ a ∈ l, a ∈ w.db.audits) ∧
      (getAudits env filter w).2.db = w.db ∧
      getPendingAudits env w = getAudits env (some "pending") w := by
  have hperm := List.perm_insertionSort (fun a b : Audit => b.created_at ≤ a.created_at)
    (w.db.audits.filter (statusMatches filter))
  refine ⟨orderByCreatedAtDesc (w.db.audits.filter (statusMatches filter)), ?_, ?_, ?_,
    sorted_orderByCreatedAtDesc _, ?_, db_getAudits env filter w, rfl⟩
  · rw [getAudits_eq env filter w hq]
  · intro s hf hs
    rw [hf, filter_statusMatches_some s hs] at hperm
    rw [hf, filter_statusMatches_some s hs]
    exact hperm
  · intro hf
    rw [filter_statusMatches_all filter hf] at hperm
    rw [filter_statusMatches_all filter hf]
    exact hperm
  · intro a ha
    exact (List.mem_filter.mp (hperm.mem_iff.mp ha)).1

/-- Witness of C22: the pending audits of the sample device with a second pending
audit, newest first, and all its audits. -/
theorem getAudits_spec_witness :
    (getPendingAudits Env.healthy World.twoPending).1 = .ok [Audit.roof, Audit.drain] ∧
    (getAudits Env.healthy none World.twoPending).1
      = .ok [Audit.roof, Audit.drain, Audit.fence, Audit.gutter] ∧
    ∃ l, (getAudits Env.healthy (some "pending") World.twoPending).1 = .ok l ∧
      l.Perm (World.twoPending.db.audits.filter (fun a => decide (a.status = "pending"))) ∧
      l.Sorted (fun a b => b.created_at ≤ a.created_at) :=
  ⟨rfl, rfl,
    (getAudits_spec Env.healthy (some "pending") World.twoPending rfl).imp
      (fun _ h => ⟨h.1, h.2.1 _ rfl (by decide), h.2.2.2.1⟩)⟩

/-! ## The initialisation of the monitor -/

/-- C23: `initialize` of the monitor never throws.  When the tracker is not yet
listening and the connectivity probe fails, or the probe answers and the
subscription throws, `getStatus().online` is true afterwards (and the tracker
is still not listening); when the tracker is already listening, `initialize`
returns the world as it is: no probe is made and `isOnline`, `listeners` and
`syncTriggers` keep their values. -/
theorem monitor_initialize_fail_open (env : Env) (w : World) :
    ( NetworkMonitor.initialize env w).1 = .ok () ∧
    (w.net.isListening = false →
      ((∃ error, env.probe w.trace.length = .error error) ∨
       (∃ connected error, env.probe w.trace.length = .ok connected ∧
         env.subscribe (w.trace.length + 1) = some error)) →
      ( NetworkMonitor.initialize env w).2.net.getStatus.online = true ∧
      ( NetworkMonitor.initialize env w).2.net.isListening = false) ∧
    (w.net.isListening = true →
      NetworkMonitor.initialize env w = (.ok (), w) ∧
      Event.network "getStatus" ∉ eventsSince w ( NetworkMonitor.initialize env w).2 ∧
      ( NetworkMonitor.initialize env w).2.net.isOnline = w.net.isOnline ∧
      ( NetworkMonitor.initialize env w).2.net.listeners = w.net.listeners ∧
      ( NetworkMonitor.initialize env w).2.net.syncTriggers = w.net.syncTriggers) := by
  refine ⟨?_, ?_, ?_⟩
  · unfold NetworkMonitor.initialize
    split
    · rfl
    · dsimp only
      split
      · rfl
      · split <;> rfl
  · intro h0 hfail
    unfold NetworkMonitor.initialize
    rw [if_neg (by simp [h0])]
    dsimp only
    rcases hfail with ⟨error, hp⟩ | ⟨connected, error, hp, hs⟩
    · rw [hp]
      exact ⟨rfl, h0⟩
    · rw [hp]
      dsimp only
      have hlen : (w.trace ++ [Event.network "getStatus"]).length = w.trace.length + 1 := by
        simp
      rw [hlen, hs]
      exact ⟨rfl, h0⟩
  · intro h1
    have heq : NetworkMonitor.initialize env w = (.ok (), w) := by
      unfold NetworkMonitor.initialize
      rw [if_pos h1]
    rw [heq]
    refine ⟨rfl, ?_, rfl, rfl, rfl⟩
    simp [eventsSince]

/-- Witness of C23: a new monitor on a device without the network plugin, a new
monitor whose subscription throws after the probe reported no connection, and an
offline monitor that is already listening. -/
theorem monitor_initialize_fail_open_witness :
    ( NetworkMonitor.initialize Env.noPlugin World.fresh).2.net.getStatus.online = true ∧
    ( NetworkMonitor.initialize Env.noSubscription World.fresh).2.net.getStatus.online = true ∧
    NetworkMonitor.initialize Env.noPlugin
        { World.fresh with net := { NetworkMonitor.new with isOnline := false, isListening := true } }
      = (.ok (),
        { World.fresh with net := { NetworkMonitor.new with isOnline := false, isListening := true } }) :=
  ⟨((monitor_initialize_fail_open Env.noPlugin World.fresh).2.1 rfl
      (Or.inl ⟨_, rfl⟩)).1,
   ((monitor_initialize_fail_open Env.noSubscription World.fresh).2.1 rfl
      (Or.inr ⟨false, _, rfl, rfl⟩)).1,
   ((monitor_initialize_fail_open Env.noPlugin
      { World.fresh with net := { NetworkMonitor.new with isOnline := false, isListening := true } }).2.2
      rfl).1⟩

/-! ## Audits marked 'error' -/

theorem orderByCreatedAtDesc_nil_of (rows : List Audit) (h : rows = []) :
    orderByCreatedAtDesc rows = [] := by
  rw [h]
  rfl

theorem uploadPending_of_nothing_pending (env : Env) (w : World)
    (hnone : ∀ x ∈ w.db.audits, x.status ≠ "pending")
    (hread : ∀ k, env.dbFault k "SELECT * FROM audits" = none) :
    ∃ wg, getPendingAudits env (showSyncProgress "Syncing data..." (passStart env w))
        = (.ok [], wg) ∧
      uploadPending env (passStart env w) = (.ok (), wg) ∧
      Steps Event.isLocal (enterSync w) wg := by
  have hdb : (showSyncProgress "Syncing data..." (passStart env w)).db = w.db :=
    db_passStart env w
  have hfil : (showSyncProgress "Syncing data..." (passStart env w)).db.audits.filter
      (statusMatches (some "pending")) = [] := by
    rw [hdb, List.filter_eq_nil_iff]
    intro x hx
    simpa [statusMatches] using hnone x hx
  have hg : getPendingAudits env (showSyncProgress "Syncing data..." (passStart env w))
      = (.ok [], (dbCall env "SELECT * FROM audits"
          (showSyncProgress "Syncing data..." (passStart env w))).2) := by
    unfold getPendingAudits
    rw [getAudits_eq env (some "pending") _ (hread _), orderByCreatedAtDesc_nil_of _ hfil]
  refine ⟨_, hg, ?_, ?_⟩
  · unfold uploadPending
    dsimp only
    rw [hg]
    rfl
  · have s1 : Steps Event.isLocal (enterSync w)
        (showSyncProgress "Syncing data..." (passStart env w)) :=
      (steps_updateSyncStatus env (enterSync w)).emit
        (Event.notification "Syncing data..." "info") rfl
    have s2 := (steps_dbCall env "SELECT * FROM audits"
      (showSyncProgress "Syncing data..." (passStart env w))).mono Event.isLocal_of_isDb
    exact s1.trans s2

theorem pass_of_nothing_pending (env : Env) (w : World) (h0 : w.app.syncInProgress = false)
    (hnone : ∀ x ∈ w.db.audits, x.status ≠ "pending")
    (hread : ∀ k, env.dbFault k "SELECT * FROM audits" = none) :
    pendingRead env w = [] ∧ passFails env w = false ∧
    apiRequests (eventsSince w (pass env w)) =
      [("/api/mobile/user/schedule", "GET"), ("/api/mobile/user/job-cards", "GET"),
       ("/api/mobile/user/earnings", "GET")] ∧
    (pass env w).app.syncRetryCount = 0 := by
  obtain ⟨wg, hg, hup, hs⟩ := uploadPending_of_nothing_pending env w hnone hread
  obtain ⟨evs, hevs, hloc⟩ := hs.trace
  have hevs2 : wg.trace = w.trace ++ evs := hevs
  obtain ⟨w5, evsA, evsR, evsZ, t, hp, hA, _, _, h5, hreq, _, _, hqZ, happ, _⟩ :=
    performSync_of_uploads_ok env w wg h0 hup
  refine ⟨pendingRead_eq env w wg [] hg, ?_, ?_, ?_⟩
  · rcases hf : passFails env w
    · rfl
    · obtain ⟨err, herr⟩ := (passFails_iff env w).mp hf
      rw [hup] at herr
      exact absurd herr (by simp)
  · have hfull : w5.trace = w.trace ++ (evs ++ evsR ++ evsZ) := by
      rw [h5, hevs2]
      simp
    unfold pass
    rw [hp, eventsSince_append w w5 _ hfull, apiRequests_append, apiRequests_append,
      apiRequests_local evs hloc, apiRequests_local evsZ hqZ, hreq]
    rfl
  · unfold pass
    rw [hp, happ]

theorem mem_orderByCreatedAtDesc (rows : List Audit) (x : Audit) :
    x ∈ orderByCreatedAtDesc rows ↔ x ∈ rows := by
  unfold orderByCreatedAtDesc
  exact (List.perm_insertionSort _ _).mem_iff

theorem rows_of_marked_pass (env : Env) (w w1 w3 : World) (a : Audit) (err : String)
    (h0 : w.app.syncInProgress = false) (hid : (w.db.audits.map Audit.id).Nodup)
    (hread : getPendingAudits env (showSyncProgress "Syncing data..." (passStart env w))
      = (.ok [a], w1))
    (hfail : syncAuditTry env a w1 = (.error err, w3))
    (hmark : env.dbFault w3.trace.length "UPDATE audits" = none) :
    passFails env w = true ∧
    (∃ x ∈ (pass env w).db.audits, x.id = a.id) ∧
    (∀ x ∈ (pass env w).db.audits, x.id = a.id →
      x.status = "error" ∧ x.last_error = some err) ∧
    (∀ x ∈ (pass env w).db.audits, x.status ≠ "pending") := by
  obtain ⟨e2, hsa⟩ : ∃ e2, syncAudit env a w1
      = (.error e2, (updateAuditSyncStatus env a.id "error" none (some err) w3).2) := by
    unfold syncAudit
    rw [hfail]
    dsimp only
    rcases updateAuditSyncStatus env a.id "error" none (some err) w3 with ⟨e2 | ⟨⟨⟩⟩, w4⟩
    · exact ⟨e2, rfl⟩
    · exact ⟨err, rfl⟩
  have hup : uploadPending env (passStart env w)
      = (.error e2, (updateAuditSyncStatus env a.id "error" none (some err) w3).2) := by
    unfold uploadPending
    dsimp only
    rw [hread]
    dsimp only
    have step : syncAudits env [a] w1 =
        match syncAudit env a w1 with
        | (.error error, v) => (.error error, v)
        | (.ok (), v) => syncAudits env [] v := rfl
    rw [step, hsa]
  have hpass := pass_eq_of_uploads_fail env w _ e2 h0 hup
  have hdb3 := db_updateAuditSyncStatus_ok env a.id "error" none (some err) w3 hmark
  rw [if_neg (by decide)] at hdb3
  have hdb5 : (pass env w).db = w3.db.updateAudit "error" none none (some err) a.id := by
    rw [hpass, db_performSyncFinally, db_performSyncCatch, hdb3]
  have hmarked : ∀ x ∈ (pass env w).db.audits, x.id = a.id →
      x.status = "error" ∧ x.last_error = some err := by
    intro x hx hxid
    rw [hdb5] at hx
    unfold Db.updateAudit at hx
    obtain ⟨r0, _, hr0⟩ := List.mem_map.mp hx
    by_cases hc : r0.id = a.id
    · rw [if_pos hc] at hr0
      subst hr0
      exact ⟨rfl, rfl⟩
    · rw [if_neg hc] at hr0
      subst hr0
      exact absurd hxid hc
  have hdbg : w1.db = w.db := by
    have h := db_getAudits env (some "pending")
      (showSyncProgress "Syncing data..." (passStart env w))
    unfold getPendingAudits at hread
    rw [hread] at h
    exact h.trans (db_passStart env w)
  have hstep := statusStep_pass env w hid
  have hids := statusStep_ids hstep
  have hpend : ∀ x ∈ w.db.audits, x.status = "pending" → x = a := by
    intro x hx hst
    have hread2 := hread
    unfold getPendingAudits at hread2
    have hq : env.dbFault (showSyncProgress "Syncing data..." (passStart env w)).trace.length
        "SELECT * FROM audits" = none := by
      cases hf : env.dbFault (showSyncProgress "Syncing data..." (passStart env w)).trace.length
        "SELECT * FROM audits" with
      | none => rfl
      | some e =>
        have he : (getAudits env (some "pending")
            (showSyncProgress "Syncing data..." (passStart env w))).1 = .error e := by
          unfold getAudits dbCall
          rw [hf]
        rw [hread2] at he
        cases he
    rw [getAudits_eq env (some "pending") _ hq] at hread2
    have hl := Except.ok.inj (Prod.mk.inj hread2).1
    have hdb : (showSyncProgress "Syncing data..." (passStart env w)).db = w.db :=
      db_passStart env w
    rw [hdb] at hl
    have hx2 : x ∈ orderByCreatedAtDesc (w.db.audits.filter (statusMatches (some "pending"))) := by
      rw [mem_orderByCreatedAtDesc]
      exact List.mem_filter.mpr ⟨hx, by simp [statusMatches, hst]⟩
    rw [hl] at hx2
    exact List.mem_singleton.mp hx2
  refine ⟨(passFails_iff env w).mpr ⟨e2, by rw [hup]⟩, ?_, hmarked, ?_⟩
  · have hmem : a ∈ w.db.audits := by
      have := (mem_getAudits env (some "pending") _ w1 _ hread a (by simp)).1
      rw [hdbg] at this
      exact this
    have : a.id ∈ (pass env w).db.audits.map Audit.id := by
      rw [hids]
      exact List.mem_map_of_mem _ hmem
    obtain ⟨x, hx, hxid⟩ := List.mem_map.mp this
    exact ⟨x, hx, hxid⟩
  · have key : ∀ l1 l2 : List Audit, List.Forall₂ StatusStep l1 l2 →
        (∀ x ∈ l1, x.status = "pending" → x = a) →
        (∀ x ∈ l2, x.id = a.id → x.status = "error") →
        ∀ x ∈ l2, x.status ≠ "pending" := by
      intro l1 l2 hl
      induction hl with
      | nil => intro _ _ x hx; exact absurd hx (List.not_mem_nil x)
      | @cons r r2 t1 t2 hab _ ih =>
        intro hp hm x hx
        rcases List.mem_cons.mp hx with hx | hx
        · subst hx
          rcases hab with hab | ⟨_, _, _, _, _, _, hs | hs⟩
          · intro hc
            have hra : r = a := hp r (List.mem_cons_self _ _) (by rw [← hab]; exact hc)
            have := hm x (List.mem_cons_self _ _) (by rw [hab, hra])
            rw [this] at hc
            exact absurd hc (by decide)
          · rw [hs]; decide
          · rw [hs]; decide
        · exact ih (fun y hy => hp y (List.mem_cons_of_mem _ hy))
            (fun y hy => hm y (List.mem_cons_of_mem _ hy)) x hx
    exact key _ _ hstep hpend (fun x hx hxid => (hmarked x hx hxid).1)

/-- C24 (amended): in a store whose audits have distinct ids, an audit `r` with
status 'error' is unchanged by any later passes, whatever the store and the API
do; a pass never reads it as pending, and every audit record a pass posts is that
of an audit read as pending in that pass, with another id.  When a pass reads `a`
as the only pending audit, fails at the upload of `a` and the write of the
'error' status succeeds, a retry is scheduled (while `syncRetryCount <
maxRetries`), and the retry, if it can read the table, reads no pending audit and
succeeds: it makes the three refresh requests and no upload, resets the retry
count, and leaves `a` marked 'error'. -/
theorem error_audit_never_retried (env1 env2 : Env) (later : List Env) (w w1 w3 : World)
    (a r : Audit) (err : String) (hid : (w.db.audits.map Audit.id).Nodup) :
    (r ∈ w.db.audits → r.status = "error" →
      r ∈ (passes later w).db.audits ∧
      (∀ x ∈ pendingRead env2 (passes later w), x.id ≠ r.id) ∧
      (∀ p ∈ auditPosts (eventsSince (passes later w) (pass env2 (passes later w))),
        ∃ x ∈ pendingRead env2 (passes later w),
          x.id ≠ r.id ∧ p = (x.title, x.notes, x.created_at))) ∧
    (w.app.syncInProgress = false →
      getPendingAudits env1 (showSyncProgress "Syncing data..." (passStart env1 w))
        = (.ok [a], w1) →
      syncAuditTry env1 a w1 = (.error err, w3) →
      env1.dbFault w3.trace.length "UPDATE audits" = none →
      (∀ k, env2.dbFault k "SELECT * FROM audits" = none) →
      retryTimers (eventsSince w (pass env1 w)) =
        (if w.app.syncRetryCount < maxRetries
          then [retryDelays[w.app.syncRetryCount]?] else []) ∧
      (∃ x ∈ (pass env1 w).db.audits, x.id = a.id ∧ x.status = "error" ∧
        x.last_error = some err ∧ x ∈ (pass env2 (pass env1 w)).db.audits) ∧
      pendingRead env2 (pass env1 w) = [] ∧
      passFails env2 (pass env1 w) = false ∧
      apiRequests (eventsSince (pass env1 w) (pass env2 (pass env1 w))) =
        [("/api/mobile/user/schedule", "GET"), ("/api/mobile/user/job-cards", "GET"),
         ("/api/mobile/user/earnings", "GET")] ∧
      (pass env2 (pass env1 w)).app.syncRetryCount = 0) := by
  constructor
  · intro hr he
    have hne : r.status ≠ "pending" := by rw [he]; decide
    have hmem := mem_passes_of_not_pending later w hid r hr hne
    have hnd := nodup_passes later w hid
    have hno : ∀ x ∈ pendingRead env2 (passes later w), x.id ≠ r.id := by
      intro x hx hc
      obtain ⟨hxm, hxs⟩ := pendingRead_mem env2 _ x hx
      have hxr : x = r := List.inj_on_of_nodup_map hnd hxm hmem hc
      rw [hxr] at hxs
      exact hne hxs
    refine ⟨hmem, hno, ?_⟩
    intro p hp
    obtain ⟨x, hx, hpx⟩ := auditPosts_pass env2 _ p hp
    exact ⟨x, hx, hno x hx, hpx⟩
  · intro h0 hread hfail hmark hread2
    obtain ⟨hf, ⟨x, hx, hxid⟩, hmarked, hnone⟩ :=
      rows_of_marked_pass env1 w w1 w3 a err h0 hid hread hfail hmark
    have h1 : (pass env1 w).app.syncInProgress = false := by
      rw [(pass_of_uploads_fail env1 w h0 hf).2]
    obtain ⟨hp, hnf, hreq, hcount⟩ :=
      pass_of_nothing_pending env2 (pass env1 w) h1 hnone hread2
    have hxs := hmarked x hx hxid
    have hkeep : x ∈ (passes [env2] (pass env1 w)).db.audits :=
      mem_passes_of_not_pending [env2] (pass env1 w) (nodup_passes [env1] w hid) x hx
        (hnone x hx)
    exact ⟨(pass_of_uploads_fail env1 w h0 hf).1, ⟨x, hx, hxid, hxs.1, hxs.2, hkeep⟩,
      hp, hnf, hreq, hcount⟩

/-- Witness of C24: on the sample device, whose audit 'Fence' has status 'error'
and whose only pending audit is 'Roof', a pass with the server unreachable fails
at 'Roof' and marks it; the retry with the server back makes no upload. -/
theorem error_audit_never_retried_witness :
    Audit.fence ∈ (passes [Env.serverDown, Env.healthy] World.sample).db.audits ∧
    retryTimers (eventsSince World.sample (pass Env.serverDown World.sample)) = [some 4000] ∧
    pendingRead Env.healthy (pass Env.serverDown World.sample) = [] ∧
    apiRequests (eventsSince (pass Env.serverDown World.sample)
        (pass Env.healthy (pass Env.serverDown World.sample))) =
      [("/api/mobile/user/schedule", "GET"), ("/api/mobile/user/job-cards", "GET"),
       ("/api/mobile/user/earnings", "GET")] :=
  have h := error_audit_never_retried Env.serverDown Env.healthy
    [Env.serverDown, Env.healthy] World.sample
    (getPendingAudits Env.serverDown (showSyncProgress "Syncing data..."
      (passStart Env.serverDown World.sample))).2
    (syncAuditTry Env.serverDown Audit.roof
      (getPendingAudits Env.serverDown (showSyncProgress "Syncing data..."
        (passStart Env.serverDown World.sample))).2).2
    Audit.roof Audit.fence "Network request failed" (by decide)
  have h2 := h.2 rfl rfl rfl rfl (fun _ => rfl)
  ⟨(h.1 (by decide) rfl).1, h2.1, h2.2.2.1, h2.2.2.2.2.1⟩

/-- Counterexample to C24 as stated: with the server unreachable and a store that
refuses the update, the pass of the sample device fails at the upload of 'Roof',
schedules a retry and leaves 'Roof' pending; the retry, made when the server is
back, reads 'Roof' again and uploads its photo and its record. -/
theorem failed_audit_retried_when_unmarked :
    passFails Env.serverDownNoWrite World.sample = true ∧
    apiEvents (eventsSince World.sample (pass Env.serverDownNoWrite World.sample))
      = [Event.api "/api/mobile/uploads" "POST"
          (ApiBody.photo "data:image/jpeg;base64,AAAA" 100)] ∧
    retryTimers (eventsSince World.sample (pass Env.serverDownNoWrite World.sample))
      = [some 4000] ∧
    pendingRead Env.healthy (pass Env.serverDownNoWrite World.sample) = [Audit.roof] ∧
    apiEvents (eventsSince (pass Env.serverDownNoWrite World.sample)
        (pass Env.healthy (pass Env.serverDownNoWrite World.sample)))
      = [Event.api "/api/mobile/uploads" "POST"
           (ApiBody.photo "data:image/jpeg;base64,AAAA" 100),
         Event.api "/api/mobile/sync/audits" "POST"
           (ApiBody.audit "Roof" "loose tiles" ["https://example.com/uploads/photo.jpg"] 100),
         Event.api "/api/mobile/user/schedule" "GET" ApiBody.none,
         Event.api "/api/mobile/user/job-cards" "GET" ApiBody.none,
         Event.api "/api/mobile/user/earnings" "GET" ApiBody.none] :=
  ⟨rfl, rfl, rfl, rfl, rfl⟩

/-! ## The delays that are used -/

/-- C25: in every state of the app, reachable or not, and whatever the store and
the API do, a retry that a pass of `performSync` schedules has delay 1000, 2000
or 4000 ms: the delay is read at index `syncRetryCount` under the guard
`syncRetryCount < maxRetries = 3`, so `retryDelays[3] = 8000` is never the delay
of a retry. -/
theorem last_delay_unused (env : Env) (w : World) :
    (∀ d ∈ retryTimers (eventsSince w (pass env w)),
      d = some 1000 ∨ d = some 2000 ∨ d = some 4000) ∧
    some 8000 ∉ retryTimers (eventsSince w (pass env w)) ∧
    retryDelays[3]? = some 8000 ∧ maxRetries = 3 := by
  have hall : ∀ d ∈ retryTimers (eventsSince w (pass env w)),
      d = some 1000 ∨ d = some 2000 ∨ d = some 4000 := by
    intro d hd
    rw [pass_timers] at hd
    split at hd
    · rename_i hc
      have h3 : w.app.syncRetryCount < 3 := hc.2.2
      rw [List.mem_singleton.mp hd]
      rcases hn : w.app.syncRetryCount with _ | _ | _ | n
      · exact Or.inl rfl
      · exact Or.inr (Or.inl rfl)
      · exact Or.inr (Or.inr rfl)
      · omega
    · exact absurd hd (List.not_mem_nil d)
  refine ⟨hall, ?_, rfl, rfl⟩
  intro h8
  rcases hall _ h8 with h | h | h <;> simp at h

/-- Witness of C25: the third failure in a row of the sample device schedules the
retry after 4000 ms, the largest delay in use. -/
theorem last_delay_unused_witness :
    retryTimers (eventsSince World.sample (pass Env.storeDown World.sample)) = [some 4000] ∧
    some 8000 ∉ retryTimers (eventsSince World.sample (pass Env.storeDown World.sample)) :=
  ⟨rfl, (last_delay_unused Env.storeDown World.sample).2.1⟩

/-! ## The count that cannot be read -/

/-- C26: `getPendingSyncCount` never throws; when the first or the second count
query fails it returns `{audits: 0, jobCards: 0, total: 0}` whatever the tables
hold, and then `updateSyncStatus`, called online with no sync in progress,
publishes 'online-synced' with `pendingCount` 0. -/
theorem pending_count_swallows_failure (env : Env) (w : World) :
    (∃ c, (getPendingSyncCount env w).1 = .ok c) ∧
    ((∃ error, env.dbFault w.trace.length
        "SELECT COUNT(*) FROM audits WHERE status = 'pending'" = some error) ∨
     (∃ error, env.dbFault (w.trace.length + 1)
        "SELECT COUNT(*) FROM job_cards WHERE synced_at IS NULL AND status = 'pending'"
          = some error) →
      (getPendingSyncCount env w).1 = .ok { audits := 0, jobCards := 0, total := 0 } ∧
      (w.net.isOnline = true → w.app.syncInProgress = false →
        updateSyncStatus env w = (.ok (), (getPendingSyncCount env w).2.emit
          (Event.status "online-synced" 0 w.app.lastSyncTime false)))) := by
  refine ⟨getPendingSyncCount_ok env w, ?_⟩
  intro hfail
  have hz : (getPendingSyncCount env w).1 = .ok { audits := 0, jobCards := 0, total := 0 } := by
    unfold getPendingSyncCount dbCall
    rcases h1 : env.dbFault w.trace.length
        "SELECT COUNT(*) FROM audits WHERE status = 'pending'" with _ | e1
    · rcases hfail with ⟨error, he⟩ | ⟨error, he⟩
      · rw [h1] at he
        exact absurd he (by simp)
      · dsimp only
        rw [List.length_append, List.length_singleton, he]
    · rfl
  refine ⟨hz, ?_⟩
  intro hon h0
  obtain ⟨c, w1, hg, hu⟩ := (updateSyncStatus_label env w false false 0).1
  rw [hg] at hz
  have hc : c = { audits := 0, jobCards := 0, total := 0 } := by
    injection hz
  rw [hu, hg, hc, h0, hon]
  rfl

/-- Witness of C26: the sample device, which holds a pending audit and a pending
job card, with the store down. -/
theorem pending_count_swallows_failure_witness :
    World.sample.db.countPendingAudits = 1 ∧
    (getPendingSyncCount Env.storeDown World.sample).1
      = .ok { audits := 0, jobCards := 0, total := 0 } ∧
    updateSyncStatus Env.storeDown World.sample
      = (.ok (), (getPendingSyncCount Env.storeDown World.sample).2.emit
          (Event.status "online-synced" 0 none false)) :=
  have h := (pending_count_swallows_failure Env.storeDown World.sample).2
    (Or.inl ⟨"database is locked", rfl⟩)
  ⟨rfl, h.1, h.2 rfl rfl⟩

/-! ## A pass never throws -/

/-- C27: `performSync` completes normally in every state and for every behaviour
of the store and the API.  When the `try` block of a pass throws (the read of the
pending audits, an upload or a status write failed; failures of the refreshes and
of the counts do not reach it), the error is shown, and a retry is scheduled and
counted exactly when `syncRetryCount < maxRetries`.  So the end of `initialize`
of the app, which awaits the initial sync, completes normally and sets
`isInitialized`. -/
theorem performSync_never_throws (env : Env) (w : World) :
    (performSync env w).1 = .ok () ∧
    (w.app.syncInProgress = false → passFails env w = true →
      (∃ err, Event.notification ("Sync failed" ++ ": " ++ err) "error"
        ∈ eventsSince w (pass env w)) ∧
      retryTimers (eventsSince w (pass env w)) =
        (if w.app.syncRetryCount < maxRetries
          then [retryDelays[w.app.syncRetryCount]?] else []) ∧
      (pass env w).app.syncRetryCount =
        (if w.app.syncRetryCount < maxRetries
          then w.app.syncRetryCount + 1 else w.app.syncRetryCount)) ∧
    (initialSync env w).1 = .ok () ∧
    (initialSync env w).2.app.isInitialized = true := by
  have hok : (performSync env w).1 = .ok () := by
    by_cases hflag : w.app.syncInProgress = true
    · unfold performSync
      rw [if_pos hflag]
    · have h0 : w.app.syncInProgress = false := by simpa using hflag
      rcases hup : uploadPending env (passStart env w) with ⟨err | ⟨⟨⟩⟩, w2⟩
      · obtain ⟨w5, _, _, hp, _⟩ := performSync_of_uploads_fail env w w2 err h0 hup
        rw [hp]
      · obtain ⟨w5, _, _, _, _, hp, _⟩ := performSync_of_uploads_ok env w w2 h0 hup
        rw [hp]
  have hp : performSync env w = (.ok (), (performSync env w).2) := Prod.ext hok rfl
  refine ⟨hok, ?_, ?_, ?_⟩
  · intro h0 hf
    have h := pass_of_uploads_fail env w h0 hf
    refine ⟨?_, h.1, by rw [h.2]⟩
    obtain ⟨err, herr⟩ := (passFails_iff env w).mp hf
    have hup : uploadPending env (passStart env w)
        = (.error err, (uploadPending env (passStart env w)).2) := Prod.ext herr rfl
    obtain ⟨w5, evsA, evsZ, hp5, hA, _, _, h5, _⟩ :=
      performSync_of_uploads_fail env w _ err h0 hup
    refine ⟨err, ?_⟩
    unfold pass
    rw [hp5]
    have hfull : w5.trace = w.trace ++ (evsA ++
        (Event.notification ("Sync failed" ++ ": " ++ err) "error" ::
          (if w.app.syncRetryCount < maxRetries
            then [Event.setTimeout retryDelays[w.app.syncRetryCount]?] else []) ++ evsZ)) := by
      rw [h5, hA]
      simp
    rw [eventsSince_append w w5 _ hfull]
    simp
  · unfold initialSync
    split
    · rw [hp]
    · rfl
  · unfold initialSync
    split
    · rw [hp]
    · rfl

/-- Witness of C27: a pass of the sample device with the store down. -/
theorem performSync_never_throws_witness :
    passFails Env.storeDown World.sample = true ∧
    retryTimers (eventsSince World.sample (pass Env.storeDown World.sample)) = [some 4000] ∧
    (pass Env.storeDown World.sample).app.syncRetryCount = 3 :=
  have h := (performSync_never_throws Env.storeDown World.sample).2.1 rfl rfl
  ⟨rfl, h.2.1, h.2.2⟩

end EcoSystem
